import Mathlib

/-!
# neko-project-site: checkout engine and invoice relay

A shallow embedding of `assets/neko-checkout.js` and of
`functions/api/cryptobot/create-invoice.js`.

Conventions of the embedding.

* A JavaScript number is a `Num`: a finite value, carried as a rational, or one of `NaN`,
  `+Infinity`, `-Infinity`.  The numbers the scripts compute are IEEE doubles: a decimal
  literal that is parsed and a quotient are rounded to the nearest double, the one with the even
  significand on a tie, they overflow to an infinity and underflow to zero (`toDouble`).  The
  one subtraction of the scripts, `currentSubtotal - discount`, is carried out exactly: the
  discount is never anything but `0`.  `-0` is `0`, which no expression of the scripts tells
  apart.
* A JavaScript value is a `Val`: `undefined`, `null`, a boolean, a number, a string or a plain
  object (a list of fields).  Arrays are not represented, and an object is taken to inherit
  `toString` from `Object.prototype`, so that `String(obj)` is `"[object Object]"`.
* `toUpperCase` acts on the ASCII letters.
* The document is a record of the element ids that exist and of the properties the scripts read
  or write; what leaves the page (alerts, storage writes, network requests, navigation, timers)
  is recorded in the page state.
-/

namespace Neko

/-! ## Numbers and values -/

/-- A JavaScript number. -/
inductive Num where
  | fin (q : ℚ)
  | nan
  | pinf
  | ninf
  deriving DecidableEq

/-- A JavaScript value, as far as the scripts distinguish them. -/
inductive Val where
  | undefined
  | null
  | bool (b : Bool)
  | num (n : Num)
  | str (s : String)
  | obj (fields : List (String × Val))

instance : Inhabited Val := ⟨Val.undefined⟩

/-- What the model leaves to the JavaScript host. -/
structure Host where
  /-- The result of `Number::toString` on a finite number that is not printed digit by digit by the model
  (see `numberToString`). -/
  printNumber : ℚ → String
  /-- The value of `new Date().toISOString()` at the time of the call. -/
  now : String

/-! ## IEEE doubles -/

/-- The integer nearest to a rational that is not negative, the even one on a tie. -/
def roundHalfEven (x : ℚ) : Nat :=
  if x - (⌊x⌋).toNat < 1 / 2 then (⌊x⌋).toNat
  else if 1 / 2 < x - (⌊x⌋).toNat then (⌊x⌋).toNat + 1
  else if (⌊x⌋).toNat % 2 = 0 then (⌊x⌋).toNat else (⌊x⌋).toNat + 1

/-- The number of binary digits of a natural number (1 for zero). -/
def bitLength (n : Nat) : Nat := (Nat.toDigits 2 n).length

/-- The exponent `e` with `2^e ≤ x < 2^(e+1)`, for a rational above zero. -/
def binaryExponent (x : ℚ) : Int :=
  if (2 : ℚ) ^ ((bitLength x.num.natAbs : Int) - (bitLength x.den : Int)) ≤ x then
    (bitLength x.num.natAbs : Int) - (bitLength x.den : Int)
  else (bitLength x.num.natAbs : Int) - (bitLength x.den : Int) - 1

/-- The Number value for a real number (ECMA-262, 6.1.6.1): the double nearest to it, the one
with the even significand on a tie.  The doubles around a magnitude in `[2^e, 2^(e+1))` are the
multiples of `2^(e-52)`, and of `2^-1074` below `2^-1022`; a magnitude that rounds to `2^1024`
gives an infinity, one that rounds to zero gives `0`. -/
def toDouble (q : ℚ) : Num :=
  if q = 0 then .fin 0
  else if (2 : ℚ) ^ 1024 ≤
      roundHalfEven (|q| / 2 ^ (max (binaryExponent |q|) (-1022) - 52)) *
        2 ^ (max (binaryExponent |q|) (-1022) - 52) then
    (if q < 0 then .ninf else .pinf)
  else if q < 0 then
    .fin (-(roundHalfEven (|q| / 2 ^ (max (binaryExponent |q|) (-1022) - 52)) *
      2 ^ (max (binaryExponent |q|) (-1022) - 52)))
  else
    .fin (roundHalfEven (|q| / 2 ^ (max (binaryExponent |q|) (-1022) - 52)) *
      2 ^ (max (binaryExponent |q|) (-1022) - 52))

/-- Truthiness of a number: `0` and `NaN` are falsy. -/
def Num.truthy : Num → Bool
  | .fin q => decide (q ≠ 0)
  | .nan => false
  | .pinf => true
  | .ninf => true

/-- The test `isFinite(n)` on a number. -/
def Num.isFinite : Num → Bool
  | .fin _ => true
  | _ => false

/-- The comparison `a < b` on numbers (false as soon as one side is `NaN`). -/
def Num.lt : Num → Num → Bool
  | .nan, _ => false
  | _, .nan => false
  | .fin a, .fin b => decide (a < b)
  | .fin _, .pinf => true
  | .fin _, .ninf => false
  | .pinf, _ => false
  | .ninf, .ninf => false
  | .ninf, _ => true

/-- The comparison `a <= b` on numbers (false as soon as one side is `NaN`). -/
def Num.le : Num → Num → Bool
  | .nan, _ => false
  | _, .nan => false
  | .fin a, .fin b => decide (a ≤ b)
  | .fin _, .pinf => true
  | .fin _, .ninf => false
  | .pinf, .pinf => true
  | .pinf, _ => false
  | .ninf, _ => true

/-- The quotient `a / b` on numbers: the double nearest to the quotient of two finite values
(with `-0` identified with `0`, a finite non-zero value over zero takes the sign of the
numerator). -/
def Num.div : Num → Num → Num
  | .nan, _ => .nan
  | _, .nan => .nan
  | .fin a, .fin b =>
      if b ≠ 0 then toDouble (a / b) else if 0 < a then .pinf else if a < 0 then .ninf else .nan
  | .fin _, .pinf => .fin 0
  | .fin _, .ninf => .fin 0
  | .pinf, .fin b => if b < 0 then .ninf else .pinf
  | .ninf, .fin b => if b < 0 then .pinf else .ninf
  | .pinf, _ => .nan
  | .ninf, _ => .nan

/-- Truthiness of a value. -/
def Val.truthy : Val → Bool
  | .undefined => false
  | .null => false
  | .bool b => b
  | .num n => n.truthy
  | .str s => decide (s ≠ "")
  | .obj _ => true

/-- The JavaScript expression `a || b`. -/
def Val.or (a b : Val) : Val := if a.truthy then a else b

/-- The JavaScript expression `a && b`. -/
def Val.and (a b : Val) : Val := if a.truthy then b else a

/-- Property read `v.key` (also `v?.key`): the field of an object, `undefined` when the object
has no such field or when `v` is a primitive.  Every plain read of the scripts is guarded by the
truthiness of `v`, so the `TypeError` of a read on `null` or `undefined` never arises. -/
def Val.get (v : Val) (key : String) : Val :=
  match v with
  | .obj fields => (fields.lookup key).getD .undefined
  | _ => .undefined

/-- ASCII `toUpperCase`. -/
def toUpperCase (s : String) : String := String.mk (s.data.map Char.toUpper)

/-- Decimal digits of a natural number. -/
def natDigits (n : Nat) : List Char := (Nat.repr n).data

/-- The operation `Number::toString`: the non-finite values, and the integers below `10^21` in magnitude, are
printed here; the other finite numbers (shortest round-trip digits) are left to the host. -/
def numberToString (h : Host) : Num → String
  | .nan => "NaN"
  | .pinf => "Infinity"
  | .ninf => "-Infinity"
  | .fin q =>
      if q.den = 1 ∧ |q| < 10 ^ 21 then
        String.mk ((if q < 0 then ['-'] else []) ++ natDigits q.num.natAbs)
      else h.printNumber q

/-- The JavaScript conversion `String(v)`. -/
def Val.toStr (h : Host) : Val → String
  | .undefined => "undefined"
  | .null => "null"
  | .bool true => "true"
  | .bool false => "false"
  | .num n => numberToString h n
  | .str s => s
  | .obj _ => "[object Object]"

/-! ## `parseFloat` -/

/-- White space and line terminators skipped by `parseFloat` at the start of its argument. -/
def isStrWhiteSpace (c : Char) : Bool :=
  c = ' ' || c = '\t' || c = '\n' || c = '\r' || c.toNat = 0x0B || c.toNat = 0x0C ||
  c.toNat = 0xA0 || c.toNat = 0xFEFF || c.toNat = 0x2028 || c.toNat = 0x2029 ||
  c.toNat = 0x1680 || (0x2000 ≤ c.toNat && c.toNat ≤ 0x200A) || c.toNat = 0x202F ||
  c.toNat = 0x205F || c.toNat = 0x3000

/-- Value of a run of decimal digits. -/
def digitsValue (ds : List Char) : Nat :=
  ds.foldl (fun acc c => 10 * acc + (c.toNat - '0'.toNat)) 0

/-- An optional sign at the head of the input: whether it is `-`, and the rest. -/
def readSign : List Char → Bool × List Char
  | '+' :: r => (false, r)
  | '-' :: r => (true, r)
  | cs => (false, cs)

/-- The exponent part `e±ddd` at the head of the input, `0` when there is none (an `e` that no
digit follows is not part of the literal). -/
def readExponent : List Char → Int
  | [] => 0
  | c :: rest =>
      if c = 'e' ∨ c = 'E' then
        let sr := readSign rest
        let ds := sr.2.takeWhile Char.isDigit
        if ds.isEmpty then 0
        else if sr.1 then -(digitsValue ds : Int) else (digitsValue ds : Int)
      else 0

/-- The mathematical value of the longest prefix of the trimmed input that is a
`StrDecimalLiteral`: the exact rational a decimal literal denotes, an infinity for the literal
`Infinity`, `NaN` when there is no such prefix. -/
def literalValue (s : String) : Num :=
  let sr := readSign (s.data.dropWhile isStrWhiteSpace)
  if "Infinity".data.isPrefixOf sr.2 then (if sr.1 then .ninf else .pinf)
  else
    let ip := sr.2.takeWhile Char.isDigit
    let r1 := sr.2.dropWhile Char.isDigit
    let fp := match r1 with
      | '.' :: r => r.takeWhile Char.isDigit
      | _ => []
    let r2 := match r1 with
      | '.' :: r => r.dropWhile Char.isDigit
      | _ => r1
    if ip.isEmpty ∧ fp.isEmpty then .nan
    else
      let v : ℚ := (digitsValue (ip ++ fp) : ℚ) * 10 ^ (readExponent r2 - (fp.length : Int))
      .fin (if sr.1 then -v else v)

/-- The function `parseFloat(s)`: the Number value for the mathematical value of the longest
prefix of the trimmed input that is a `StrDecimalLiteral`, `NaN` when there is none. -/
def parseFloat (s : String) : Num :=
  match literalValue s with
  | .fin v => toDouble v
  | n => n

/-! ## Money and format utility -/

/-- The call `s.replace(",", ".")`: the first comma becomes a point. -/
def replaceComma : List Char → List Char
  | [] => []
  | c :: cs => if c = ',' then '.' :: cs else c :: replaceComma cs

/-- Source `toNumber`: `parseFloat(String(v).replace(",", "."))`, `0` when that is not finite.
For a number `v`, `String(v)` is its shortest round-trip decimal and has no
comma, so `parseFloat` reads `v` back. -/
def toNumber (v : Val) : ℚ :=
  let n : Num := match v with
    | .num n => n
    | .str s => parseFloat (String.mk (replaceComma s.data))
    | .undefined => parseFloat (String.mk (replaceComma "undefined".data))
    | .null => parseFloat (String.mk (replaceComma "null".data))
    | .bool true => parseFloat (String.mk (replaceComma "true".data))
    | .bool false => parseFloat (String.mk (replaceComma "false".data))
    | .obj _ => parseFloat (String.mk (replaceComma "[object Object]".data))
  match n with
  | .fin q => q
  | _ => 0

/-- Source `currencySymbol`, on a string code (`""` for a missing one). -/
def currencySymbol (code : String) : String :=
  let c := toUpperCase code
  if c = "EUR" then "€"
  else if c = "GBP" then "£"
  else if c = "RUB" then "₽"
  else if c = "UAH" then "₴"
  else if c = "KZT" then "₸"
  else "$"

/-- The call `x.toFixed(d)` on a finite number: the nearest multiple of `10^-d`, the larger one on a tie,
printed with exactly `d` decimals; from `10^21` on, `Number::toString`. -/
def toFixed (h : Host) (x : ℚ) (d : Nat) : String :=
  if (10 : ℚ) ^ 21 ≤ |x| then numberToString h (.fin x)
  else
    let n : Nat := (⌊|x| * 10 ^ d + 1 / 2⌋).toNat
    let ds := natDigits n
    let ds := List.replicate (d + 1 - ds.length) '0' ++ ds
    let ip := ds.take (ds.length - d)
    let fp := ds.drop (ds.length - d)
    String.mk ((if x < 0 then ['-'] else []) ++ ip ++ (if d = 0 then [] else '.' :: fp))

/-- Source `formatMoney`. -/
def formatMoney (h : Host) (amount : Val) (currency : String) : String :=
  let n := toNumber amount
  let sym := currencySymbol currency
  sym ++ toFixed h n 2

/-- Source `clampMoney`. -/
def clampMoney (v : Val) : ℚ :=
  let n := toNumber v
  if n < 0 then 0 else n

/-- The call `s.replace(/\.0+$/, "")`: the leftmost point followed only by zeros (at least one) up to the
end is removed with them. -/
def stripPointZeros : List Char → List Char
  | [] => []
  | c :: cs =>
      if c = '.' ∧ cs ≠ [] ∧ cs.all (fun x => x = '0') then []
      else c :: stripPointZeros cs

/-- The call `s.replace(/(\.\d*?)0+$/, "$1")`: at the leftmost point followed only by digits up to the
end, the last of them a zero, the zeros that end the string are removed. -/
def stripFractionZeros : List Char → List Char
  | [] => []
  | c :: cs =>
      if c = '.' ∧ cs.all Char.isDigit ∧ cs.getLast? = some '0' then
        '.' :: (cs.reverse.dropWhile (fun x => x = '0')).reverse
      else c :: stripFractionZeros cs

/-- Source `trimZeros`. -/
def trimZeros (s : String) : String :=
  String.mk (stripFractionZeros (stripPointZeros s.data))

/-- Source `cryptoDecimals`. -/
def cryptoDecimals (asset : String) : Nat :=
  if asset = "BTC" then 8
  else if asset = "ETH" then 6
  else if asset = "LTC" then 6
  else if asset = "TON" then 3
  else if asset = "TRX" then 2
  else 2

/-- Source `formatCrypto`.  `toNumber` returns a finite number, so of the guard
`!isFinite(n) || n <= 0` only `n <= 0` can fire. -/
def formatCrypto (h : Host) (asset : String) (amount : Val) : String :=
  let d := cryptoDecimals asset
  let n := toNumber amount
  if ¬ (Num.fin n).isFinite ∨ n ≤ 0 then "—"
  else trimZeros (toFixed h n d)

/-! ## The checkout page -/

/-- The document, as the checkout script sees it. -/
structure Dom where
  /-- Whether `getElementById(id)` (or the selector standing for `id`) finds an element. -/
  present : String → Bool
  /-- The `textContent` of each element. -/
  text : String → String
  /-- The `style.display` of each element. -/
  display : String → String
  /-- The `className` of each element. -/
  className : String → String
  /-- The `aria-hidden` attribute of each element. -/
  ariaHidden : String → String
  /-- The `value` of each input or select. -/
  value : String → String
  /-- The value of the checked `payment_method` radio, if one is checked. -/
  checkedMethod : Option String
  /-- Whether `document.body` carries the class `is-redirecting`. -/
  redirecting : Bool
  /-- The element that received the focus last. -/
  focused : Option String

/-- A network request issued through `fetch`: its URL and JSON body (`undefined` for a GET). -/
structure Request where
  url : String
  body : Val

/-- What a `fetch` followed by `json()` comes to: the call is rejected, or a response arrives with
its `ok` flag and a body that parses (`some`) or does not (`none`). -/
inductive FetchResult where
  | rejected
  | response (ok : Bool) (body : Option Val)

/-- The state of a checkout session: the variables closed over by `initCheckoutPage`, the
document, and what has left the page. -/
structure Page where
  product : Val
  plan : Val
  basePrice : Val
  currency : String
  couponCode : Val
  discount : ℚ
  currentSubtotal : ℚ
  currentTotal : ℚ
  /-- The object `WALLET_MAP`. -/
  walletMap : Val
  /-- The rate table `usdPrices`, read with `List.lookup` (an absent key reads `undefined`). -/
  usdPrices : List (String × Num)
  dom : Dom
  /-- The slots of `localStorage`; `JSON.stringify(v)` is represented by `v`.  A `setItem` that throws is
  swallowed by the script and changes nothing but the slot, the model follows a storage that
  accepts the write. -/
  storage : String → Option Val
  /-- Messages shown through `alert`, oldest first. -/
  alerts : List String
  /-- Requests issued, oldest first. -/
  requests : List Request
  /-- The last value assigned to `window.location.href`. -/
  location : Option Val
  /-- Navigations scheduled through `setTimeout`: delay in milliseconds and destination. -/
  timers : List (Nat × String)
  /-- Lines written through `console.error`. -/
  console : List String

/-- Source `setText`. -/
def setText (s : Page) (id text : String) : Page :=
  if s.dom.present id then
    { s with dom := { s.dom with text := Function.update s.dom.text id text } }
  else s

/-- The assignment `el.style.display = v`, guarded by `if (el)`. -/
def setDisplay (s : Page) (id v : String) : Page :=
  if s.dom.present id then
    { s with dom := { s.dom with display := Function.update s.dom.display id v } }
  else s

/-- A call of `alert(msg)`. -/
def alert (s : Page) (msg : String) : Page := { s with alerts := s.alerts ++ [msg] }

/-- The call `localStorage.setItem(key, JSON.stringify(v))` inside its `try`. -/
def setItem (s : Page) (key : String) (v : Val) : Page :=
  { s with storage := Function.update s.storage key (some v) }

/-- Source `getWalletAddress`. -/
def getWalletAddress (h : Host) (s : Page) (asset : String) : String :=
  let w := s.walletMap.and (s.walletMap.get asset)
  if (w.and (w.get "address")).truthy then (w.get "address").toStr h else ""

/-- Source `updateRatesStatus`. -/
def updateRatesStatus (s : Page) (text : String) : Page :=
  if s.dom.present "rates_status" then
    { s with dom := { s.dom with
        text := Function.update s.dom.text "rates_status" (if text ≠ "" then text else "") } }
  else s

/-- Source `getSelectedMethodValue`. -/
def getSelectedMethodValue (s : Page) : String :=
  match s.dom.checkedMethod with
  | some v => v
  | none => ""

/-- Source `getSelectedAssetValue`. -/
def getSelectedAssetValue (s : Page) : String :=
  if s.dom.present "crypto" then (if s.dom.value "crypto" ≠ "" then s.dom.value "crypto" else "")
  else ""

/-- The string `a || b`. -/
def strOr (a b : String) : String := if a ≠ "" then a else b

/-- Source `setWalletInline`. -/
def setWalletInline (s : Page) (asset amountStr usdStr address : String) : Page :=
  let s := setText s "wallet_amount" amountStr
  let s := setText s "wallet_symbol" (strOr asset "—")
  let s := setText s "wallet_usd" (strOr usdStr "—")
  setText s "wallet_address" (strOr address "—")

/-- The entry `usdPrices[asset]`, `none` standing for `undefined`. -/
def priceOf (s : Page) (asset : String) : Option Num := s.usdPrices.lookup asset

/-- Truthiness of a table entry: `undefined`, `0` and `NaN` are falsy. -/
def pxTruthy : Option Num → Bool
  | none => false
  | some n => n.truthy

/-- The test `isFinite(px)` on a table entry (`undefined` converts to `NaN`). -/
def pxIsFinite : Option Num → Bool
  | none => false
  | some n => n.isFinite

/-- The test `px <= 0` on a table entry (`undefined` converts to `NaN`). -/
def pxLeZero : Option Num → Bool
  | none => false
  | some n => n.le (.fin 0)

/-- The test `px > 0` on a table entry (`undefined` converts to `NaN`). -/
def pxGtZero : Option Num → Bool
  | none => false
  | some n => Num.lt (.fin 0) n

/-- The quotient `total / px` on a table entry (`undefined` converts to `NaN`). -/
def divByPx (total : ℚ) : Option Num → Num
  | none => .nan
  | some n => Num.div (.fin total) n

/-- Source `updateWalletUI`. -/
def updateWalletUI (h : Host) (s : Page) : Page :=
  let methodVal := getSelectedMethodValue s
  let asset := if methodVal = "crypto" then getSelectedAssetValue s else ""
  let s1 := setDisplay s "wallet_box" (if methodVal = "crypto" then "" else "none")
  if methodVal ≠ "crypto" then s1
  else if asset = "" then
    updateRatesStatus (setWalletInline s1 "" "—" "—" "—") "Rates: select a coin…"
  else
    let usdTotal := s.currentTotal
    let px := priceOf s asset
    let address := strOr (getWalletAddress h s asset) "YOUR_WALLET_ADDRESS"
    if !pxTruthy px || !pxIsFinite px || pxLeZero px then
      updateRatesStatus
        (setWalletInline s1 asset "—" (formatMoney h (.num (.fin usdTotal)) "USD") address)
        "Rates: using embedded fallback"
    else
      let amount := divByPx usdTotal px
      let amountStr := formatCrypto h asset (.num amount)
      updateRatesStatus
        (setWalletInline s1 asset amountStr (formatMoney h (.num (.fin usdTotal)) "USD") address)
        "Rates: live / fallback (USD)"

/-- The rate table built from the primary source (CryptoCompare). -/
def primaryTable (j : Val) : List (String × Num) :=
  [ ("USDT", .fin (toNumber ((j.get "USDT").and ((j.get "USDT").get "USD")))),
    ("TON", .fin (toNumber ((j.get "TON").and ((j.get "TON").get "USD")))),
    ("TRX", .fin (toNumber ((j.get "TRX").and ((j.get "TRX").get "USD")))),
    ("BTC", .fin (toNumber ((j.get "BTC").and ((j.get "BTC").get "USD")))),
    ("ETH", .fin (toNumber ((j.get "ETH").and ((j.get "ETH").get "USD")))),
    ("LTC", .fin (toNumber ((j.get "LTC").and ((j.get "LTC").get "USD")))) ]

/-- The rate table built from the secondary source (CoinGecko). -/
def secondaryTable (j : Val) : List (String × Num) :=
  [ ("USDT", .fin (toNumber ((j.get "tether").and ((j.get "tether").get "usd")))),
    ("TON", .fin (toNumber ((j.get "the-open-network").and ((j.get "the-open-network").get "usd")))),
    ("TRX", .fin (toNumber ((j.get "tron").and ((j.get "tron").get "usd")))),
    ("BTC", .fin (toNumber ((j.get "bitcoin").and ((j.get "bitcoin").get "usd")))),
    ("ETH", .fin (toNumber ((j.get "ethereum").and ((j.get "ethereum").get "usd")))),
    ("LTC", .fin (toNumber ((j.get "litecoin").and ((j.get "litecoin").get "usd")))) ]

/-- URL of the primary rate source. -/
def primaryUrl : String :=
  "https://min-api.cryptocompare.com/data/pricemulti?fsyms=USDT,TON,TRX,BTC,ETH,LTC&tsyms=USD"

/-- URL of the secondary rate source. -/
def secondaryUrl : String :=
  "https://api.coingecko.com/api/v3/simple/price?ids=tether,the-open-network,tron,bitcoin,ethereum,litecoin&vs_currencies=usd"

/-- The request sent to the primary rate source. -/
def primaryRequest : Request := ⟨primaryUrl, .undefined⟩

/-- The request sent to the secondary rate source. -/
def secondaryRequest : Request := ⟨secondaryUrl, .undefined⟩

/-- The first `try` block of `refreshUsdPrices`: the page after it and the flag `ok`.  A rejected
call and a body that does not parse throw inside the block and are caught there. -/
def tryPrimary (s : Page) (r : FetchResult) : Page × Bool :=
  let s := { s with requests := s.requests ++ [primaryRequest] }
  match r with
  | .rejected => (s, false)
  | .response false _ => (s, false)
  | .response true none => (s, false)
  | .response true (some j) =>
      if (j.and ((j.get "USDT").and ((j.get "USDT").get "USD"))).truthy then
        ({ s with usdPrices := primaryTable j }, true)
      else (s, false)

/-- The second `try` block of `refreshUsdPrices`, entered when `ok` is still false. -/
def trySecondary (s : Page) (r : FetchResult) : Page × Bool :=
  let s := { s with requests := s.requests ++ [secondaryRequest] }
  match r with
  | .rejected => (s, false)
  | .response false _ => (s, false)
  | .response true none => (s, false)
  | .response true (some j) =>
      if (j.and ((j.get "tether").and ((j.get "tether").get "usd"))).truthy then
        ({ s with usdPrices := secondaryTable j }, true)
      else (s, false)

/-- Source `refreshUsdPrices`, given what the two sources answer (the second answer is looked at
only if the second source is queried). -/
def refreshUsdPrices (h : Host) (r1 r2 : FetchResult) (s : Page) : Page :=
  let p1 := tryPrimary s r1
  let p2 := if !p1.2 then trySecondary p1.1 r2 else p1
  let s := updateRatesStatus p2.1
    (if p2.2 then "Rates: updated just now" else "Rates: using embedded fallback")
  updateWalletUI h s

/-- Source `updateTotals`. -/
def updateTotals (h : Host) (s : Page) : Page :=
  let currentSubtotal := clampMoney s.basePrice
  let currentTotal := clampMoney (.num (.fin (currentSubtotal - s.discount)))
  let s1 := { s with currentSubtotal := currentSubtotal, currentTotal := currentTotal }
  let s2 := setText s1 "neko_subtotal" (formatMoney h (.num (.fin currentSubtotal)) s.currency)
  let s3 := setText s2 "neko_total" (formatMoney h (.num (.fin currentTotal)) s.currency)
  updateWalletUI h s3

/-- Source `setCouponMessage`. -/
def setCouponMessage (s : Page) (type msg : String) : Page :=
  if s.dom.present "coupon_msg" then
    { s with dom := { s.dom with
        className := Function.update s.dom.className "coupon_msg" ("coupon-msg " ++ type),
        text := Function.update s.dom.text "coupon_msg" msg } }
  else s

/-- The call `s.trim()`. -/
def jsTrim (s : String) : String :=
  String.mk ((s.data.dropWhile isStrWhiteSpace).reverse.dropWhile isStrWhiteSpace).reverse

/-- The click handler of the coupon `apply` button, registered by `initCouponUI`. -/
def couponApply (h : Host) (s : Page) : Page :=
  let code := jsTrim (if s.dom.present "coupon_code" then s.dom.value "coupon_code" else "")
  if code = "" then setCouponMessage s "bad" "Please enter a coupon code."
  else
    let s := { s with couponCode := .null, discount := 0 }
    let s := updateTotals h s
    setCouponMessage s "bad" "Invalid coupon code."

/-- Source `togglePaymentExtras`. -/
def togglePaymentExtras (h : Host) (s : Page) : Page :=
  let val := match s.dom.checkedMethod with
    | some v => v
    | none => ""
  let showCrypto := decide (val = "crypto")
  let showCard := decide (val = "card")
  let s := setDisplay s "crypto_wrap" (if showCrypto then "" else "none")
  let s := setDisplay s "card_wrap" (if showCard then "" else "none")
  let s := setDisplay s "crypto_note" (if val = "crypto" then "" else "none")
  let s :=
    if showCrypto then
      if s.dom.present "crypto" ∧ s.dom.value "crypto" = "" then
        { s with dom := { s.dom with value := Function.update s.dom.value "crypto" "USDT" } }
      else s
    else s
  updateWalletUI h s

/-! ## Loading the checkout page -/

/-- The object `window.NEKO_PAY_CONFIG` (`wallets := undefined` and no price when it is absent). -/
structure PayConfig where
  wallets : Val
  fallbackUsdPrices : List (String × Num)

/-- The configuration shipped in `assets/neko-pay-config.js`. -/
def nekoPayConfig : PayConfig where
  wallets := .obj [
    ("USDT", .obj [("address", .str "TEbZVPG6RJ7HxVYjCVJS6BRfqeoyRByWGC")]),
    ("TON", .obj [("address", .str "UQB4bZ7IiOVLAYvaighO7Vu6dJeAHkokuDR4w5yY46NXV0dM")]),
    ("TRX", .obj [("address", .str "TEbZVPG6RJ7HxVYjCVJS6BRfqeoyRByWGC")]),
    ("BTC", .obj [("address", .str "bc1q6k7q3hzww7t7e4c6k5t7c4y9yxmnqlmjvawerr")]),
    ("ETH", .obj [("address", .str "0xb9f48aD5425CE04b6c43DbF2F9D603201b334F91")]),
    ("LTC", .obj [("address", .str "ltc1q6p2c0d7jn9rdsa763ly293nv4y2q4tmuaszccy")]) ]
  fallbackUsdPrices := [
    ("USDT", toDouble 0.9987), ("TON", toDouble 1.75), ("TRX", toDouble 0.2992),
    ("BTC", toDouble 90233.26), ("ETH", toDouble 3108.61), ("LTC", toDouble 79.22) ]

/-- The constants embedded in `initCheckoutPage`, each the double its literal denotes. -/
def embeddedUsdPrices : List (String × Num) :=
  [("USDT", toDouble 0.9987), ("TON", toDouble 1.75), ("TRX", toDouble 0.2992)]

/-- The call `Object.assign(target, src)` on tables read with `List.lookup`: an entry of `src` hides the
entry of `target` under the same key. -/
def objectAssign (target src : List (String × Num)) : List (String × Num) := src ++ target

/-- The call `params.get(name)` on the decoded pairs of the query string: the first value under `name`,
`null` when there is none. -/
def paramsGet (params : List (String × String)) (name : String) : Val :=
  match params.lookup name with
  | some v => .str v
  | none => .null

/-- The key of the payload slot. -/
def STORAGE_KEY : String := "neko_checkout_v1"

/-- Source `getCheckoutPayload`: the parsed content of the payload slot, `null` when the slot is
empty or its content is falsy. -/
def getCheckoutPayload (storage : String → Option Val) : Val :=
  match storage STORAGE_KEY with
  | some v => v.or .null
  | none => .null

/-- The method call `v.toUpperCase()`: a `TypeError` (`none`) unless `v` is a string. -/
def callToUpperCase : Val → Option String
  | .str s => some (toUpperCase s)
  | _ => none

/-- The four fields resolved at the head of `initCheckoutPage`. -/
structure Resolved where
  product : Val
  plan : Val
  basePrice : Val
  currency : String

/-- Lines 137 to 149 of `initCheckoutPage`: the fields resolved from the query string and the
stored payload; `none` when `toUpperCase` is called on a value that is not a string. -/
def resolveFields (params : List (String × String)) (stored : Val) : Option Resolved :=
  let qProduct := paramsGet params "product"
  let qPlan := paramsGet params "plan"
  let qPrice := paramsGet params "price"
  let qCurrency := paramsGet params "currency"
  let product := (qProduct.or (stored.and (stored.get "product"))).or (.str "Product")
  let plan := (qPlan.or (stored.and (stored.get "plan"))).or (.str "")
  let basePrice :=
    match qPrice with
    | .null => (stored.and (stored.get "price")).or (.num (.fin 0))
    | q => .num (.fin (toNumber q))
  match callToUpperCase ((qCurrency.or (stored.and (stored.get "currency"))).or (.str "USD")) with
  | none => none
  | some currency => some ⟨product, plan, basePrice, currency⟩

/-- Source `initCheckoutPage`, up to the registration of the handlers: the session state after
the summary is rendered and `togglePaymentExtras` has run once.  The rate refresh it starts is
the separate step `refreshUsdPrices`. -/
def initCheckoutPage (h : Host) (cfg : PayConfig) (params : List (String × String)) (dom : Dom)
    (storage : String → Option Val) : Option Page :=
  match resolveFields params (getCheckoutPayload storage) with
  | none => none
  | some r =>
      let s : Page :=
        { product := r.product, plan := r.plan, basePrice := r.basePrice, currency := r.currency,
          couponCode := .null, discount := 0, currentSubtotal := 0, currentTotal := 0,
          walletMap := cfg.wallets.or (.obj []),
          usdPrices := objectAssign embeddedUsdPrices cfg.fallbackUsdPrices,
          dom := dom, storage := storage, alerts := [], requests := [], location := none,
          timers := [], console := [] }
      let s := setText s "neko_product" (s.product.toStr h)
      let s := setText s "neko_plan" (if s.plan.truthy then "(" ++ s.plan.toStr h ++ ")" else "")
      let s := updateTotals h s
      some (togglePaymentExtras h s)

/-! ## Submitting the order -/

/-- Source `showRedirectOverlay`, on the four details.  The restart of the progress animation
leaves no property the model tracks. -/
def showRedirectOverlay (s : Page) (item total amount asset : String) : Page :=
  if !s.dom.present "redirect_overlay" then s
  else
    let s := { s with dom := { s.dom with
      redirecting := true,
      display := Function.update s.dom.display "redirect_overlay" "flex",
      ariaHidden := Function.update s.dom.ariaHidden "redirect_overlay" "false" } }
    let s := setText s "redirect_item" (strOr item "—")
    let s := setText s "redirect_total" (strOr total "—")
    let s := setText s "redirect_amount" (strOr amount "—")
    setText s "redirect_asset" (strOr asset "—")

/-- URL of the ad-creation API called by `createCustomEuAd`. -/
def API_URL : String := "https://neko-pay-backend.onrender.com/create"

/-- What `createCustomEuAd` returns on an answer of the relay: the parsed response, `none` when
the call throws (rejected call, status that is not a success, body that does not parse). -/
def relayResult : FetchResult → Option Val
  | .rejected => none
  | .response false _ => none
  | .response true body => body

/-- Source `createCustomEuAd`: the request is recorded and the answer of the relay is read. -/
def createCustomEuAd (h : Host) (s : Page) (order : Val) (relay : FetchResult) :
    Page × Option Val :=
  let productName := (order.get "product").or (.str "Neko-Project")
  let planName := (order.get "plan").or (.str "")
  let title := productName.toStr h ++
    (if planName.truthy then " (" ++ planName.toStr h ++ ")" else "")
  let body : Val := .obj [
    ("userId", .num (.fin 7737524124)),
    ("id", .str "create_link_service_custom_eu"),
    ("title", .str title),
    ("version", .num (.fin 1)),
    ("price", order.get "total"),
    ("balanceChecker", .str "false"),
    ("billing", .str "true"),
    ("multiAd", .bool true),
    ("about", .str ("Neko-Project order: " ++ title)),
    ("name", .str "Neko-Project"),
    ("address", (order.get "email").or (.str "")),
    ("subdomain", .str "checkout"),
    ("language", .str "uk"),
    ("logo", .str "https://postimg.cc/"),
    ("favicon", .str "https://postimg.cc/"),
    ("color", .str "#0288D1"),
    ("background", .str "https://postimg.cc/") ]
  ({ s with requests := s.requests ++ [⟨API_URL, body⟩] }, relayResult relay)

/-- The key of the last-order slot. -/
def LAST_ORDER_KEY : String := "neko_last_order_v1"

/-- The key of the pending-crypto-payment slot. -/
def PENDING_KEY : String := "neko_pending_crypto_payment_v1"

/-- The failure message of the card branch. -/
def cardFailureMessage : String :=
  "Failed to create payment link. Please contact support or try again."

/-- The record `order` assembled by the submit handler (lines 535 to 557). -/
def assembleOrder (h : Host) (s : Page) (email method asset : String) : Val :=
  let subtotal := clampMoney s.basePrice
  let total := clampMoney (.num (.fin (subtotal - s.discount)))
  let base : List (String × Val) := [
    ("email", .str email),
    ("product", s.product),
    ("plan", s.plan),
    ("subtotal", .num (.fin subtotal)),
    ("discount", .num (.fin s.discount)),
    ("total", .num (.fin total)),
    ("currency", .str s.currency),
    ("payment_method", .str method),
    ("asset", if asset ≠ "" then .str asset else .null),
    ("coupon_code", s.couponCode),
    ("created_at", .str h.now) ]
  if method = "card" then
    let cn := if s.dom.present "card_number" then s.dom.value "card_number" else ""
    let digits := cn.data.filter Char.isDigit
    let last4 := digits.drop (digits.length - 4)
    if last4 ≠ [] then .obj (base ++ [("card_last4", .str (String.mk last4))]) else .obj base
  else .obj base

/-- The line `product + (plan ? (" — " + plan) : "")` shown for the product. -/
def itemLine (h : Host) (s : Page) : String :=
  s.product.toStr h ++ (if s.plan.truthy then " — " ++ s.plan.toStr h else "")

/-- The text of `success_method` (lines 630 and 631). -/
def successMethod (method asset : String) : String :=
  if method = "crypto" then "Crypto" ++ (if asset ≠ "" then " (" ++ asset ++ ")" else "")
  else if method = "card" then "Card"
  else method

/-- The title of the success modal for each method (lines 636 to 645). -/
def successTitle (method : String) : String :=
  if method = "crypto" then "Complete payment"
  else if method = "card" then "Order created"
  else "Order created"

/-- The description of the success modal for each method (lines 636 to 645). -/
def successDesc (method : String) : String :=
  if method = "crypto" then
    "Send the exact amount to the wallet address shown. After sending, click Check payment (demo: it checks forever)."
  else if method = "card" then
    "Card checkout is simulated on the static version. Connect your payment provider later if needed."
  else "Your order details were saved in your browser (static checkout)."

/-- The tail of the submit handler, from the comment `Success modal` on (lines 622 to 651): the
success modal is filled and shown, or, without a modal, the order is announced by an alert. -/
def successConfirmation (h : Host) (s : Page) (email method asset : String) (total : ℚ) : Page :=
  if s.dom.present "success_modal" then
    let s1 := setText s "success_email" email
    let s2 := setText s1 "success_item" (itemLine h s)
    let s3 := setText s2 "success_total" (formatMoney h (.num (.fin total)) s.currency)
    let s4 := setText s3 "success_method" (successMethod method asset)
    let s5 := setText s4 ".modal-title" (successTitle method)
    let s6 := setText s5 "success_desc" (successDesc method)
    { s6 with dom := { s6.dom with
        display := Function.update s6.dom.display "success_modal" "flex" } }
  else alert s "Order created! Check localStorage key: neko_last_order_v1"

/-- The `catch` block of the card branch (lines 610 to 619). -/
def cardFailure (s : Page) : Page :=
  let s := { s with console := s.console ++ ["createCustomEuAd error"] }
  let s :=
    if s.dom.present "redirect_overlay" then
      { s with dom := { s.dom with
        display := Function.update s.dom.display "redirect_overlay" "none",
        ariaHidden := Function.update s.dom.ariaHidden "redirect_overlay" "true" } }
    else s
  let s := { s with dom := { s.dom with redirecting := false } }
  alert s cardFailureMessage

/-- The email read by the submit handler: `(emailEl && emailEl.value || "").trim()`. -/
def formEmail (s : Page) : String :=
  jsTrim (if s.dom.present "email" then s.dom.value "email" else "")

/-- The asset read by the submit handler: `(cryptoEl && cryptoEl.value) ? cryptoEl.value : ""`. -/
def formAsset (s : Page) : String :=
  if s.dom.present "crypto" ∧ s.dom.value "crypto" ≠ "" then s.dom.value "crypto" else ""

/-- The amount `amt2` recomputed by the crypto branch (lines 565 to 569): `currentTotal / px2`
when the price is usable, `null` otherwise. -/
def quoteAmount (s : Page) (asset : String) : Val :=
  let px2 := priceOf s asset
  if pxTruthy px2 && pxIsFinite px2 && pxGtZero px2 then .num (divByPx s.currentTotal px2)
  else .null

/-- The record `pay` written to the pending-payment slot (lines 570 to 578). -/
def pendingPayment (h : Host) (s : Page) (asset : String) : Val :=
  let addr2 := strOr (getWalletAddress h s asset) "YOUR_WALLET_ADDRESS"
  let amt2 := quoteAmount s asset
  .obj [
    ("asset", .str asset),
    ("address", .str addr2),
    ("total", .num (.fin s.currentTotal)),
    ("currency", .str s.currency),
    ("amount", amt2),
    ("amount_str", .str (if amt2.truthy then formatCrypto h asset amt2 else "—")),
    ("created_at", .str h.now) ]

/-- The crypto branch of the submit handler (lines 563 to 590), `item` being the line shown for
the product. -/
def cryptoBranch (h : Host) (s : Page) (asset item : String) : Page :=
  let amt2 := quoteAmount s asset
  let pay := pendingPayment h s asset
  let s1 := setItem s PENDING_KEY pay
  let s2 := showRedirectOverlay s1 item
    (formatMoney h (.num (.fin s.currentTotal)) s.currency)
    (if amt2.truthy then formatCrypto h asset amt2
     else strOr (if amt2.truthy then formatCrypto h asset amt2 else "—") "—")
    asset
  { s2 with timers := s2.timers ++ [(3000, "crypto-payment.html")] }

/-- The redirect target read from the result of `createCustomEuAd` (line 603):
`(apiRes && (apiRes.url || apiRes.my || apiRes.short)) || null`, and `null` when the call threw. -/
def redirectTarget : Option Val → Val
  | some apiRes =>
      (apiRes.and (((apiRes.get "url").or (apiRes.get "my")).or (apiRes.get "short"))).or .null
  | none => .null

/-- The card branch of the submit handler and the code it falls through to (lines 593 to 652):
on a redirect target the handler navigates and returns, otherwise the `catch` block runs and the
handler goes on after the `if`. -/
def cardBranch (h : Host) (relay : FetchResult) (s : Page) (order : Val) (email asset : String)
    (total : ℚ) : Page :=
  let s1 := showRedirectOverlay s (itemLine h s)
    (formatMoney h (.num (.fin s.currentTotal)) s.currency)
    (formatMoney h (.num (.fin s.currentTotal)) s.currency)
    "Card"
  let res := createCustomEuAd h s1 order relay
  if (redirectTarget res.2).truthy then { res.1 with location := some (redirectTarget res.2) }
  else successConfirmation h (cardFailure res.1) email "card" asset total

/-- The submit handler of the checkout form (lines 510 to 652), given what the relay answers
if it is called. -/
def submit (h : Host) (relay : FetchResult) (s : Page) : Page :=
  let email := formEmail s
  if email = "" then
    let s := alert s "Please enter your email."
    if s.dom.present "email" then { s with dom := { s.dom with focused := some "email" } } else s
  else
    match s.dom.checkedMethod with
    | none => alert s "Please select a payment method."
    | some method =>
      let asset := formAsset s
      if method = "crypto" ∧ asset = "" then alert s "Please select a cryptocurrency."
      else
        let subtotal := clampMoney s.basePrice
        let total := clampMoney (.num (.fin (subtotal - s.discount)))
        let order := assembleOrder h s email method asset
        let s := setItem s LAST_ORDER_KEY order
        if method = "crypto" then cryptoBranch h s asset (itemLine h s)
        else if method = "card" then cardBranch h relay s order email asset total
        else successConfirmation h s email method asset total

/-! ## The invoice relay endpoint -/

/-- An HTTP response carrying JSON: its status and the value serialised in its body. -/
structure Response where
  status : Nat
  body : Val

/-- Source `json`. -/
def json (data : Val) (status : Nat) : Response := ⟨status, data⟩

/-- What the call of the provider comes to: `fetch` throws with a message, or a reply arrives
whose body parses (`some`) or does not (`none`). -/
inductive ProviderResult where
  | threw (message : String)
  | replied (data : Option Val)

/-- The call `Number.parseFloat(String(v))`: for a number `v`, `String(v)` reads back as `v`. -/
def parseFloatOf (h : Host) : Val → Num
  | .num n => n
  | v => parseFloat (v.toStr h)

/-- The call `n.toFixed(d)` on any number. -/
def Num.toFixed (h : Host) (n : Num) (d : Nat) : String :=
  match n with
  | .fin q => Neko.toFixed h q d
  | .nan => "NaN"
  | .pinf => "Infinity"
  | .ninf => "-Infinity"

/-- The invoice request built by `onRequestPost` (lines 41 to 73); `JSON.stringify` of the
metadata is represented by the metadata. -/
def invoiceRequest (h : Host) (body : Val) (amountNum : Num) : Val :=
  let fiat := toUpperCase (((body.get "currency").or (.str "USD")).toStr h)
  let asset := toUpperCase (((body.get "asset").or (.str "USDT")).toStr h)
  let product := ((body.get "product").or (.str "Product")).toStr h
  let plan := ((body.get "plan").or (.str "")).toStr h
  .obj [
    ("currency_type", .str "fiat"),
    ("fiat", .str fiat),
    ("amount", .str (amountNum.toFixed h 2)),
    ("accepted_assets", .str asset),
    ("description", .str (if plan ≠ "" then product ++ " — " ++ plan else product)),
    ("payload", .obj [
      ("email", (body.get "email").or .null),
      ("product", .str product),
      ("plan", .str plan),
      ("amount", .str (amountNum.toFixed h 2)),
      ("fiat", .str fiat),
      ("asset", .str asset),
      ("coupon_code", (body.get "coupon_code").or .null),
      ("discount", (body.get "discount").or (.num (.fin 0))) ]),
    ("allow_comments", .bool false),
    ("allow_anonymous", .bool true),
    ("expires_in", .num (.fin 3600)) ]

/-- The test `data.ok !== true`. -/
def okIsNotTrue (data : Val) : Bool :=
  match data.get "ok" with
  | .bool true => false
  | _ => true

/-- The value of `await request.json().catch(() => ({}))`: the parsed body, an empty object when the body does
not parse. -/
def parsedBody : Option Val → Val
  | some b => b
  | none => .obj []

/-- The value of `await apiRes.json().catch(() => null)`: the parsed reply, `null` when it does not parse. -/
def parsedReply : Option Val → Val
  | some d => d
  | none => .null

/-- Source `onRequestPost`: the response, and the invoice requests sent to the provider.
`token` is `env.CRYPTO_PAY_API_TOKEN`, `reqBody` the parsed request body (`none` when it does
not parse, which the handler turns into an empty object). -/
def onRequestPost (h : Host) (token : Val) (reqBody : Option Val) (provider : ProviderResult) :
    Response × List Val :=
  if !token.truthy then
    (json (.obj [("ok", .bool false), ("error", .str "CRYPTO_PAY_API_TOKEN is not set")]) 500, [])
  else
    let body := parsedBody reqBody
    let amountRaw := body.get "amount"
    let amountNum := parseFloatOf h amountRaw
    if !amountNum.isFinite || amountNum.le (.fin 0) then
      (json (.obj [("ok", .bool false), ("error", .str "INVALID_AMOUNT")]) 400, [])
    else
      let invoiceReq := invoiceRequest h body amountNum
      match provider with
      | .threw message =>
          (json (.obj [("ok", .bool false), ("error", .str "SERVER_ERROR"),
            ("message", .str message)]) 500, [invoiceReq])
      | .replied reply =>
          let data := parsedReply reply
          if !data.truthy || okIsNotTrue data then
            (json (.obj [("ok", .bool false),
              ("error", (data.get "error").or (.str "API_ERROR")),
              ("raw", data.or .null)]) 502, [invoiceReq])
          else (json data 200, [invoiceReq])

/-! ## Concrete sessions used to exercise the statements -/

/-- A host whose clock is fixed. -/
def demoHost : Host where
  printNumber := fun _ => "0"
  now := "2026-01-13T00:00:00.000Z"

/-- A document in which every element exists, the buyer has typed an email address, and the
payment method and the coin are as given. -/
def demoDom (method : Option String) (coin : String) : Dom where
  present := fun _ => true
  text := fun _ => ""
  display := fun _ => ""
  className := fun _ => ""
  ariaHidden := fun _ => ""
  value := fun id => if id = "email" then "buyer@example.com" else if id = "crypto" then coin else ""
  checkedMethod := method
  redirecting := false
  focused := none

/-- A session on `demoDom` with the given price, discount and rate table. -/
def demoPage (method : Option String) (coin : String) (price : Val) (discount : ℚ)
    (rates : List (String × Num)) : Page where
  product := .str "Pro"
  plan := .str "Monthly"
  basePrice := price
  currency := "USD"
  couponCode := .null
  discount := discount
  currentSubtotal := 0
  currentTotal := 0
  walletMap := nekoPayConfig.wallets
  usdPrices := rates
  dom := demoDom method coin
  storage := fun _ => none
  alerts := []
  requests := []
  location := none
  timers := []
  console := []

/-! ## Predicates used in the statements -/

/-- The second state differs from the first in the document at most. -/
def DomOnly (s t : Page) : Prop := t = { s with dom := t.dom }

/-- The price of the table entry is usable for a quote: a finite number above zero. -/
def PriceUsable (px : Option Num) : Prop := ∃ p : ℚ, px = some (.fin p) ∧ 0 < p

/-- The price of the table entry is missing, not finite, or at most zero. -/
def PriceUnusable (px : Option Num) : Prop :=
  px = none ∨ (∃ n : Num, px = some n ∧ n.isFinite = false) ∨ (∃ p : ℚ, px = some (.fin p) ∧ p ≤ 0)

/-- The body of a response that arrived with a success status and parsed, `undefined` for any
other outcome. -/
def sourceBody : FetchResult → Val
  | .response true (some j) => j
  | _ => .undefined

/-- The primary response is usable: success status, a body that parses, a non-empty USDT
quote. -/
def PrimaryUsable (r : FetchResult) : Prop :=
  ∃ j, r = .response true (some j) ∧ ((j.get "USDT").get "USD").truthy = true

/-- The secondary response is usable: success status, a body that parses, a non-empty USDT
(tether) quote. -/
def SecondaryUsable (r : FetchResult) : Prop :=
  ∃ j, r = .response true (some j) ∧ ((j.get "tether").get "usd").truthy = true

/-- The assets of the fixed set. -/
def assets : List String := ["USDT", "TON", "TRX", "BTC", "ETH", "LTC"]

/-- The identifier of each asset of the fixed set at the secondary source. -/
def coinGeckoId (asset : String) : String :=
  if asset = "USDT" then "tether"
  else if asset = "TON" then "the-open-network"
  else if asset = "TRX" then "tron"
  else if asset = "BTC" then "bitcoin"
  else if asset = "ETH" then "ethereum"
  else "litecoin"

/-- The first non-empty (truthy) value among the candidates, in their order, and the default
when there is none. -/
def firstNonEmpty (candidates : List Val) (dflt : Val) : Val :=
  (candidates.find? Val.truthy).getD dflt

/-- A stored payload: the plan Monthly of the product Pro at 25 USD. -/
def storedPro : Val :=
  .obj [("product", .str "Pro"), ("plan", .str "Monthly"), ("price", .num (.fin 25)),
    ("currency", .str "USD"), ("qty", .num (.fin 1)), ("ts", .num (.fin 1768262400000))]

/-- The second state differs from the first in the texts of the document at most. -/
def TextOnly (s t : Page) : Prop := t = { s with dom := { s.dom with text := t.dom.text } }

/-- The second state shows no effect of a submission on the first: nothing is written to the
storage, no request is issued, no navigation or timer is set, and no element is shown, hidden or
rewritten. -/
def NoEffect (s t : Page) : Prop :=
  t.storage = s.storage ∧ t.requests = s.requests ∧ t.location = s.location ∧
  t.timers = s.timers ∧ t.dom.display = s.dom.display ∧ t.dom.redirecting = s.dom.redirecting ∧
  t.dom.text = s.dom.text ∧ t.dom.checkedMethod = s.dom.checkedMethod

/-- The relay fails: the call is rejected, the status is not a success, the body does not
parse, or the response has none of the fields `url`, `my`, `short` non-empty. -/
def RelayFails : FetchResult → Prop
  | .rejected => True
  | .response false _ => True
  | .response true none => True
  | .response true (some r) =>
      (r.get "url").truthy = false ∧ (r.get "my").truthy = false ∧ (r.get "short").truthy = false

/-- The first non-empty (truthy) value among the candidates, if there is one. -/
def firstNonEmpty? (candidates : List Val) : Option Val := candidates.find? Val.truthy

/-- A session in which the card method is selected, with a price of 10 rendered by
`updateTotals`. -/
def cardSession : Page :=
  updateTotals demoHost (demoPage (some "card") "" (.num (.fin 10)) 0 embeddedUsdPrices)

/-- An answer of the relay that carries no redirect link. -/
def relayNotOk : FetchResult := .response true (some (.obj [("ok", .bool false)]))

/-- An answer of the relay that carries a link in the field `my` only. -/
def relayMy : FetchResult :=
  .response true (some (.obj [("url", .str ""), ("my", .str "https://pay.example/m1")]))

/-- What a state keeps of another one when only the texts, the display of the success modal and
the alerts may differ. -/
def SameButConfirmation (s t : Page) : Prop :=
  t.storage = s.storage ∧ t.requests = s.requests ∧ t.location = s.location ∧
  t.timers = s.timers ∧ t.dom.redirecting = s.dom.redirecting ∧
  t.dom.checkedMethod = s.dom.checkedMethod ∧ t.dom.present = s.dom.present ∧
  t.dom.ariaHidden = s.dom.ariaHidden ∧
  ∀ k, k ≠ "success_modal" → t.dom.display k = s.dom.display k

/-- The amount of the request parses to a finite value above zero. -/
def AmountValid (h : Host) (body : Val) (a : ℚ) : Prop :=
  parseFloatOf h (body.get "amount") = .fin a ∧ 0 < a

/-- A request body of the checkout: 9.99 USD for the plan Monthly of Pro, paid in TRX. -/
def invoiceBody : Val :=
  .obj [("amount", .num (toDouble 9.99)), ("currency", .str "usd"), ("asset", .str "trx"),
    ("product", .str "Pro"), ("plan", .str "Monthly"), ("email", .str "buyer@example.com")]

/-- A reply of the provider that reports a created invoice. -/
def providerOk : Val :=
  .obj [("ok", .bool true), ("result", .obj [("invoice_id", .num (.fin 42)),
    ("pay_url", .str "https://t.me/CryptoBot?start=IV42")])]

/-- The session loaded with the shipped configuration, crypto selected with the coin TON and a
price of 10. -/
def shippedSession : Page :=
  demoPage (some "crypto") "TON" (.num (.fin 10)) 0
    (objectAssign embeddedUsdPrices nekoPayConfig.fallbackUsdPrices)

/-- A usable answer of the primary source that carries the USDT quote only. -/
def usdtOnlyAnswer : FetchResult :=
  .response true (some (.obj [("USDT", .obj [("USD", .num (.fin 1))])]))

/-! ## Fixed-point strings -/

/-- The digits printed by `toFixed` below `10^21`: those of the nearest multiple of `10^-d` of
the magnitude of `x`, counted in units of `10^-d` and padded with zeros to `d + 1` digits at
least. -/
def fixedDigits (x : ℚ) (d : Nat) : List Char :=
  List.replicate (d + 1 - (natDigits (⌊|x| * 10 ^ d + 1 / 2⌋).toNat).length) '0' ++
    natDigits (⌊|x| * 10 ^ d + 1 / 2⌋).toNat

/-- The integer part of the fixed-point string: all the digits but the last `d`. -/
def fixedInt (x : ℚ) (d : Nat) : List Char :=
  (fixedDigits x d).take ((fixedDigits x d).length - d)

/-- The fractional part of the fixed-point string: the last `d` digits. -/
def fixedFrac (x : ℚ) (d : Nat) : List Char :=
  (fixedDigits x d).drop ((fixedDigits x d).length - d)

/-- A run of characters without the zeros that end it. -/
def dropTrailingZeros (cs : List Char) : List Char :=
  (cs.reverse.dropWhile (fun x => x = '0')).reverse

/-- The exponent notation of a positive integer by its exact digits, as `Number::toString`
prints an integer from `10^21` on that has at most 15 significant digits: the first digit, the
other significant digits after a point if there are any, and the decimal exponent. -/
def exponentForm (q : ℚ) : String :=
  let ds := natDigits q.num.natAbs
  let m := dropTrailingZeros ds
  String.mk (m.take 1 ++ (if m.drop 1 = [] then [] else '.' :: m.drop 1) ++
    'e' :: '+' :: natDigits (ds.length - 1))

/-- A host that prints the large integers in exponent notation. -/
def exponentHost : Host where
  printNumber := exponentForm
  now := "2026-01-13T00:00:00.000Z"

/-! ## Coupon sessions -/

/-- The user types `code` into the coupon input. -/
def enterCoupon (code : String) (s : Page) : Page :=
  { s with dom := { s.dom with value := Function.update s.dom.value "coupon_code" code } }

/-- The part of the coupon handler that runs on a non-empty code (lines 443 to 446). -/
def rejectCoupon (h : Host) (s : Page) : Page :=
  setCouponMessage (updateTotals h { s with couponCode := .null, discount := 0 }) "bad"
    "Invalid coupon code."

/-- The order variables as the coupon handler leaves them on a non-empty code. -/
def resetOrder (s : Page) : Page :=
  { s with
    couponCode := .null, discount := 0, currentSubtotal := clampMoney s.basePrice,
    currentTotal := clampMoney (.num (.fin (clampMoney s.basePrice - 0))) }

/-- The writes of the coupon handler on a non-empty code: the two totals, the quote and the
message. -/
def renderRejection (h : Host) (subtotal total : String) (s : Page) : Page :=
  setCouponMessage
    (updateWalletUI h (setText (setText s "neko_subtotal" subtotal) "neko_total" total))
    "bad" "Invalid coupon code."

/-- The codes are typed and applied one after the other, the first of the list first. -/
def applyCoupons (h : Host) (codes : List String) (s : Page) : Page :=
  codes.foldl (fun t c => couponApply h (enterCoupon c t)) s

/-- The states of a checkout session: the page as `initCheckoutPage` leaves it, then any run of
the handlers that the script registers and of the rate refresh, interleaved with any change of
the document and of the storage from outside the script (the buyer typing or selecting, the
handlers that only show, hide or rewrite elements, other scripts). -/
inductive Reachable (h : Host) : Page → Prop
  | load (cfg : PayConfig) (params : List (String × String)) (dom : Dom)
      (storage : String → Option Val) (s : Page) :
      initCheckoutPage h cfg params dom storage = some s → Reachable h s
  | coupon (s : Page) : Reachable h s → Reachable h (couponApply h s)
  | method (s : Page) : Reachable h s → Reachable h (togglePaymentExtras h s)
  | coin (s : Page) : Reachable h s → Reachable h (updateWalletUI h s)
  | rates (r1 r2 : FetchResult) (s : Page) : Reachable h s →
      Reachable h (refreshUsdPrices h r1 r2 s)
  | order (relay : FetchResult) (s : Page) : Reachable h s → Reachable h (submit h relay s)
  | outside (d : Dom) (st : String → Option Val) (s : Page) : Reachable h s →
      Reachable h { s with dom := d, storage := st }

/-- The order variables of a session: price, coupon code, discount, subtotal and total. -/
def orderVars (s : Page) : Val × Val × ℚ × ℚ × ℚ :=
  (s.basePrice, s.couponCode, s.discount, s.currentSubtotal, s.currentTotal)

/-- The block `Default coin for crypto flows` of `togglePaymentExtras` (lines 474 to 477), run
when crypto is checked.  The selector is taken to offer the option USDT, so that the assignment
to its value takes effect. -/
def defaultCoin (s : Page) : Page :=
  if s.dom.present "crypto" ∧ s.dom.value "crypto" = "" then
    { s with dom := { s.dom with value := Function.update s.dom.value "crypto" "USDT" } }
  else s

/-- The second state differs from the first in the texts, the display values and the class
names of the document at most. -/
def SameInputs (s t : Page) : Prop :=
  t = { s with dom := { s.dom with
          text := t.dom.text, display := t.dom.display, className := t.dom.className } }

/-- Two runs that wrote the same: `s2` and `t2` keep the inputs of `s` and `t`, and each text,
display value and class name is equal in `s2` and `t2` or untouched in both. -/
def SameWrites (s t s2 t2 : Page) : Prop :=
  SameInputs s s2 ∧ SameInputs t t2 ∧
  (∀ k, s2.dom.text k = t2.dom.text k ∨
    (s2.dom.text k = s.dom.text k ∧ t2.dom.text k = t.dom.text k)) ∧
  (∀ k, s2.dom.display k = t2.dom.display k ∨
    (s2.dom.display k = s.dom.display k ∧ t2.dom.display k = t.dom.display k)) ∧
  (∀ k, s2.dom.className k = t2.dom.className k ∨
    (s2.dom.className k = s.dom.className k ∧ t2.dom.className k = t.dom.className k))

/-- A function on sessions that only writes texts, display values and class names, the same
ones on sessions with the same inputs. -/
def Writer (F : Page → Page) : Prop := ∀ s t, SameInputs s t → SameWrites s t (F s) (F t)

/-- The session loaded from a stored payload with the shipped configuration, on a document in
which crypto is selected with the coin TON. -/
def loadedSession : Page :=
  (initCheckoutPage demoHost nekoPayConfig [] (demoDom (some "crypto") "TON")
    (Function.update (fun _ => none) STORAGE_KEY (some storedPro))).getD
    (demoPage none "" .undefined 0 [])

/-- The session loaded with the query `price=-5` and the shipped configuration, the card method
being checked. -/
def negativePriceSession : Page :=
  (initCheckoutPage demoHost nekoPayConfig [("price", "-5")] (demoDom (some "card") "")
    (fun _ => none)).getD (demoPage none "" .undefined 0 [])

/-! ## Theorems -/

/-! ### The rounding to doubles -/

theorem toDigitsCore_two_length (fuel : Nat) : ∀ (n : Nat) (ds : List Char), n < fuel →
    (Nat.toDigitsCore 2 fuel n ds).length = ds.length + Nat.log 2 n + 1 := by
  induction fuel with
  | zero =>
    intro n ds h
    omega
  | succ f ih =>
    intro n ds h
    simp only [Nat.toDigitsCore]
    by_cases h0 : n / 2 = 0
    · rw [if_pos h0]
      have hlt : n < 2 := by omega
      rw [Nat.log_of_lt hlt]
      simp
    · rw [if_neg h0]
      have h2 : 2 ≤ n := by omega
      rw [ih (n / 2) _ (by omega), Nat.log_of_one_lt_of_le (by norm_num) h2]
      simp only [List.length_cons]
      omega

/-- The number of binary digits of `n` is `⌊log₂ n⌋ + 1`. -/
theorem bitLength_eq (n : Nat) : bitLength n = Nat.log 2 n + 1 := by
  unfold bitLength Nat.toDigits
  rw [toDigitsCore_two_length (n + 1) n [] (by omega)]
  simp

/-- The exponent found by `binaryExponent` is the one of the binade of `x`. -/
theorem binaryExponent_spec (x : ℚ) (hx : 0 < x) :
    (2 : ℚ) ^ binaryExponent x ≤ x ∧ x < 2 ^ (binaryExponent x + 1) := by
  have hnum : 0 < x.num := Rat.num_pos.mpr hx
  have hn0 : x.num.natAbs ≠ 0 := by
    intro hc
    rw [Int.natAbs_eq_zero] at hc
    omega
  have hd0 : x.den ≠ 0 := x.den_nz
  have hnq : ((x.num.natAbs : ℕ) : ℚ) = (x.num : ℚ) := by
    have h := Int.natAbs_of_nonneg (le_of_lt hnum)
    calc ((x.num.natAbs : ℕ) : ℚ) = (((x.num.natAbs : ℕ) : ℤ) : ℚ) := (Int.cast_natCast _).symm
      _ = (x.num : ℚ) := by rw [h]
  have hxe : x = (x.num.natAbs : ℚ) / (x.den : ℚ) := by
    rw [hnq]
    exact (Rat.num_div_den x).symm
  have hL1 : ((2 : ℚ) ^ Nat.log 2 x.num.natAbs) ≤ (x.num.natAbs : ℚ) := by
    exact_mod_cast Nat.pow_log_le_self 2 hn0
  have hL2 : (x.num.natAbs : ℚ) < (2 : ℚ) ^ (Nat.log 2 x.num.natAbs + 1) := by
    exact_mod_cast Nat.lt_pow_succ_log_self (by norm_num : 1 < 2) x.num.natAbs
  have hM1 : ((2 : ℚ) ^ Nat.log 2 x.den) ≤ (x.den : ℚ) := by
    exact_mod_cast Nat.pow_log_le_self 2 hd0
  have hM2 : (x.den : ℚ) < (2 : ℚ) ^ (Nat.log 2 x.den + 1) := by
    exact_mod_cast Nat.lt_pow_succ_log_self (by norm_num : 1 < 2) x.den
  have hdpos : (0 : ℚ) < (x.den : ℚ) := by
    exact_mod_cast Nat.pos_of_ne_zero hd0
  have ha : (bitLength x.num.natAbs : Int) - (bitLength x.den : Int) =
      (Nat.log 2 x.num.natAbs : Int) - (Nat.log 2 x.den : Int) := by
    rw [bitLength_eq, bitLength_eq]
    push_cast
    ring
  have two_pos : (0 : ℚ) < 2 := by norm_num
  have two_ne : (2 : ℚ) ≠ 0 := by norm_num
  -- the two outer bounds
  have hup : x < (2 : ℚ) ^ ((Nat.log 2 x.num.natAbs : Int) - (Nat.log 2 x.den : Int) + 1) := by
    refine lt_of_eq_of_lt hxe ?_
    rw [div_lt_iff₀ hdpos]
    calc (x.num.natAbs : ℚ) < (2 : ℚ) ^ (Nat.log 2 x.num.natAbs + 1) := hL2
      _ = (2 : ℚ) ^ ((Nat.log 2 x.num.natAbs : Int) - (Nat.log 2 x.den : Int) + 1) *
            (2 : ℚ) ^ (Nat.log 2 x.den) := by
          rw [← zpow_natCast (2 : ℚ) (Nat.log 2 x.den), ← zpow_add₀ two_ne,
            ← zpow_natCast (2 : ℚ) (Nat.log 2 x.num.natAbs + 1)]
          congr 1
          push_cast
          ring
      _ ≤ (2 : ℚ) ^ ((Nat.log 2 x.num.natAbs : Int) - (Nat.log 2 x.den : Int) + 1) *
            (x.den : ℚ) := by
          apply mul_le_mul_of_nonneg_left hM1
          exact le_of_lt (zpow_pos two_pos _)
  have hlow : (2 : ℚ) ^ ((Nat.log 2 x.num.natAbs : Int) - (Nat.log 2 x.den : Int) - 1) ≤ x := by
    refine le_of_le_of_eq ?_ hxe.symm
    rw [le_div_iff₀ hdpos]
    calc (2 : ℚ) ^ ((Nat.log 2 x.num.natAbs : Int) - (Nat.log 2 x.den : Int) - 1) * (x.den : ℚ)
        ≤ (2 : ℚ) ^ ((Nat.log 2 x.num.natAbs : Int) - (Nat.log 2 x.den : Int) - 1) *
            (2 : ℚ) ^ (Nat.log 2 x.den + 1) := by
          apply mul_le_mul_of_nonneg_left (le_of_lt hM2)
          exact le_of_lt (zpow_pos two_pos _)
      _ = (2 : ℚ) ^ Nat.log 2 x.num.natAbs := by
          rw [← zpow_natCast (2 : ℚ) (Nat.log 2 x.den + 1), ← zpow_add₀ two_ne,
            ← zpow_natCast (2 : ℚ) (Nat.log 2 x.num.natAbs)]
          congr 1
          push_cast
          ring
      _ ≤ (x.num.natAbs : ℚ) := hL1
  unfold binaryExponent
  rw [ha]
  by_cases hc : (2 : ℚ) ^ ((Nat.log 2 x.num.natAbs : Int) - (Nat.log 2 x.den : Int)) ≤ x
  · rw [if_pos hc]
    exact ⟨hc, hup⟩
  · rw [if_neg hc]
    refine ⟨hlow, ?_⟩
    rw [sub_add_cancel]
    exact not_le.mp hc

/-- The integer chosen by `roundHalfEven` is a nearest one, and the even one on a tie. -/
theorem roundHalfEven_spec (x : ℚ) (hx : 0 ≤ x) :
    |(roundHalfEven x : ℚ) - x| ≤ 1 / 2 ∧
    (|(roundHalfEven x : ℚ) - x| = 1 / 2 → roundHalfEven x % 2 = 0) := by
  have hf0 : 0 ≤ ⌊x⌋ := Int.floor_nonneg.mpr hx
  have hcast : (((⌊x⌋).toNat : ℕ) : ℚ) = ((⌊x⌋ : ℤ) : ℚ) := by
    have : (((⌊x⌋).toNat : ℕ) : ℤ) = ⌊x⌋ := Int.toNat_of_nonneg hf0
    exact_mod_cast this
  have h1 : ((⌊x⌋ : ℤ) : ℚ) ≤ x := Int.floor_le x
  have h2 : x < ((⌊x⌋ : ℤ) : ℚ) + 1 := Int.lt_floor_add_one x
  unfold roundHalfEven
  rw [hcast]
  by_cases c1 : x - ((⌊x⌋ : ℤ) : ℚ) < 1 / 2
  · rw [if_pos c1, hcast]
    constructor
    · rw [abs_le]
      constructor <;> linarith
    · intro he
      rw [abs_sub_comm, abs_of_nonneg (by linarith)] at he
      linarith
  · rw [if_neg c1]
    by_cases c2 : 1 / 2 < x - ((⌊x⌋ : ℤ) : ℚ)
    · rw [if_pos c2]
      push_cast
      rw [hcast]
      constructor
      · rw [abs_le]
        constructor <;> linarith
      · intro he
        rw [abs_of_nonneg (by linarith)] at he
        linarith
    · rw [if_neg c2]
      have heq : x - ((⌊x⌋ : ℤ) : ℚ) = 1 / 2 := le_antisymm (not_lt.mp c2) (not_lt.mp c1)
      by_cases c3 : (⌊x⌋).toNat % 2 = 0
      · rw [if_pos c3, hcast]
        refine ⟨?_, fun _ => c3⟩
        rw [abs_sub_comm, heq, abs_of_nonneg (by norm_num)]
      · rw [if_neg c3]
        push_cast
        rw [hcast]
        refine ⟨?_, fun _ => by omega⟩
        have : ((⌊x⌋ : ℤ) : ℚ) + 1 - x = 1 / 2 := by linarith
        rw [this, abs_of_nonneg (by norm_num)]

/-- What `toDouble` computes, for a value that is not zero: with `e` the exponent of the binade
of the magnitude, not below `-1022`, the result is the multiple `m * 2^(e-52)` nearest to the
magnitude, the even one on a tie, with the sign of the value; it is an infinity when that
multiple reaches `2^1024`. -/
theorem toDouble_spec (q : ℚ) (hq : q ≠ 0) :
    ∃ (e : ℤ) (m : ℕ),
      -1022 ≤ e ∧ |q| < 2 ^ (e + 1) ∧ (-1022 < e → (2 : ℚ) ^ e ≤ |q|) ∧
      abs ((m : ℚ) * 2 ^ (e - 52) - |q|) ≤ 2 ^ (e - 52) / 2 ∧
      (abs ((m : ℚ) * 2 ^ (e - 52) - |q|) = 2 ^ (e - 52) / 2 → m % 2 = 0) ∧
      (m : ℚ) ≤ 2 ^ 53 ∧
      toDouble q =
        if (2 : ℚ) ^ 1024 ≤ m * 2 ^ (e - 52) then (if q < 0 then .ninf else .pinf)
        else .fin (if q < 0 then -(m * 2 ^ (e - 52)) else m * 2 ^ (e - 52)) := by
  have habs : 0 < |q| := abs_pos.mpr hq
  have two_pos : (0 : ℚ) < 2 := by norm_num
  have two_ne : (2 : ℚ) ≠ 0 := by norm_num
  have one_le : (1 : ℚ) ≤ 2 := by norm_num
  obtain ⟨hb1, hb2⟩ := binaryExponent_spec |q| habs
  have hu : (0 : ℚ) < 2 ^ (max (binaryExponent |q|) (-1022) - 52) := zpow_pos two_pos _
  have hy : 0 ≤ |q| / 2 ^ (max (binaryExponent |q|) (-1022) - 52) :=
    div_nonneg (le_of_lt habs) (le_of_lt hu)
  obtain ⟨hr1, hr2⟩ := roundHalfEven_spec _ hy
  have hlt : |q| < 2 ^ (max (binaryExponent |q|) (-1022) + 1) :=
    lt_of_lt_of_le hb2 (zpow_le_zpow_right₀ one_le (by
      have := le_max_left (binaryExponent |q|) (-1022)
      omega))
  have hmul : ∀ m : ℚ, m * 2 ^ (max (binaryExponent |q|) (-1022) - 52) - |q| =
      (m - |q| / 2 ^ (max (binaryExponent |q|) (-1022) - 52)) *
        2 ^ (max (binaryExponent |q|) (-1022) - 52) := by
    intro m
    field_simp
  have habsmul : ∀ m : ℚ, abs (m * 2 ^ (max (binaryExponent |q|) (-1022) - 52) - |q|) =
      abs (m - |q| / 2 ^ (max (binaryExponent |q|) (-1022) - 52)) *
        2 ^ (max (binaryExponent |q|) (-1022) - 52) := by
    intro m
    rw [hmul, abs_mul, abs_of_pos hu]
  refine ⟨max (binaryExponent |q|) (-1022),
    roundHalfEven (|q| / 2 ^ (max (binaryExponent |q|) (-1022) - 52)),
    le_max_right _ _, hlt, ?_, ?_, ?_, ?_, ?_⟩
  · intro he
    have hmax : max (binaryExponent |q|) (-1022) = binaryExponent |q| := by
      rcases le_total (binaryExponent |q|) (-1022) with hle | hle
      · rw [max_eq_right hle] at he
        exact absurd he (lt_irrefl _)
      · exact max_eq_left hle
    rw [hmax]
    exact hb1
  · rw [habsmul]
    exact le_trans (mul_le_mul_of_nonneg_right hr1 (le_of_lt hu)) (le_of_eq (by ring))
  · intro he
    apply hr2
    rw [habsmul] at he
    have : abs ((roundHalfEven (|q| / 2 ^ (max (binaryExponent |q|) (-1022) - 52)) : ℚ) -
        |q| / 2 ^ (max (binaryExponent |q|) (-1022) - 52)) *
          2 ^ (max (binaryExponent |q|) (-1022) - 52) =
        1 / 2 * 2 ^ (max (binaryExponent |q|) (-1022) - 52) := by
      rw [he]
      ring
    exact mul_right_cancel₀ (ne_of_gt hu) this
  · have hy53 : |q| / 2 ^ (max (binaryExponent |q|) (-1022) - 52) < 2 ^ 53 := by
      rw [div_lt_iff₀ hu]
      have e53 : (2 : ℚ) ^ 53 * 2 ^ (max (binaryExponent |q|) (-1022) - 52) =
          2 ^ (max (binaryExponent |q|) (-1022) + 1) := by
        rw [← zpow_natCast (2 : ℚ) 53, ← zpow_add₀ two_ne]
        congr 1
        push_cast
        ring
      rw [e53]
      exact hlt
    have hm : (roundHalfEven (|q| / 2 ^ (max (binaryExponent |q|) (-1022) - 52)) : ℚ) <
        2 ^ 53 + 1 := by
      have := (abs_le.mp hr1).2
      linarith
    have hmn : roundHalfEven (|q| / 2 ^ (max (binaryExponent |q|) (-1022) - 52)) <
        2 ^ 53 + 1 := by
      exact_mod_cast hm
    have hmn2 : roundHalfEven (|q| / 2 ^ (max (binaryExponent |q|) (-1022) - 52)) ≤ 2 ^ 53 :=
      Nat.lt_succ_iff.mp hmn
    exact_mod_cast hmn2
  · unfold toDouble
    rw [if_neg hq]
    by_cases c1 : (2 : ℚ) ^ 1024 ≤
        roundHalfEven (|q| / 2 ^ (max (binaryExponent |q|) (-1022) - 52)) *
          2 ^ (max (binaryExponent |q|) (-1022) - 52)
    · rw [if_pos c1, if_pos c1]
    · rw [if_neg c1, if_neg c1]
      by_cases c2 : q < 0
      · rw [if_pos c2, if_pos c2]
      · rw [if_neg c2, if_neg c2]

/-- The doubles that the checks of the scripts meet: the literals read digit by digit round to
the nearest double, an overflow gives an infinity, an underflow gives zero, the largest double
and the smallest one are kept, and ties go to the even significand. -/
theorem toDouble_examples :
    toDouble 0.1 = .fin (3602879701896397 / 36028797018963968) ∧
    toDouble 1.005 = .fin (1131529406376837 / 1125899906842624) ∧
    toDouble 0.015 = .fin (1080863910568919 / 72057594037927936) ∧
    toDouble 9.99 = .fin (5623870034678907 / 562949953421312) ∧
    toDouble (-7.256) = .fin (-(255297803876565 / 35184372088832)) ∧
    toDouble 1.75 = .fin 1.75 ∧
    toDouble 9007199254740993 = .fin 9007199254740992 ∧
    toDouble 9007199254740995 = .fin 9007199254740996 ∧
    toDouble (10 ^ 21) = .fin (10 ^ 21) ∧
    toDouble (10 ^ 400) = .pinf ∧
    toDouble (-(10 ^ 400)) = .ninf ∧
    toDouble (1 / 10 ^ 400) = .fin 0 ∧
    toDouble (2 ^ 1024 - 2 ^ 971) = .fin (2 ^ 1024 - 2 ^ 971) ∧
    toDouble (2 ^ 1024 - 2 ^ 970) = .pinf ∧
    toDouble (2 ^ 1024 - 2 ^ 970 - 1) = .fin (2 ^ 1024 - 2 ^ 971) ∧
    toDouble (1 / 2 ^ 1074) = .fin (1 / 2 ^ 1074) ∧
    toDouble (1 / 2 ^ 1075) = .fin 0 ∧
    toDouble (3 / 2 ^ 1075) = .fin (2 / 2 ^ 1074) ∧
    Num.div (.fin (5623870034678907 / 562949953421312))
        (.fin (5404319552844595 / 18014398509481984)) =
      .fin (4686558362232423 / 140737488355328) ∧
    Num.div (.fin 3) (.fin 200) = .fin (1080863910568919 / 72057594037927936) ∧
    Num.div (.fin 1) (.fin 0) = .pinf ∧ Num.div (.fin 0) (.fin 0) = .nan := by
  refine ⟨by decide!, by decide!, by decide!, by decide!, by decide!, by decide!, by decide!,
    by decide!, by decide!, by decide!, by decide!, by decide!, by decide!, by decide!,
    by decide!, by decide!, by decide!, by decide!, by decide!, by decide!, by decide!,
    by decide!⟩

/-! ### Frame lemmas: the rendering functions touch the document only -/

theorem DomOnly.same (s : Page) : DomOnly s s := by
  cases s; rfl

theorem DomOnly.comp {s t u : Page} (a : DomOnly s t) (b : DomOnly t u) : DomOnly s u := by
  unfold DomOnly at *
  rw [b, a]

theorem DomOnly.storage_eq {s t : Page} (a : DomOnly s t) : t.storage = s.storage := by
  rw [a]

theorem DomOnly.usdPrices_eq {s t : Page} (a : DomOnly s t) : t.usdPrices = s.usdPrices := by
  rw [a]

theorem DomOnly.requests_eq {s t : Page} (a : DomOnly s t) : t.requests = s.requests := by
  rw [a]

theorem DomOnly.location_eq {s t : Page} (a : DomOnly s t) : t.location = s.location := by
  rw [a]

theorem DomOnly.timers_eq {s t : Page} (a : DomOnly s t) : t.timers = s.timers := by
  rw [a]

theorem DomOnly.alerts_eq {s t : Page} (a : DomOnly s t) : t.alerts = s.alerts := by
  rw [a]

theorem DomOnly.currentTotal_eq {s t : Page} (a : DomOnly s t) :
    t.currentTotal = s.currentTotal := by
  rw [a]

theorem DomOnly.currentSubtotal_eq {s t : Page} (a : DomOnly s t) :
    t.currentSubtotal = s.currentSubtotal := by
  rw [a]

theorem setText_domOnly (s : Page) (id text : String) : DomOnly s (setText s id text) := by
  unfold setText
  split
  · rfl
  · exact DomOnly.same s

theorem setDisplay_domOnly (s : Page) (id v : String) : DomOnly s (setDisplay s id v) := by
  unfold setDisplay
  split
  · rfl
  · exact DomOnly.same s

theorem updateRatesStatus_domOnly (s : Page) (text : String) :
    DomOnly s (updateRatesStatus s text) := by
  unfold updateRatesStatus
  split
  · rfl
  · exact DomOnly.same s

theorem setWalletInline_domOnly (s : Page) (a b c d : String) :
    DomOnly s (setWalletInline s a b c d) := by
  unfold setWalletInline
  exact ((setText_domOnly _ _ _).comp (setText_domOnly _ _ _)).comp
    ((setText_domOnly _ _ _).comp (setText_domOnly _ _ _))

theorem updateWalletUI_domOnly (h : Host) (s : Page) : DomOnly s (updateWalletUI h s) := by
  unfold updateWalletUI
  have key : ∀ v a b c d t, DomOnly s (updateRatesStatus (setWalletInline
      (setDisplay s "wallet_box" v) a b c d) t) := fun v a b c d t =>
    (setDisplay_domOnly _ _ _).comp
      ((setWalletInline_domOnly _ _ _ _ _).comp (updateRatesStatus_domOnly _ _))
  simp only
  split_ifs <;> first | exact key _ _ _ _ _ _ | exact setDisplay_domOnly _ _ _

theorem showRedirectOverlay_domOnly (s : Page) (a b c d : String) :
    DomOnly s (showRedirectOverlay s a b c d) := by
  unfold showRedirectOverlay
  split
  · exact DomOnly.same s
  · have h0 : DomOnly s { s with dom := { s.dom with
        redirecting := true,
        display := Function.update s.dom.display "redirect_overlay" "flex",
        ariaHidden := Function.update s.dom.ariaHidden "redirect_overlay" "false" } } := rfl
    exact h0.comp (((setText_domOnly _ _ _).comp (setText_domOnly _ _ _)).comp
      ((setText_domOnly _ _ _).comp (setText_domOnly _ _ _)))

/-! ### Money -/

theorem toNumber_fin (q : ℚ) : toNumber (.num (.fin q)) = q := rfl

theorem clampMoney_eq_max (v : Val) : clampMoney v = max 0 (toNumber v) := by
  unfold clampMoney
  simp only
  split
  · rw [max_eq_left (le_of_lt ‹_›)]
  · rw [max_eq_right (not_lt.mp ‹_›)]

theorem updateTotals_currentSubtotal (h : Host) (s : Page) :
    (updateTotals h s).currentSubtotal = clampMoney s.basePrice := by
  unfold updateTotals
  simp only
  rw [(updateWalletUI_domOnly h _).currentSubtotal_eq, (setText_domOnly _ _ _).currentSubtotal_eq,
    (setText_domOnly _ _ _).currentSubtotal_eq]

theorem updateTotals_currentTotal (h : Host) (s : Page) :
    (updateTotals h s).currentTotal =
      clampMoney (.num (.fin (clampMoney s.basePrice - s.discount))) := by
  unfold updateTotals
  simp only
  rw [(updateWalletUI_domOnly h _).currentTotal_eq, (setText_domOnly _ _ _).currentTotal_eq,
    (setText_domOnly _ _ _).currentTotal_eq]

/-! ### The submit handler -/

theorem assembleOrder_subtotal (h : Host) (s : Page) (e m a : String) :
    (assembleOrder h s e m a).get "subtotal" = .num (.fin (clampMoney s.basePrice)) := by
  unfold assembleOrder
  simp only
  split_ifs <;> simp [Val.get, List.lookup]

theorem assembleOrder_total (h : Host) (s : Page) (e m a : String) :
    (assembleOrder h s e m a).get "total" =
      .num (.fin (clampMoney (.num (.fin (clampMoney s.basePrice - s.discount))))) := by
  unfold assembleOrder
  simp only
  split_ifs <;> simp [Val.get, List.lookup]

theorem successConfirmation_storage (h : Host) (s : Page) (e m a : String) (t : ℚ) :
    (successConfirmation h s e m a t).storage = s.storage := by
  unfold successConfirmation
  split
  · simp only [(setText_domOnly _ _ _).storage_eq]
  · rfl

theorem cardFailure_storage (s : Page) : (cardFailure s).storage = s.storage := by
  unfold cardFailure alert
  simp only
  split <;> rfl

theorem createCustomEuAd_storage (h : Host) (s : Page) (o : Val) (r : FetchResult) :
    (createCustomEuAd h s o r).1.storage = s.storage := by
  rfl

theorem cryptoBranch_storage (h : Host) (s : Page) (a i : String) (k : String)
    (hk : k ≠ PENDING_KEY) : (cryptoBranch h s a i).storage k = s.storage k := by
  unfold cryptoBranch
  simp only [(showRedirectOverlay_domOnly _ _ _ _ _).storage_eq, setItem]
  exact Function.update_noteq hk _ _

theorem createCustomEuAd_snd (h : Host) (s : Page) (o : Val) (r : FetchResult) :
    (createCustomEuAd h s o r).2 = relayResult r := rfl

theorem cardBranch_storage (h : Host) (relay : FetchResult) (s : Page) (o : Val)
    (e a : String) (t : ℚ) : (cardBranch h relay s o e a t).storage = s.storage := by
  unfold cardBranch
  simp only [createCustomEuAd_snd]
  by_cases hr : (redirectTarget (relayResult relay)).truthy = true
  · rw [if_pos hr]
    simp only [createCustomEuAd_storage, (showRedirectOverlay_domOnly _ _ _ _ _).storage_eq]
  · rw [if_neg hr, successConfirmation_storage, cardFailure_storage, createCustomEuAd_storage,
      (showRedirectOverlay_domOnly _ _ _ _ _).storage_eq]

/-- A submission that passes the three checks writes the assembled order to the last-order
slot, whatever branch it then takes. -/
theorem submit_writes_order (h : Host) (relay : FetchResult) (s : Page) (m : String)
    (he : formEmail s ≠ "") (hm : s.dom.checkedMethod = some m)
    (ha : ¬ (m = "crypto" ∧ formAsset s = "")) :
    (submit h relay s).storage LAST_ORDER_KEY =
      some (assembleOrder h s (formEmail s) m (formAsset s)) := by
  unfold submit
  simp only [he, hm, ha, if_false]
  by_cases h1 : m = "crypto"
  · simp only [h1, if_true]
    rw [cryptoBranch_storage _ _ _ _ _ (by decide)]
    simp [setItem]
  · simp only [h1, if_false]
    by_cases h2 : m = "card"
    · simp only [h2, if_true]
      rw [cardBranch_storage]
      simp [setItem]
    · simp only [h2, if_false]
      rw [successConfirmation_storage]
      simp [setItem]

/-! ### The crypto quote -/

theorem guard_of_usable {px : Option Num} {p : ℚ} (hp : px = some (.fin p)) (hpos : 0 < p) :
    (!pxTruthy px || !pxIsFinite px || pxLeZero px) = false ∧
    (pxTruthy px && pxIsFinite px && pxGtZero px) = true ∧
    ∀ t : ℚ, divByPx t px = Num.div (.fin t) (.fin p) := by
  subst hp
  have hne : p ≠ 0 := ne_of_gt hpos
  simp [pxTruthy, pxIsFinite, pxLeZero, pxGtZero, divByPx, Num.truthy, Num.isFinite, Num.le,
    Num.lt, hne, hpos]

theorem div_of_pos (t p : ℚ) (hpos : 0 < p) :
    Num.div (.fin t) (.fin p) = toDouble (t / p) := by
  show (if p ≠ 0 then toDouble (t / p) else _) = _
  rw [if_pos (ne_of_gt hpos)]

theorem guard_of_not_usable {px : Option Num} (hu : ¬ PriceUsable px) :
    (!pxTruthy px || !pxIsFinite px || pxLeZero px) = true ∧
    (pxTruthy px && pxIsFinite px && pxGtZero px) = false := by
  unfold PriceUsable at hu
  match px, hu with
  | none, _ => simp [pxTruthy, pxIsFinite, pxLeZero, pxGtZero]
  | some .nan, _ => simp [pxTruthy, pxIsFinite, pxLeZero, pxGtZero, Num.truthy, Num.isFinite]
  | some .pinf, _ => simp [pxTruthy, pxIsFinite, pxLeZero, pxGtZero, Num.truthy, Num.isFinite]
  | some .ninf, _ => simp [pxTruthy, pxIsFinite, pxLeZero, pxGtZero, Num.truthy, Num.isFinite]
  | some (.fin p), hu =>
    have hp : p ≤ 0 := by
      by_contra hc
      exact hu ⟨p, rfl, not_le.mp hc⟩
    simp [pxTruthy, pxIsFinite, pxLeZero, pxGtZero, Num.truthy, Num.isFinite, Num.le, Num.lt, hp,
      not_lt.mpr hp]

theorem getSelectedAssetValue_eq_formAsset (s : Page) : getSelectedAssetValue s = formAsset s := by
  unfold getSelectedAssetValue formAsset
  by_cases hp : s.dom.present "crypto" = true <;> by_cases hv : s.dom.value "crypto" = "" <;>
    simp [hp, hv]

theorem formatCrypto_of_nonpos (h : Host) (asset : String) (q : ℚ) (hq : q ≤ 0) :
    formatCrypto h asset (.num (.fin q)) = "—" := by
  unfold formatCrypto
  simp [toNumber_fin, hq]

theorem setText_text (s : Page) (id text k : String) :
    (setText s id text).dom.text k =
      if s.dom.present id = true ∧ k = id then text else s.dom.text k := by
  unfold setText
  by_cases hp : s.dom.present id = true
  · by_cases hk : k = id
    · simp [hp, hk]
    · simp [hp, hk, Function.update_noteq hk]
  · simp [hp]

theorem setText_present (s : Page) (id text : String) :
    (setText s id text).dom.present = s.dom.present := by
  unfold setText
  split <;> rfl

theorem setDisplay_present (s : Page) (id v : String) :
    (setDisplay s id v).dom.present = s.dom.present := by
  unfold setDisplay
  split <;> rfl

theorem setDisplay_text (s : Page) (id v : String) :
    (setDisplay s id v).dom.text = s.dom.text := by
  unfold setDisplay
  split <;> rfl

theorem updateRatesStatus_text (s : Page) (msg k : String) :
    (updateRatesStatus s msg).dom.text k =
      if s.dom.present "rates_status" = true ∧ k = "rates_status" then msg else s.dom.text k := by
  unfold updateRatesStatus
  by_cases hp : s.dom.present "rates_status" = true
  · by_cases hk : k = "rates_status"
    · by_cases hm : msg = "" <;> simp [hp, hk, hm]
    · simp [hp, hk, Function.update_noteq hk]
  · simp [hp]

theorem setWalletInline_present (s : Page) (a b c d : String) :
    (setWalletInline s a b c d).dom.present = s.dom.present := by
  unfold setWalletInline
  simp only [setText_present]

/-- What the quote writes: the amount, the fiat equivalent and the status, each where its
element exists. -/
theorem quote_texts (s : Page) (a b c d msg : String) (hc : c ≠ "") :
    let t := updateRatesStatus (setWalletInline s a b c d) msg
    (s.dom.present "wallet_amount" = true → t.dom.text "wallet_amount" = b) ∧
    (s.dom.present "wallet_usd" = true → t.dom.text "wallet_usd" = c) ∧
    (s.dom.present "rates_status" = true → t.dom.text "rates_status" = msg) := by
  simp only [updateRatesStatus_text, setWalletInline_present]
  unfold setWalletInline
  simp only [setText_text, setText_present, strOr]
  refine ⟨fun hp => ?_, fun hp => ?_, fun hp => ?_⟩
  · simp [hp]
  · simp [hp, hc]
  · simp [hp]

theorem formatMoney_ne_empty_aux (c : String) : (currencySymbol c).length = 1 := by
  unfold currencySymbol
  simp only
  split_ifs <;> decide

theorem formatMoney_ne_empty (h : Host) (a : Val) (c : String) : formatMoney h a c ≠ "" := by
  intro he
  have hl := congrArg String.length he
  unfold formatMoney at hl
  simp only [String.length_append, formatMoney_ne_empty_aux] at hl
  have h0 : ("" : String).length = 0 := rfl
  omega

/-- The quote for a usable price. -/
theorem updateWalletUI_usable (h : Host) (s : Page) (asset : String) (p : ℚ)
    (hm : s.dom.checkedMethod = some "crypto") (ha : formAsset s = asset) (hne : asset ≠ "")
    (hp : priceOf s asset = some (.fin p)) (hpos : 0 < p) :
    updateWalletUI h s =
      updateRatesStatus (setWalletInline (setDisplay s "wallet_box" "") asset
        (formatCrypto h asset (.num (Num.div (.fin s.currentTotal) (.fin p))))
        (formatMoney h (.num (.fin s.currentTotal)) "USD")
        (strOr (getWalletAddress h s asset) "YOUR_WALLET_ADDRESS"))
        "Rates: live / fallback (USD)" := by
  obtain ⟨g1, _, g3⟩ := guard_of_usable hp hpos
  unfold updateWalletUI
  simp only [getSelectedMethodValue, hm, getSelectedAssetValue_eq_formAsset, ha, hne, if_true,
    if_false, ne_eq, not_true_eq_false, g1, g3, Bool.false_eq_true]

/-- The quote for a price that is not usable. -/
theorem updateWalletUI_unusable (h : Host) (s : Page) (asset : String)
    (hm : s.dom.checkedMethod = some "crypto") (ha : formAsset s = asset) (hne : asset ≠ "")
    (hu : ¬ PriceUsable (priceOf s asset)) :
    updateWalletUI h s =
      updateRatesStatus (setWalletInline (setDisplay s "wallet_box" "") asset "—"
        (formatMoney h (.num (.fin s.currentTotal)) "USD")
        (strOr (getWalletAddress h s asset) "YOUR_WALLET_ADDRESS"))
        "Rates: using embedded fallback" := by
  obtain ⟨g1, _⟩ := guard_of_not_usable hu
  unfold updateWalletUI
  simp only [getSelectedMethodValue, hm, getSelectedAssetValue_eq_formAsset, ha, hne, if_true,
    if_false, ne_eq, not_true_eq_false, g1]

/-- Without the crypto method the quote is not computed: only the wallet box is hidden. -/
theorem updateWalletUI_other_method (h : Host) (s : Page)
    (hm : s.dom.checkedMethod ≠ some "crypto") :
    updateWalletUI h s = setDisplay s "wallet_box" "none" := by
  have hv : getSelectedMethodValue s ≠ "crypto" := by
    unfold getSelectedMethodValue
    cases hc : s.dom.checkedMethod with
    | none => decide
    | some v =>
      intro hv
      apply hm
      rw [hc]
      simpa using hv
  unfold updateWalletUI
  simp only [hv, if_false, ne_eq, not_false_eq_true, if_true]

theorem not_usable_of_unusable {px : Option Num} (hu : PriceUnusable px) : ¬ PriceUsable px := by
  rintro ⟨p, hp, hpos⟩
  rcases hu with h0 | ⟨n, hn, hf⟩ | ⟨q, hq, hle⟩
  · rw [h0] at hp
    cases hp
  · rw [hn] at hp
    cases hp
    simp [Num.isFinite] at hf
  · rw [hq] at hp
    cases hp
    exact absurd hpos (not_lt.mpr hle)

theorem pendingPayment_amount (h : Host) (s : Page) (asset : String) :
    (pendingPayment h s asset).get "amount" = quoteAmount s asset := by
  simp [pendingPayment, Val.get, List.lookup]

theorem pendingPayment_amount_str (h : Host) (s : Page) (asset : String) :
    (pendingPayment h s asset).get "amount_str" =
      .str (if (quoteAmount s asset).truthy then formatCrypto h asset (quoteAmount s asset)
        else "—") := by
  simp [pendingPayment, Val.get, List.lookup]

/-- A crypto submission that passes the checks writes the pending-payment record computed from
the state at submission. -/
theorem submit_writes_pending (h : Host) (relay : FetchResult) (s : Page)
    (he : formEmail s ≠ "") (hm : s.dom.checkedMethod = some "crypto")
    (ha : formAsset s ≠ "") :
    (submit h relay s).storage PENDING_KEY = some (pendingPayment h s (formAsset s)) := by
  unfold submit
  simp only [he, hm, ha, if_false, and_false, if_true]
  unfold cryptoBranch
  simp only [(showRedirectOverlay_domOnly _ _ _ _ _).storage_eq, setItem, Function.update_same]
  rfl

/-! ### C2 -/

theorem amountStr_eq (h : Host) (asset : String) (n : Num) :
    (if (Val.num n).truthy then formatCrypto h asset (.num n) else "—") =
      formatCrypto h asset (.num n) := by
  cases n with
  | fin q =>
    by_cases hz : q = 0
    · rw [hz, formatCrypto_of_nonpos h asset 0 le_rfl]
      simp [Val.truthy, Num.truthy]
    · simp [Val.truthy, Num.truthy, hz]
  | nan =>
    have e : formatCrypto h asset (.num .nan) = "—" := by
      unfold formatCrypto
      simp [toNumber]
    rw [e]
    simp
  | pinf => simp [Val.truthy, Num.truthy]
  | ninf => simp [Val.truthy, Num.truthy]

/-- C2: when the payment method is crypto, an asset is selected and its price in the rate table
is a finite number above zero, the quote written by `updateWalletUI` is the amount string
`formatCrypto(asset, total / price)` (with the fiat equivalent and the live status), and the
pending-payment record written by the crypto branch of the submit handler has
amount = total / price and amount_str = `formatCrypto(asset, total / price)`, the quotient
being the JavaScript one: the double nearest to the exact quotient.  USDT at price 1 with total
10 shows "10"; TRX at price 0.30 with the price 9.99 taken from the query shows "33.3", the
amount recorded being the double 33.300000000000004; a total of 3 at the USDT price 200, and a
total of 0.015 taken from the query at the USDT price 1, show "0.01", the double nearest to
0.015 lying below it. -/
theorem crypto_quote_amount (h : Host) (relay : FetchResult) (s : Page) (asset : String) (p : ℚ)
    (hm : s.dom.checkedMethod = some "crypto") (ha : formAsset s = asset) (hne : asset ≠ "")
    (hp : priceOf s asset = some (.fin p)) (hpos : 0 < p) :
    Num.div (.fin s.currentTotal) (.fin p) = toDouble (s.currentTotal / p) ∧
    updateWalletUI h s =
      updateRatesStatus (setWalletInline (setDisplay s "wallet_box" "") asset
        (formatCrypto h asset (.num (Num.div (.fin s.currentTotal) (.fin p))))
        (formatMoney h (.num (.fin s.currentTotal)) "USD")
        (strOr (getWalletAddress h s asset) "YOUR_WALLET_ADDRESS"))
        "Rates: live / fallback (USD)" ∧
    (s.dom.present "wallet_amount" = true →
      (updateWalletUI h s).dom.text "wallet_amount" =
        formatCrypto h asset (.num (Num.div (.fin s.currentTotal) (.fin p)))) ∧
    (formEmail s ≠ "" →
      ∃ pay, (submit h relay s).storage PENDING_KEY = some pay ∧
        pay.get "amount" = .num (Num.div (.fin s.currentTotal) (.fin p)) ∧
        pay.get "amount_str" =
          .str (formatCrypto h asset (.num (Num.div (.fin s.currentTotal) (.fin p))))) ∧
    (updateTotals demoHost (demoPage (some "crypto") "USDT" (.num (.fin 10)) 0
        [("USDT", .fin 1)])).dom.text "wallet_amount" = "10" ∧
    (initCheckoutPage demoHost ⟨.undefined, [("TRX", toDouble 0.30)]⟩
        [("product", "Pro"), ("plan", "Monthly"), ("price", "9.99"), ("currency", "USD")]
        (demoDom (some "crypto") "TRX") (fun _ => none)).map
      (fun t => (t.currentTotal, t.dom.text "wallet_amount",
        ((submit demoHost .rejected t).storage PENDING_KEY).map
          (fun pay => (toNumber (pay.get "amount"), (pay.get "amount_str").toStr demoHost)))) =
      some (5623870034678907 / 562949953421312, "33.3",
        some (4686558362232423 / 140737488355328, "33.3")) ∧
    (updateTotals demoHost (demoPage (some "crypto") "USDT" (.num (.fin 3)) 0
        [("USDT", .fin 200)])).dom.text "wallet_amount" = "0.01" ∧
    (initCheckoutPage demoHost ⟨.undefined, [("USDT", .fin 1)]⟩ [("price", "0.015")]
        (demoDom (some "crypto") "USDT") (fun _ => none)).map
      (fun t => t.dom.text "wallet_amount") = some "0.01" := by
  obtain ⟨_, g2, g3⟩ := guard_of_usable hp hpos
  have heq := updateWalletUI_usable h s asset p hm ha hne hp hpos
  refine ⟨div_of_pos _ _ hpos, heq, ?_, ?_, ?_, ?_, ?_, ?_⟩
  · intro hpres
    rw [heq]
    refine (quote_texts _ _ _ _ _ _ (formatMoney_ne_empty _ _ _)).1 ?_
    rw [setDisplay_present]
    exact hpres
  · intro he
    have hq : quoteAmount s asset = .num (Num.div (.fin s.currentTotal) (.fin p)) := by
      unfold quoteAmount
      simp only [g2, g3, if_true]
    refine ⟨_, submit_writes_pending h relay s he hm (ha ▸ hne), ?_, ?_⟩
    · rw [ha, pendingPayment_amount, hq]
    · rw [ha, pendingPayment_amount_str, hq, amountStr_eq]
  · decide!
  · decide!
  · decide!
  · decide!

/-- C2 witness: a session with a total of 9.99 (the double nearest to it) and TRX at the price
0.30: the amount is the double 33.300000000000004 and the quote shows "33.3". -/
theorem crypto_quote_amount_witness :
    Num.div (.fin (5623870034678907 / 562949953421312)) (toDouble 0.30) =
      .fin (4686558362232423 / 140737488355328) ∧
    (updateWalletUI demoHost
        { demoPage (some "crypto") "TRX" (.num (.fin 10)) 0
            [("TRX", .fin (5404319552844595 / 18014398509481984))] with
          currentTotal := 5623870034678907 / 562949953421312 }).dom.text "wallet_amount" =
      "33.3" :=
  ⟨by decide!,
   ((crypto_quote_amount demoHost .rejected
    { demoPage (some "crypto") "TRX" (.num (.fin 10)) 0
        [("TRX", .fin (5404319552844595 / 18014398509481984))] with
      currentTotal := 5623870034678907 / 562949953421312 } "TRX"
      (5404319552844595 / 18014398509481984) rfl (by decide!) (by decide) (by decide!)
      (by norm_num)).2.2.1 rfl).trans (by decide!)⟩

/-! ### C3 -/

/-- C3: when the payment method is crypto and the selected asset has a price that is missing,
not finite or at most zero, `updateWalletUI` returns (it is a total function) the state in which
the amount is the placeholder "—", the fiat equivalent `formatMoney(total, "USD")` is shown and
the status is the fallback message; the pending-payment record written by the crypto branch of
the submit handler has amount `null` and amount_str "—".  With a table that has no TON entry and
the asset TON, the amount shown is "—" and the status is the fallback message. -/
theorem quote_without_price (h : Host) (relay : FetchResult) (s : Page) (asset : String)
    (hm : s.dom.checkedMethod = some "crypto") (ha : formAsset s = asset) (hne : asset ≠ "")
    (hu : PriceUnusable (priceOf s asset)) :
    updateWalletUI h s =
      updateRatesStatus (setWalletInline (setDisplay s "wallet_box" "") asset "—"
        (formatMoney h (.num (.fin s.currentTotal)) "USD")
        (strOr (getWalletAddress h s asset) "YOUR_WALLET_ADDRESS"))
        "Rates: using embedded fallback" ∧
    (s.dom.present "wallet_amount" = true →
      (updateWalletUI h s).dom.text "wallet_amount" = "—") ∧
    (s.dom.present "wallet_usd" = true →
      (updateWalletUI h s).dom.text "wallet_usd" =
        formatMoney h (.num (.fin s.currentTotal)) "USD") ∧
    (s.dom.present "rates_status" = true →
      (updateWalletUI h s).dom.text "rates_status" = "Rates: using embedded fallback") ∧
    (formEmail s ≠ "" →
      ∃ pay, (submit h relay s).storage PENDING_KEY = some pay ∧
        pay.get "amount" = .null ∧ pay.get "amount_str" = .str "—") ∧
    ((updateWalletUI demoHost
        (demoPage (some "crypto") "TON" (.num (.fin 10)) 0 [("USDT", .fin 1)])).dom.text
          "wallet_amount" = "—" ∧
      (updateWalletUI demoHost
        (demoPage (some "crypto") "TON" (.num (.fin 10)) 0 [("USDT", .fin 1)])).dom.text
          "rates_status" = "Rates: using embedded fallback") := by
  obtain ⟨_, g2⟩ := guard_of_not_usable (not_usable_of_unusable hu)
  have heq := updateWalletUI_unusable h s asset hm ha hne (not_usable_of_unusable hu)
  have ht := quote_texts (setDisplay s "wallet_box" "") asset "—"
    (formatMoney h (.num (.fin s.currentTotal)) "USD")
    (strOr (getWalletAddress h s asset) "YOUR_WALLET_ADDRESS")
    "Rates: using embedded fallback" (formatMoney_ne_empty _ _ _)
  simp only [setDisplay_present] at ht
  refine ⟨heq, ?_, ?_, ?_, ?_, ?_⟩
  · intro hp
    rw [heq]
    exact ht.1 hp
  · intro hp
    rw [heq]
    exact ht.2.1 hp
  · intro hp
    rw [heq]
    exact ht.2.2 hp
  · intro he
    have hq : quoteAmount s asset = .null := by
      unfold quoteAmount
      simp only [g2, Bool.false_eq_true, if_false]
    refine ⟨_, submit_writes_pending h relay s he hm (ha ▸ hne), ?_, ?_⟩
    · rw [ha, pendingPayment_amount, hq]
    · rw [ha, pendingPayment_amount_str, hq]
      simp [Val.truthy]
  · decide!

/-- C3 witness: a rate table with no TON entry and the asset TON. -/
theorem quote_without_price_witness :
    (updateWalletUI demoHost
        (demoPage (some "crypto") "TON" (.num (.fin 10)) 0 [("USDT", .fin 1)])).dom.text
          "wallet_usd" =
      formatMoney demoHost
        (.num (.fin (demoPage (some "crypto") "TON" (.num (.fin 10)) 0
          [("USDT", .fin 1)]).currentTotal)) "USD" ∧
    ∃ pay, (submit demoHost .rejected
        (demoPage (some "crypto") "TON" (.num (.fin 10)) 0 [("USDT", .fin 1)])).storage
          PENDING_KEY = some pay ∧
      pay.get "amount" = .null ∧ pay.get "amount_str" = .str "—" :=
  ⟨(quote_without_price demoHost .rejected
      (demoPage (some "crypto") "TON" (.num (.fin 10)) 0 [("USDT", .fin 1)]) "TON"
      rfl (by decide!) (by decide) (Or.inl (by decide!))).2.2.1 rfl,
   (quote_without_price demoHost .rejected
      (demoPage (some "crypto") "TON" (.num (.fin 10)) 0 [("USDT", .fin 1)]) "TON"
      rfl (by decide!) (by decide) (Or.inl (by decide!))).2.2.2.2.1 (by decide!)⟩

/-! ### The rate refresh -/

theorem truthy_of_get_truthy {v : Val} {k : String} (hk : (v.get k).truthy = true) :
    v.truthy = true := by
  cases v <;> first | rfl | simp [Val.get, Val.truthy] at hk

theorem sentinel_iff (j : Val) (a b : String) :
    (j.and ((j.get a).and ((j.get a).get b))).truthy = true ↔
      ((j.get a).get b).truthy = true := by
  constructor
  · intro hc
    unfold Val.and at hc
    by_cases hj : j.truthy = true
    · rw [if_pos hj] at hc
      by_cases ha : (j.get a).truthy = true
      · rw [if_pos ha] at hc
        exact hc
      · rw [if_neg ha] at hc
        exact absurd hc ha
    · rw [if_neg hj] at hc
      exact absurd hc hj
  · intro hq
    have ha := truthy_of_get_truthy hq
    have hj := truthy_of_get_truthy ha
    unfold Val.and
    rw [if_pos hj, if_pos ha]
    exact hq

theorem tryPrimary_usable (s : Page) (r : FetchResult) (hu : PrimaryUsable r) :
    tryPrimary s r =
      ({ s with requests := s.requests ++ [primaryRequest],
                usdPrices := primaryTable (sourceBody r) }, true) := by
  obtain ⟨j, rfl, hq⟩ := hu
  unfold tryPrimary
  simp only [(sentinel_iff j "USDT" "USD").mpr hq, if_true, sourceBody]

theorem tryPrimary_unusable (s : Page) (r : FetchResult) (hu : ¬ PrimaryUsable r) :
    tryPrimary s r = ({ s with requests := s.requests ++ [primaryRequest] }, false) := by
  unfold tryPrimary
  match r, hu with
  | .rejected, _ => rfl
  | .response false _, _ => rfl
  | .response true none, _ => rfl
  | .response true (some j), hu =>
    have hq : ¬ (j.and ((j.get "USDT").and ((j.get "USDT").get "USD"))).truthy = true :=
      fun hc => hu ⟨j, rfl, (sentinel_iff j "USDT" "USD").mp hc⟩
    simp only [if_neg hq]

theorem trySecondary_usable (s : Page) (r : FetchResult) (hu : SecondaryUsable r) :
    trySecondary s r =
      ({ s with requests := s.requests ++ [secondaryRequest],
                usdPrices := secondaryTable (sourceBody r) }, true) := by
  obtain ⟨j, rfl, hq⟩ := hu
  unfold trySecondary
  simp only [(sentinel_iff j "tether" "usd").mpr hq, if_true, sourceBody]

theorem trySecondary_unusable (s : Page) (r : FetchResult) (hu : ¬ SecondaryUsable r) :
    trySecondary s r = ({ s with requests := s.requests ++ [secondaryRequest] }, false) := by
  unfold trySecondary
  match r, hu with
  | .rejected, _ => rfl
  | .response false _, _ => rfl
  | .response true none, _ => rfl
  | .response true (some j), hu =>
    have hq : ¬ (j.and ((j.get "tether").and ((j.get "tether").get "usd"))).truthy = true :=
      fun hc => hu ⟨j, rfl, (sentinel_iff j "tether" "usd").mp hc⟩
    simp only [if_neg hq]

/-- The refresh when the primary source is usable. -/
theorem refresh_of_primary (h : Host) (r1 r2 : FetchResult) (s : Page) (hu : PrimaryUsable r1) :
    refreshUsdPrices h r1 r2 s =
      updateWalletUI h (updateRatesStatus
        { s with requests := s.requests ++ [primaryRequest],
                 usdPrices := primaryTable (sourceBody r1) }
        "Rates: updated just now") := by
  unfold refreshUsdPrices
  simp only [tryPrimary_usable s r1 hu, Bool.not_true, Bool.false_eq_true, if_false, if_true]

/-- The refresh when only the secondary source is usable. -/
theorem refresh_of_secondary (h : Host) (r1 r2 : FetchResult) (s : Page)
    (h1 : ¬ PrimaryUsable r1) (h2 : SecondaryUsable r2) :
    refreshUsdPrices h r1 r2 s =
      updateWalletUI h (updateRatesStatus
        { s with requests := s.requests ++ [primaryRequest] ++ [secondaryRequest],
                 usdPrices := secondaryTable (sourceBody r2) }
        "Rates: updated just now") := by
  unfold refreshUsdPrices
  simp only [tryPrimary_unusable s r1 h1, Bool.not_false, if_true, trySecondary_usable _ r2 h2]

/-- The refresh when no source is usable. -/
theorem refresh_of_none (h : Host) (r1 r2 : FetchResult) (s : Page)
    (h1 : ¬ PrimaryUsable r1) (h2 : ¬ SecondaryUsable r2) :
    refreshUsdPrices h r1 r2 s =
      updateWalletUI h (updateRatesStatus
        { s with requests := s.requests ++ [primaryRequest] ++ [secondaryRequest] }
        "Rates: using embedded fallback") := by
  unfold refreshUsdPrices
  simp only [tryPrimary_unusable s r1 h1, Bool.not_false, if_true,
    trySecondary_unusable _ r2 h2, Bool.false_eq_true, if_false]

theorem updateRatesStatus_checkedMethod (s : Page) (msg : String) :
    (updateRatesStatus s msg).dom.checkedMethod = s.dom.checkedMethod := by
  unfold updateRatesStatus
  split <;> rfl

/-- When the crypto method is not selected, the status reported by the refresh is the one left
on the page. -/
theorem status_after_refresh (h : Host) (s : Page) (msg : String)
    (hm : s.dom.checkedMethod ≠ some "crypto") (hp : s.dom.present "rates_status" = true) :
    (updateWalletUI h (updateRatesStatus s msg)).dom.text "rates_status" = msg := by
  rw [updateWalletUI_other_method h _ (by rw [updateRatesStatus_checkedMethod]; exact hm),
    setDisplay_text, updateRatesStatus_text]
  simp [hp]

theorem updateWalletUI_no_asset (h : Host) (s : Page)
    (hm : s.dom.checkedMethod = some "crypto") (ha : formAsset s = "") :
    updateWalletUI h s =
      updateRatesStatus (setWalletInline (setDisplay s "wallet_box" "") "" "—" "—" "—")
        "Rates: select a coin…" := by
  unfold updateWalletUI
  simp only [getSelectedMethodValue, hm, getSelectedAssetValue_eq_formAsset, ha, if_true,
    ne_eq, not_true_eq_false, if_false]

/-- When the crypto method is selected, the status left by the quote computation depends on
the selected coin and its price only. -/
theorem status_of_quote (h : Host) (t : Page) (hm : t.dom.checkedMethod = some "crypto")
    (hp : t.dom.present "rates_status" = true) :
    (formAsset t = "" →
      (updateWalletUI h t).dom.text "rates_status" = "Rates: select a coin…") ∧
    (formAsset t ≠ "" → PriceUsable (priceOf t (formAsset t)) →
      (updateWalletUI h t).dom.text "rates_status" = "Rates: live / fallback (USD)") ∧
    (formAsset t ≠ "" → ¬ PriceUsable (priceOf t (formAsset t)) →
      (updateWalletUI h t).dom.text "rates_status" = "Rates: using embedded fallback") := by
  have hp2 : ∀ v, (setDisplay t "wallet_box" v).dom.present "rates_status" = true := fun v => by
    rw [setDisplay_present]
    exact hp
  refine ⟨fun ha => ?_, fun ha hu => ?_, fun ha hu => ?_⟩
  · rw [updateWalletUI_no_asset h t hm ha]
    exact (quote_texts _ _ _ _ _ _ (by decide)).2.2 (hp2 _)
  · obtain ⟨p, hpp, hpos⟩ := hu
    rw [updateWalletUI_usable h t (formAsset t) p hm rfl ha hpp hpos]
    exact (quote_texts _ _ _ _ _ _ (formatMoney_ne_empty _ _ _)).2.2 (hp2 _)
  · rw [updateWalletUI_unusable h t (formAsset t) hm rfl ha hu]
    exact (quote_texts _ _ _ _ _ _ (formatMoney_ne_empty _ _ _)).2.2 (hp2 _)

theorem updateRatesStatus_formAsset (s : Page) (msg : String) :
    formAsset (updateRatesStatus s msg) = formAsset s := by
  unfold updateRatesStatus
  split <;> rfl

theorem updateRatesStatus_present (s : Page) (msg : String) :
    (updateRatesStatus s msg).dom.present = s.dom.present := by
  unfold updateRatesStatus
  split <;> rfl

/-- The status left by a refresh when the crypto method is selected: that of the quote
computation on the refreshed table, whatever status the refresh reported. -/
theorem status_after_refresh_crypto (h : Host) (s t : Page) (msg : String)
    (hd : t.dom = s.dom) (hm : s.dom.checkedMethod = some "crypto")
    (hp : s.dom.present "rates_status" = true) :
    (formAsset s = "" →
      (updateWalletUI h (updateRatesStatus t msg)).dom.text "rates_status" =
        "Rates: select a coin…") ∧
    (formAsset s ≠ "" → PriceUsable (t.usdPrices.lookup (formAsset s)) →
      (updateWalletUI h (updateRatesStatus t msg)).dom.text "rates_status" =
        "Rates: live / fallback (USD)") ∧
    (formAsset s ≠ "" → ¬ PriceUsable (t.usdPrices.lookup (formAsset s)) →
      (updateWalletUI h (updateRatesStatus t msg)).dom.text "rates_status" =
        "Rates: using embedded fallback") := by
  have fa : formAsset (updateRatesStatus t msg) = formAsset s := by
    rw [updateRatesStatus_formAsset]
    unfold formAsset
    rw [hd]
  have hm2 : (updateRatesStatus t msg).dom.checkedMethod = some "crypto" := by
    rw [updateRatesStatus_checkedMethod, hd]
    exact hm
  have hp2 : (updateRatesStatus t msg).dom.present "rates_status" = true := by
    rw [updateRatesStatus_present, hd]
    exact hp
  have pr : ∀ a, priceOf (updateRatesStatus t msg) a = t.usdPrices.lookup a := fun a => by
    unfold priceOf
    rw [(updateRatesStatus_domOnly t msg).usdPrices_eq]
  have q := status_of_quote h (updateRatesStatus t msg) hm2 hp2
  rw [fa, pr] at q
  exact q

/-! ### C5 -/

/-- C5, as stated, fails on the outcome reported: with the crypto method selected the quote
computation that ends the refresh overwrites the status.  On the session of the shipped
configuration (crypto, coin TON at the embedded price) two rejected calls leave
"Rates: live / fallback (USD)" and not "using embedded fallback", and a usable primary answer
that carries no TON quote leaves "Rates: using embedded fallback", not "updated". -/
theorem refresh_status_overwritten :
    (¬ PrimaryUsable .rejected ∧ ¬ SecondaryUsable .rejected ∧
      (refreshUsdPrices demoHost .rejected .rejected shippedSession).dom.text "rates_status" =
        "Rates: live / fallback (USD)") ∧
    (PrimaryUsable usdtOnlyAnswer ∧
      (refreshUsdPrices demoHost usdtOnlyAnswer .rejected shippedSession).dom.text
        "rates_status" = "Rates: using embedded fallback") :=
  ⟨⟨(by rintro ⟨j, hj, _⟩; cases hj), (by rintro ⟨j, hj, _⟩; cases hj), by decide!⟩,
    ⟨⟨_, rfl, by decide!⟩, by decide!⟩⟩

/-- C5 (amended): whatever the two sources answer, `refreshUsdPrices` returns a state (no
failure escapes it).  If the primary answer is usable the table is built from it, only the
primary source is queried and the status passed to `updateRatesStatus` is "updated";
otherwise, if the secondary answer is usable, the table is built from it and that status is
"updated"; otherwise the table is the one present before the refresh and that status is
"using embedded fallback".  The quote computation `updateWalletUI` runs next: when the crypto
method is not selected, the status passed is the text left in the status element; when it is
selected, the text left is the status of the quote, "select a coin" without a coin,
"live / fallback (USD)" when the price of the coin in the table after the refresh is usable and
"using embedded fallback" when it is not, whatever the sources answered. -/
theorem refresh_two_tier (h : Host) (r1 r2 : FetchResult) (s : Page) :
    (PrimaryUsable r1 →
      (refreshUsdPrices h r1 r2 s).usdPrices = primaryTable (sourceBody r1) ∧
      (refreshUsdPrices h r1 r2 s).requests = s.requests ++ [primaryRequest] ∧
      refreshUsdPrices h r1 r2 s =
        updateWalletUI h (updateRatesStatus
          { s with requests := s.requests ++ [primaryRequest],
                   usdPrices := primaryTable (sourceBody r1) }
          "Rates: updated just now")) ∧
    (¬ PrimaryUsable r1 → SecondaryUsable r2 →
      (refreshUsdPrices h r1 r2 s).usdPrices = secondaryTable (sourceBody r2) ∧
      (refreshUsdPrices h r1 r2 s).requests =
        s.requests ++ [primaryRequest] ++ [secondaryRequest] ∧
      refreshUsdPrices h r1 r2 s =
        updateWalletUI h (updateRatesStatus
          { s with requests := s.requests ++ [primaryRequest] ++ [secondaryRequest],
                   usdPrices := secondaryTable (sourceBody r2) }
          "Rates: updated just now")) ∧
    (¬ PrimaryUsable r1 → ¬ SecondaryUsable r2 →
      (refreshUsdPrices h r1 r2 s).usdPrices = s.usdPrices ∧
      (refreshUsdPrices h r1 r2 s).requests =
        s.requests ++ [primaryRequest] ++ [secondaryRequest] ∧
      refreshUsdPrices h r1 r2 s =
        updateWalletUI h (updateRatesStatus
          { s with requests := s.requests ++ [primaryRequest] ++ [secondaryRequest] }
          "Rates: using embedded fallback")) ∧
    (s.dom.checkedMethod ≠ some "crypto" → s.dom.present "rates_status" = true →
      ((PrimaryUsable r1 ∨ SecondaryUsable r2) →
        (refreshUsdPrices h r1 r2 s).dom.text "rates_status" = "Rates: updated just now") ∧
      (¬ PrimaryUsable r1 → ¬ SecondaryUsable r2 →
        (refreshUsdPrices h r1 r2 s).dom.text "rates_status" =
          "Rates: using embedded fallback")) ∧
    (s.dom.checkedMethod = some "crypto" → s.dom.present "rates_status" = true →
      (formAsset s = "" →
        (refreshUsdPrices h r1 r2 s).dom.text "rates_status" = "Rates: select a coin…") ∧
      (formAsset s ≠ "" →
        PriceUsable ((refreshUsdPrices h r1 r2 s).usdPrices.lookup (formAsset s)) →
        (refreshUsdPrices h r1 r2 s).dom.text "rates_status" =
          "Rates: live / fallback (USD)") ∧
      (formAsset s ≠ "" →
        ¬ PriceUsable ((refreshUsdPrices h r1 r2 s).usdPrices.lookup (formAsset s)) →
        (refreshUsdPrices h r1 r2 s).dom.text "rates_status" =
          "Rates: using embedded fallback")) := by
  have tbl : ∀ (t : Page) (msg : String), refreshUsdPrices h r1 r2 s =
      updateWalletUI h (updateRatesStatus t msg) →
      (refreshUsdPrices h r1 r2 s).usdPrices = t.usdPrices ∧
      (refreshUsdPrices h r1 r2 s).requests = t.requests := by
    intro t msg he
    rw [he, (updateWalletUI_domOnly h _).usdPrices_eq,
      (updateRatesStatus_domOnly _ _).usdPrices_eq, (updateWalletUI_domOnly h _).requests_eq,
      (updateRatesStatus_domOnly _ _).requests_eq]
    exact ⟨rfl, rfl⟩
  have form : ∃ (t : Page) (msg : String), t.dom = s.dom ∧
      refreshUsdPrices h r1 r2 s = updateWalletUI h (updateRatesStatus t msg) := by
    by_cases h1 : PrimaryUsable r1
    · refine ⟨_, _, ?_, refresh_of_primary h r1 r2 s h1⟩
      rfl
    · by_cases h2 : SecondaryUsable r2
      · refine ⟨_, _, ?_, refresh_of_secondary h r1 r2 s h1 h2⟩
        rfl
      · refine ⟨_, _, ?_, refresh_of_none h r1 r2 s h1 h2⟩
        rfl
  refine ⟨fun h1 => ?_, fun h1 h2 => ?_, fun h1 h2 => ?_,
    fun hm hp => ⟨fun hu => ?_, fun h1 h2 => ?_⟩, fun hm hp => ?_⟩
  · have he := refresh_of_primary h r1 r2 s h1
    exact ⟨(tbl _ _ he).1, (tbl _ _ he).2, he⟩
  · have he := refresh_of_secondary h r1 r2 s h1 h2
    exact ⟨(tbl _ _ he).1, (tbl _ _ he).2, he⟩
  · have he := refresh_of_none h r1 r2 s h1 h2
    exact ⟨(tbl _ _ he).1, (tbl _ _ he).2, he⟩
  · by_cases h1 : PrimaryUsable r1
    · rw [refresh_of_primary h r1 r2 s h1]
      exact status_after_refresh h _ _ hm hp
    · have h2 : SecondaryUsable r2 := hu.resolve_left h1
      rw [refresh_of_secondary h r1 r2 s h1 h2]
      exact status_after_refresh h _ _ hm hp
  · rw [refresh_of_none h r1 r2 s h1 h2]
    exact status_after_refresh h _ _ hm hp
  · obtain ⟨t, msg, hd, he⟩ := form
    have q := status_after_refresh_crypto h s t msg hd hm hp
    rw [(tbl t msg he).1, he]
    exact q

/-- C5 witness: a usable primary answer on the session of the shipped configuration, where
crypto is selected and the status left is that of the quote, and two rejected calls on a
session where the card method is selected. -/
theorem refresh_two_tier_witness :
    ((refreshUsdPrices demoHost usdtOnlyAnswer .rejected shippedSession).usdPrices =
        primaryTable (sourceBody usdtOnlyAnswer) ∧
      (refreshUsdPrices demoHost usdtOnlyAnswer .rejected shippedSession).requests =
        shippedSession.requests ++ [primaryRequest] ∧
      refreshUsdPrices demoHost usdtOnlyAnswer .rejected shippedSession =
        updateWalletUI demoHost (updateRatesStatus
          { shippedSession with
            requests := shippedSession.requests ++ [primaryRequest],
            usdPrices := primaryTable (sourceBody usdtOnlyAnswer) }
          "Rates: updated just now")) ∧
    (refreshUsdPrices demoHost .rejected .rejected
        (demoPage (some "card") "" (.num (.fin 10)) 0 embeddedUsdPrices)).dom.text "rates_status" =
      "Rates: using embedded fallback" ∧
    (refreshUsdPrices demoHost .rejected .rejected shippedSession).dom.text "rates_status" =
      "Rates: live / fallback (USD)" :=
  ⟨(refresh_two_tier demoHost usdtOnlyAnswer .rejected shippedSession).1 ⟨_, rfl, by decide!⟩,
   ((refresh_two_tier demoHost .rejected .rejected
      (demoPage (some "card") "" (.num (.fin 10)) 0 embeddedUsdPrices)).2.2.2.1
        (by decide) rfl).2
      (by rintro ⟨j, hj, _⟩; cases hj) (by rintro ⟨j, hj, _⟩; cases hj),
   ((refresh_two_tier demoHost .rejected .rejected shippedSession).2.2.2.2 rfl rfl).2.1
      (by decide!) ⟨175 / 100, by decide!, by norm_num⟩⟩

/-! ### C4 -/

theorem toNumber_of_falsy (v : Val) (hv : v.truthy = false) : toNumber v = 0 := by
  match v, hv with
  | .undefined, _ => decide!
  | .null, _ => decide!
  | .bool false, _ => decide!
  | .num .nan, _ => rfl
  | .num (.fin q), hv =>
    simp only [Val.truthy, Num.truthy, decide_eq_false_iff_not, not_not] at hv
    rw [toNumber_fin, hv]
  | .str s, hv =>
    simp only [Val.truthy, decide_eq_false_iff_not, not_not] at hv
    subst hv
    decide!

theorem primaryTable_lookup (j : Val) (a : String) (ha : a ∈ assets) :
    (primaryTable j).lookup a =
      some (.fin (toNumber ((j.get a).and ((j.get a).get "USD")))) := by
  simp only [assets, List.mem_cons, List.mem_singleton, List.not_mem_nil, or_false] at ha
  rcases ha with rfl | rfl | rfl | rfl | rfl | rfl <;> rfl

theorem secondaryTable_lookup (j : Val) (a : String) (ha : a ∈ assets) :
    (secondaryTable j).lookup a =
      some (.fin (toNumber ((j.get (coinGeckoId a)).and ((j.get (coinGeckoId a)).get "usd")))) := by
  simp only [assets, List.mem_cons, List.mem_singleton, List.not_mem_nil, or_false] at ha
  rcases ha with rfl | rfl | rfl | rfl | rfl | rfl <;> rfl

/-- C4, as stated, fails: in the session loaded with the shipped configuration the TON price is
the embedded 1.75; after a refresh from a usable primary answer that carries the USDT quote only,
the TON price looked up is 0, not 1.75, and the quote shows the placeholder. -/
theorem refresh_drops_embedded_price :
    priceOf shippedSession "TON" = some (.fin 1.75) ∧
    priceOf (refreshUsdPrices demoHost usdtOnlyAnswer .rejected shippedSession) "TON"
      = some (.fin 0) ∧
    priceOf (refreshUsdPrices demoHost usdtOnlyAnswer .rejected shippedSession) "TON"
      ≠ some (.fin 1.75) ∧
    (refreshUsdPrices demoHost usdtOnlyAnswer .rejected shippedSession).dom.text "wallet_amount"
      = "—" := by
  decide!

/-- C4 (amended): the embedded constants (overridden by the configuration) are the rate table
a session starts with, and they stay the table when neither source is usable.  After a refresh
from a usable source, the price of each asset of the fixed set is `toNumber` of the quote the
source carries for it, hence 0 when the source lacks the asset, and no embedded constant is
consulted: when the price of the selected asset is missing, not finite or at most zero, the
quote shows the placeholder "—". -/
theorem price_lookup_without_fallback (h : Host) (r1 r2 : FetchResult) (s : Page) :
    (∀ cfg params dom storage t, initCheckoutPage h cfg params dom storage = some t →
      t.usdPrices = objectAssign embeddedUsdPrices cfg.fallbackUsdPrices) ∧
    (¬ PrimaryUsable r1 → ¬ SecondaryUsable r2 →
      ∀ a, priceOf (refreshUsdPrices h r1 r2 s) a = priceOf s a) ∧
    (PrimaryUsable r1 → ∀ a ∈ assets,
      priceOf (refreshUsdPrices h r1 r2 s) a =
        some (.fin (toNumber (((sourceBody r1).get a).and (((sourceBody r1).get a).get "USD")))) ∧
      (((sourceBody r1).get a).truthy = false →
        priceOf (refreshUsdPrices h r1 r2 s) a = some (.fin 0))) ∧
    (¬ PrimaryUsable r1 → SecondaryUsable r2 → ∀ a ∈ assets,
      priceOf (refreshUsdPrices h r1 r2 s) a =
        some (.fin (toNumber (((sourceBody r2).get (coinGeckoId a)).and
          (((sourceBody r2).get (coinGeckoId a)).get "usd")))) ∧
      (((sourceBody r2).get (coinGeckoId a)).truthy = false →
        priceOf (refreshUsdPrices h r1 r2 s) a = some (.fin 0))) ∧
    (∀ asset, s.dom.checkedMethod = some "crypto" → formAsset s = asset → asset ≠ "" →
      PriceUnusable (priceOf s asset) → s.dom.present "wallet_amount" = true →
      (updateWalletUI h s).dom.text "wallet_amount" = "—") := by
  refine ⟨?_, ?_, ?_, ?_, ?_⟩
  · intro cfg params dom storage t ht
    unfold initCheckoutPage at ht
    split at ht
    · cases ht
    · simp only [Option.some.injEq] at ht
      rw [← ht]
      unfold togglePaymentExtras updateTotals
      simp only [(updateWalletUI_domOnly h _).usdPrices_eq, (setDisplay_domOnly _ _ _).usdPrices_eq,
        (setText_domOnly _ _ _).usdPrices_eq]
      split_ifs <;>
        simp only [(updateWalletUI_domOnly h _).usdPrices_eq,
          (setDisplay_domOnly _ _ _).usdPrices_eq, (setText_domOnly _ _ _).usdPrices_eq]
  · intro h1 h2 a
    unfold priceOf
    rw [refresh_of_none h r1 r2 s h1 h2, (updateWalletUI_domOnly h _).usdPrices_eq,
      (updateRatesStatus_domOnly _ _).usdPrices_eq]
  · intro h1 a ha
    have hp : priceOf (refreshUsdPrices h r1 r2 s) a =
        some (.fin (toNumber (((sourceBody r1).get a).and
          (((sourceBody r1).get a).get "USD")))) := by
      unfold priceOf
      rw [refresh_of_primary h r1 r2 s h1, (updateWalletUI_domOnly h _).usdPrices_eq,
        (updateRatesStatus_domOnly _ _).usdPrices_eq]
      exact primaryTable_lookup _ a ha
    refine ⟨hp, fun hf => ?_⟩
    rw [hp, toNumber_of_falsy]
    unfold Val.and
    rw [if_neg (by simp [hf])]
    exact hf
  · intro h1 h2 a ha
    have hp : priceOf (refreshUsdPrices h r1 r2 s) a =
        some (.fin (toNumber (((sourceBody r2).get (coinGeckoId a)).and
          (((sourceBody r2).get (coinGeckoId a)).get "usd")))) := by
      unfold priceOf
      rw [refresh_of_secondary h r1 r2 s h1 h2, (updateWalletUI_domOnly h _).usdPrices_eq,
        (updateRatesStatus_domOnly _ _).usdPrices_eq]
      exact secondaryTable_lookup _ a ha
    refine ⟨hp, fun hf => ?_⟩
    rw [hp, toNumber_of_falsy]
    unfold Val.and
    rw [if_neg (by simp [hf])]
    exact hf
  · intro asset hm ha hne hu hpres
    rw [updateWalletUI_unusable h s asset hm ha hne (not_usable_of_unusable hu)]
    refine (quote_texts _ _ _ _ _ _ (formatMoney_ne_empty _ _ _)).1 ?_
    rw [setDisplay_present]
    exact hpres

/-- C4 witness: the shipped session refreshed from a primary answer that carries the USDT quote
only, looked up for TON. -/
theorem price_lookup_without_fallback_witness :
    priceOf (refreshUsdPrices demoHost usdtOnlyAnswer .rejected shippedSession) "TON" =
      some (.fin 0) :=
  ((price_lookup_without_fallback demoHost usdtOnlyAnswer .rejected shippedSession).2.2.1
    ⟨_, rfl, by decide!⟩ "TON" (by decide)).2 (by decide!)

/-! ### C6 -/

theorem or_and_eq_firstNonEmpty (q stored d : Val) (f : String) :
    (q.or (stored.and (stored.get f))).or d = firstNonEmpty [q, stored.get f] d := by
  unfold firstNonEmpty Val.or Val.and
  by_cases hq : q.truthy = true
  · simp [List.find?, hq]
  · by_cases hf : (stored.get f).truthy = true
    · have hs := truthy_of_get_truthy hf
      simp [List.find?, hq, hf, hs]
    · by_cases hs : stored.truthy = true
      · simp [List.find?, hq, hf, hs]
      · simp [List.find?, hq, hf, hs]

theorem and_or_eq_firstNonEmpty (stored d : Val) (f : String) :
    (stored.and (stored.get f)).or d = firstNonEmpty [stored.get f] d := by
  unfold firstNonEmpty Val.or Val.and
  by_cases hf : (stored.get f).truthy = true
  · have hs := truthy_of_get_truthy hf
    simp [List.find?, hf, hs]
  · by_cases hs : stored.truthy = true
    · simp [List.find?, hf, hs]
    · simp [List.find?, hf, hs]

/-- C6, as stated, fails: with the query `price=` (present, empty) and a stored payload whose
price is 25, the resolved price is 0, while the first non-empty of the query parameter, the
stored field and the default is the stored 25. -/
theorem empty_price_parameter_overrides :
    paramsGet [("price", "")] "price" = .str "" ∧
    firstNonEmpty [paramsGet [("price", "")] "price", storedPro.get "price"] (.num (.fin 0))
      = .num (.fin 25) ∧
    (resolveFields [("price", "")] storedPro).map (fun r => toNumber r.basePrice) = some 0 ∧
    (resolveFields [("price", "")] storedPro).map (fun r => toNumber r.basePrice) ≠ some 25 := by
  refine ⟨rfl, rfl, ?_, ?_⟩ <;> decide!

/-- C6 (amended): for product and plan the resolved value is the first non-empty of the query
parameter, the stored field and the default ("Product", ""); for currency it is that value
upper-cased (default "USD"), the resolution failing when it is not a string; for price, a query
parameter that is present, even empty, decides the price as `toNumber` of it, and only when the
parameter is absent is the price the first non-empty of the stored field and the default 0. -/
theorem resolve_fields_order (params : List (String × String)) (stored : Val) (r : Resolved)
    (hr : resolveFields params stored = some r) :
    r.product =
      firstNonEmpty [paramsGet params "product", stored.get "product"] (.str "Product") ∧
    r.plan = firstNonEmpty [paramsGet params "plan", stored.get "plan"] (.str "") ∧
    callToUpperCase
      (firstNonEmpty [paramsGet params "currency", stored.get "currency"] (.str "USD"))
        = some r.currency ∧
    (∀ q, params.lookup "price" = some q → r.basePrice = .num (.fin (toNumber (.str q)))) ∧
    (params.lookup "price" = none →
      r.basePrice = firstNonEmpty [stored.get "price"] (.num (.fin 0))) := by
  unfold resolveFields at hr
  simp only [or_and_eq_firstNonEmpty, and_or_eq_firstNonEmpty] at hr
  split at hr
  · cases hr
  · rename_i c hc
    simp only [Option.some.injEq] at hr
    subst hr
    refine ⟨rfl, rfl, hc, ?_, ?_⟩
    · intro q hq
      simp only [paramsGet, hq]
    · intro hq
      simp only [paramsGet, hq]

/-- C6 witness: the query of the end-to-end scenario, with the currency in lower case, over a
stored payload. -/
theorem resolve_fields_order_witness :
    resolveFields
        [("product", "Pro"), ("plan", "Monthly"), ("price", "9.99"), ("currency", "usd")]
        storedPro
      = some ⟨.str "Pro", .str "Monthly", .num (.fin (toNumber (.str "9.99"))), "USD"⟩ ∧
    callToUpperCase (firstNonEmpty
        [paramsGet [("product", "Pro"), ("plan", "Monthly"), ("price", "9.99"),
          ("currency", "usd")] "currency", storedPro.get "currency"] (.str "USD"))
      = some "USD" :=
  ⟨rfl, (resolve_fields_order
    [("product", "Pro"), ("plan", "Monthly"), ("price", "9.99"), ("currency", "usd")] storedPro
    ⟨.str "Pro", .str "Monthly", .num (.fin (toNumber (.str "9.99"))), "USD"⟩ rfl).2.2.1⟩

/-! ### Frame lemmas for the submit handler -/

theorem TextOnly.unchanged (s : Page) : TextOnly s s := by
  cases s; rfl

theorem TextOnly.chain {s t u : Page} (a : TextOnly s t) (b : TextOnly t u) : TextOnly s u := by
  unfold TextOnly at *
  rw [b, a]

theorem setText_textOnly (s : Page) (id text : String) : TextOnly s (setText s id text) := by
  unfold setText
  split
  · rfl
  · exact TextOnly.unchanged s

theorem successConfirmation_frame (h : Host) (s : Page) (e m a : String) (tot : ℚ) :
    SameButConfirmation s (successConfirmation h s e m a tot) := by
  unfold successConfirmation
  by_cases hp : s.dom.present "success_modal" = true
  · rw [if_pos hp]
    have h6 := (((((setText_textOnly s "success_email" e).chain
      (setText_textOnly _ "success_item" (itemLine h s))).chain
      (setText_textOnly _ "success_total" (formatMoney h (.num (.fin tot)) s.currency))).chain
      (setText_textOnly _ "success_method" (successMethod m a))).chain
      (setText_textOnly _ ".modal-title" (successTitle m))).chain
      (setText_textOnly _ "success_desc" (successDesc m))
    simp only
    rw [h6]
    exact ⟨rfl, rfl, rfl, rfl, rfl, rfl, rfl, rfl, fun k hk => Function.update_noteq hk _ _⟩
  · rw [if_neg hp]
    exact ⟨rfl, rfl, rfl, rfl, rfl, rfl, rfl, rfl, fun _ _ => rfl⟩

theorem showRedirectOverlay_frame (s : Page) (a b c d : String) :
    (showRedirectOverlay s a b c d).dom.present = s.dom.present ∧
    (showRedirectOverlay s a b c d).dom.checkedMethod = s.dom.checkedMethod := by
  unfold showRedirectOverlay
  split
  · exact ⟨rfl, rfl⟩
  · have h4 := (((setText_textOnly { s with dom := { s.dom with
        redirecting := true,
        display := Function.update s.dom.display "redirect_overlay" "flex",
        ariaHidden := Function.update s.dom.ariaHidden "redirect_overlay" "false" } }
      "redirect_item" (strOr a "—")).chain (setText_textOnly _ "redirect_total" (strOr b "—"))).chain
      (setText_textOnly _ "redirect_amount" (strOr c "—"))).chain
      (setText_textOnly _ "redirect_asset" (strOr d "—"))
    simp only
    rw [h4]
    exact ⟨rfl, rfl⟩

/-- The state after the `catch` block of the card branch. -/
theorem cardFailure_frame (s : Page) :
    (cardFailure s).storage = s.storage ∧ (cardFailure s).requests = s.requests ∧
    (cardFailure s).location = s.location ∧ (cardFailure s).timers = s.timers ∧
    (cardFailure s).dom.redirecting = false ∧
    (cardFailure s).dom.checkedMethod = s.dom.checkedMethod ∧
    (cardFailure s).dom.present = s.dom.present ∧
    (cardFailure s).alerts = s.alerts ++ [cardFailureMessage] ∧
    (s.dom.present "redirect_overlay" = true →
      (cardFailure s).dom.display "redirect_overlay" = "none" ∧
      (cardFailure s).dom.ariaHidden "redirect_overlay" = "true") := by
  unfold cardFailure alert
  by_cases hp : s.dom.present "redirect_overlay" = true
  · simp [hp]
  · simp [hp]

theorem Val.or_of_truthy {a : Val} (b : Val) (ha : a.truthy = true) : a.or b = a := by
  unfold Val.or
  rw [if_pos ha]

theorem Val.or_of_falsy {a : Val} (b : Val) (ha : a.truthy = false) : a.or b = b := by
  unfold Val.or
  rw [if_neg (by rw [ha]; decide)]

theorem Val.and_of_truthy {a : Val} (b : Val) (ha : a.truthy = true) : a.and b = b := by
  unfold Val.and
  rw [if_pos ha]

theorem Val.and_of_falsy {a : Val} (b : Val) (ha : a.truthy = false) : a.and b = a := by
  unfold Val.and
  rw [if_neg (by rw [ha]; decide)]

theorem redirectTarget_of_fails (relay : FetchResult) (hf : RelayFails relay) :
    (redirectTarget (relayResult relay)).truthy = false := by
  match relay, hf with
  | .rejected, _ => rfl
  | .response false _, _ => rfl
  | .response true none, _ => rfl
  | .response true (some r), ⟨h1, h2, h3⟩ =>
    simp only [relayResult, redirectTarget]
    rw [Val.or_of_falsy _ h1, Val.or_of_falsy _ h2]
    cases hr : r.truthy with
    | true => rw [Val.and_of_truthy _ hr, Val.or_of_falsy _ h3]; rfl
    | false => rw [Val.and_of_falsy _ hr, Val.or_of_falsy _ hr]; rfl

theorem redirectTarget_of_link (r u : Val)
    (hu : firstNonEmpty? [r.get "url", r.get "my", r.get "short"] = some u) :
    redirectTarget (relayResult (.response true (some r))) = u ∧ u.truthy = true := by
  unfold firstNonEmpty? at hu
  have hut : u.truthy = true := List.find?_some hu
  have key : ((r.get "url").or (r.get "my")).or (r.get "short") = u := by
    cases h1 : (r.get "url").truthy with
    | true =>
      simp only [List.find?, h1, Option.some.injEq] at hu
      rw [Val.or_of_truthy _ h1, Val.or_of_truthy _ h1]
      exact hu
    | false =>
      cases h2 : (r.get "my").truthy with
      | true =>
        simp only [List.find?, h1, h2, Option.some.injEq] at hu
        rw [Val.or_of_falsy _ h1, Val.or_of_truthy _ h2]
        exact hu
      | false =>
        cases h3 : (r.get "short").truthy with
        | true =>
          simp only [List.find?, h1, h2, h3, Option.some.injEq] at hu
          rw [Val.or_of_falsy _ h1, Val.or_of_falsy _ h2]
          exact hu
        | false =>
          simp [List.find?, h1, h2, h3] at hu
  have hr : r.truthy = true := by
    cases h1 : (r.get "url").truthy with
    | true => exact truthy_of_get_truthy h1
    | false =>
      cases h2 : (r.get "my").truthy with
      | true => exact truthy_of_get_truthy h2
      | false =>
        cases h3 : (r.get "short").truthy with
        | true => exact truthy_of_get_truthy h3
        | false => simp [List.find?, h1, h2, h3] at hu
  refine ⟨?_, hut⟩
  simp only [relayResult, redirectTarget]
  rw [key, Val.and_of_truthy _ hr, Val.or_of_truthy _ hut]

/-- A card submission that passes the checks runs the card branch on the state in which the
order has been written. -/
theorem submit_card (h : Host) (relay : FetchResult) (s : Page)
    (he : formEmail s ≠ "") (hm : s.dom.checkedMethod = some "card") :
    submit h relay s =
      cardBranch h relay (setItem s LAST_ORDER_KEY
          (assembleOrder h s (formEmail s) "card" (formAsset s)))
        (assembleOrder h s (formEmail s) "card" (formAsset s)) (formEmail s) (formAsset s)
        (clampMoney (.num (.fin (clampMoney s.basePrice - s.discount)))) := by
  unfold submit
  have hc : ¬ ("card" = "crypto") := by decide
  simp only [he, hm, if_false, hc, false_and, if_true]

/-- The card branch when the relay gives no redirect target: the `catch` block runs and the
handler goes on to the success confirmation. -/
theorem cardBranch_of_fails (h : Host) (relay : FetchResult) (s : Page) (o : Val)
    (e a : String) (t : ℚ) (hf : RelayFails relay) :
    cardBranch h relay s o e a t =
      successConfirmation h (cardFailure (createCustomEuAd h
        (showRedirectOverlay s (itemLine h s)
          (formatMoney h (.num (.fin s.currentTotal)) s.currency)
          (formatMoney h (.num (.fin s.currentTotal)) s.currency) "Card") o relay).1)
        e "card" a t := by
  unfold cardBranch
  simp only [createCustomEuAd_snd, redirectTarget_of_fails relay hf, Bool.false_eq_true, if_false]

/-- The card branch when the relay gives a redirect target: the handler navigates to it. -/
theorem cardBranch_of_link (h : Host) (relay : FetchResult) (s : Page) (o : Val)
    (e a : String) (t : ℚ) (hl : (redirectTarget (relayResult relay)).truthy = true) :
    (cardBranch h relay s o e a t).location = some (redirectTarget (relayResult relay)) := by
  unfold cardBranch
  simp only [createCustomEuAd_snd, hl, if_true]

/-! ### C7 -/

/-- C7: the submit handler checks, in this order, that the trimmed email is not empty, that a
payment method is selected and, for the crypto method, that an asset is selected.  The first
check that fails decides the message, the three messages are distinct, and the submission is
then aborted with no effect: nothing is written to the storage, no request is issued, no
navigation or timer is set and no element is shown or rewritten.  When the three checks pass, the
assembled order is written to the last-order slot. -/
theorem submit_checks_in_order (h : Host) (relay : FetchResult) (s : Page) :
    (formEmail s = "" →
      (submit h relay s).alerts = s.alerts ++ ["Please enter your email."] ∧
      NoEffect s (submit h relay s)) ∧
    (formEmail s ≠ "" → s.dom.checkedMethod = none →
      (submit h relay s).alerts = s.alerts ++ ["Please select a payment method."] ∧
      NoEffect s (submit h relay s)) ∧
    (formEmail s ≠ "" → s.dom.checkedMethod = some "crypto" → formAsset s = "" →
      (submit h relay s).alerts = s.alerts ++ ["Please select a cryptocurrency."] ∧
      NoEffect s (submit h relay s)) ∧
    (∀ m, formEmail s ≠ "" → s.dom.checkedMethod = some m →
      ¬ (m = "crypto" ∧ formAsset s = "") →
      (submit h relay s).storage LAST_ORDER_KEY =
        some (assembleOrder h s (formEmail s) m (formAsset s))) ∧
    ("Please enter your email." ≠ "Please select a payment method." ∧
      "Please enter your email." ≠ "Please select a cryptocurrency." ∧
      "Please select a payment method." ≠ "Please select a cryptocurrency.") := by
  refine ⟨fun he => ?_, fun he hm => ?_, fun he hm ha => ?_,
    fun m he hm ha => submit_writes_order h relay s m he hm ha, by decide⟩
  · unfold submit
    simp only [he, if_true]
    split
    · exact ⟨rfl, rfl, rfl, rfl, rfl, rfl, rfl, rfl, rfl⟩
    · exact ⟨rfl, rfl, rfl, rfl, rfl, rfl, rfl, rfl, rfl⟩
  · unfold submit
    simp only [he, hm, if_false]
    exact ⟨rfl, rfl, rfl, rfl, rfl, rfl, rfl, rfl, rfl⟩
  · unfold submit
    simp only [he, hm, ha, if_false, and_self, if_true]
    exact ⟨rfl, rfl, rfl, rfl, rfl, rfl, rfl, rfl, rfl⟩

/-- C7 witness: a form without email, and a crypto submission that passes the three checks. -/
theorem submit_checks_in_order_witness :
    ((submit demoHost .rejected
        { shippedSession with dom := { shippedSession.dom with value := fun _ => "" } }).alerts =
        shippedSession.alerts ++ ["Please enter your email."] ∧
      NoEffect { shippedSession with dom := { shippedSession.dom with value := fun _ => "" } }
        (submit demoHost .rejected
          { shippedSession with dom := { shippedSession.dom with value := fun _ => "" } })) ∧
    (submit demoHost .rejected shippedSession).storage LAST_ORDER_KEY =
      some (assembleOrder demoHost shippedSession (formEmail shippedSession) "crypto"
        (formAsset shippedSession)) :=
  ⟨(submit_checks_in_order demoHost .rejected
      { shippedSession with dom := { shippedSession.dom with value := fun _ => "" } }).1
      (by decide!),
   (submit_checks_in_order demoHost .rejected shippedSession).2.2.2.1 "crypto"
      (by decide!) rfl (by decide!)⟩

/-! ### C8 -/

/-- C8: in a card submission that passes the checks, when the relay fails nothing navigates (the
location and the timers are unchanged), the redirect overlay is hidden where it exists and was
never shown where it does not, the "is-redirecting" state is removed, the selected method is
still card and the last-order slot holds the order assembled for the attempt; when the response
has a non-empty field among `url`, `my`, `short`, the handler navigates to the first of them in
that order. -/
theorem card_relay_outcome (h : Host) (relay : FetchResult) (s : Page)
    (he : formEmail s ≠ "") (hm : s.dom.checkedMethod = some "card") :
    (RelayFails relay →
      (submit h relay s).location = s.location ∧
      (submit h relay s).timers = s.timers ∧
      (s.dom.present "redirect_overlay" = true →
        (submit h relay s).dom.display "redirect_overlay" = "none" ∧
        (submit h relay s).dom.ariaHidden "redirect_overlay" = "true") ∧
      (s.dom.present "redirect_overlay" = false →
        (submit h relay s).dom.display "redirect_overlay" = s.dom.display "redirect_overlay") ∧
      (submit h relay s).dom.redirecting = false ∧
      (submit h relay s).dom.checkedMethod = some "card" ∧
      (submit h relay s).storage LAST_ORDER_KEY =
        some (assembleOrder h s (formEmail s) "card" (formAsset s))) ∧
    (∀ r u, relay = .response true (some r) →
      firstNonEmpty? [r.get "url", r.get "my", r.get "short"] = some u →
      (submit h relay s).location = some u) := by
  have hw := submit_writes_order h relay s "card" he hm (by simp)
  constructor
  · intro hf
    rw [submit_card h relay s he hm, cardBranch_of_fails _ _ _ _ _ _ _ hf] at hw ⊢
    obtain ⟨-, -, f3, f4, f5, f6, f7, f8, f9⟩ := successConfirmation_frame h
      (cardFailure (createCustomEuAd h
        (showRedirectOverlay (setItem s LAST_ORDER_KEY
            (assembleOrder h s (formEmail s) "card" (formAsset s)))
          (itemLine h (setItem s LAST_ORDER_KEY
            (assembleOrder h s (formEmail s) "card" (formAsset s))))
          (formatMoney h (.num (.fin (setItem s LAST_ORDER_KEY
            (assembleOrder h s (formEmail s) "card" (formAsset s))).currentTotal))
            (setItem s LAST_ORDER_KEY
              (assembleOrder h s (formEmail s) "card" (formAsset s))).currency)
          (formatMoney h (.num (.fin (setItem s LAST_ORDER_KEY
            (assembleOrder h s (formEmail s) "card" (formAsset s))).currentTotal))
            (setItem s LAST_ORDER_KEY
              (assembleOrder h s (formEmail s) "card" (formAsset s))).currency) "Card")
        (assembleOrder h s (formEmail s) "card" (formAsset s)) relay).1)
      (formEmail s) "card" (formAsset s)
      (clampMoney (.num (.fin (clampMoney s.basePrice - s.discount))))
    obtain ⟨-, -, c3, c4, c5, c6, c7, -, c9⟩ := cardFailure_frame
      (createCustomEuAd h
        (showRedirectOverlay (setItem s LAST_ORDER_KEY
            (assembleOrder h s (formEmail s) "card" (formAsset s)))
          (itemLine h (setItem s LAST_ORDER_KEY
            (assembleOrder h s (formEmail s) "card" (formAsset s))))
          (formatMoney h (.num (.fin (setItem s LAST_ORDER_KEY
            (assembleOrder h s (formEmail s) "card" (formAsset s))).currentTotal))
            (setItem s LAST_ORDER_KEY
              (assembleOrder h s (formEmail s) "card" (formAsset s))).currency)
          (formatMoney h (.num (.fin (setItem s LAST_ORDER_KEY
            (assembleOrder h s (formEmail s) "card" (formAsset s))).currentTotal))
            (setItem s LAST_ORDER_KEY
              (assembleOrder h s (formEmail s) "card" (formAsset s))).currency) "Card")
        (assembleOrder h s (formEmail s) "card" (formAsset s)) relay).1
    obtain ⟨o1, o2⟩ := showRedirectOverlay_frame (setItem s LAST_ORDER_KEY
        (assembleOrder h s (formEmail s) "card" (formAsset s)))
      (itemLine h (setItem s LAST_ORDER_KEY
        (assembleOrder h s (formEmail s) "card" (formAsset s))))
      (formatMoney h (.num (.fin (setItem s LAST_ORDER_KEY
        (assembleOrder h s (formEmail s) "card" (formAsset s))).currentTotal))
        (setItem s LAST_ORDER_KEY
          (assembleOrder h s (formEmail s) "card" (formAsset s))).currency)
      (formatMoney h (.num (.fin (setItem s LAST_ORDER_KEY
        (assembleOrder h s (formEmail s) "card" (formAsset s))).currentTotal))
        (setItem s LAST_ORDER_KEY
          (assembleOrder h s (formEmail s) "card" (formAsset s))).currency) "Card"
    have od := showRedirectOverlay_domOnly (setItem s LAST_ORDER_KEY
        (assembleOrder h s (formEmail s) "card" (formAsset s)))
      (itemLine h (setItem s LAST_ORDER_KEY
        (assembleOrder h s (formEmail s) "card" (formAsset s))))
      (formatMoney h (.num (.fin (setItem s LAST_ORDER_KEY
        (assembleOrder h s (formEmail s) "card" (formAsset s))).currentTotal))
        (setItem s LAST_ORDER_KEY
          (assembleOrder h s (formEmail s) "card" (formAsset s))).currency)
      (formatMoney h (.num (.fin (setItem s LAST_ORDER_KEY
        (assembleOrder h s (formEmail s) "card" (formAsset s))).currentTotal))
        (setItem s LAST_ORDER_KEY
          (assembleOrder h s (formEmail s) "card" (formAsset s))).currency) "Card"
    refine ⟨?_, ?_, ?_, ?_, ?_, ?_, hw⟩
    · rw [f3, c3]
      exact od.location_eq
    · rw [f4, c4]
      exact od.timers_eq
    · intro hp
      have hp2 : (createCustomEuAd h
        (showRedirectOverlay (setItem s LAST_ORDER_KEY
            (assembleOrder h s (formEmail s) "card" (formAsset s)))
          (itemLine h (setItem s LAST_ORDER_KEY
            (assembleOrder h s (formEmail s) "card" (formAsset s))))
          (formatMoney h (.num (.fin (setItem s LAST_ORDER_KEY
            (assembleOrder h s (formEmail s) "card" (formAsset s))).currentTotal))
            (setItem s LAST_ORDER_KEY
              (assembleOrder h s (formEmail s) "card" (formAsset s))).currency)
          (formatMoney h (.num (.fin (setItem s LAST_ORDER_KEY
            (assembleOrder h s (formEmail s) "card" (formAsset s))).currentTotal))
            (setItem s LAST_ORDER_KEY
              (assembleOrder h s (formEmail s) "card" (formAsset s))).currency) "Card")
        (assembleOrder h s (formEmail s) "card" (formAsset s)) relay).1.dom.present
          "redirect_overlay" = true := by
        show (showRedirectOverlay _ _ _ _ _).dom.present "redirect_overlay" = true
        rw [o1]
        exact hp
      rw [f9 _ (by decide), f8]
      exact c9 hp2
    · intro hp
      rw [f9 _ (by decide)]
      unfold cardFailure alert createCustomEuAd showRedirectOverlay
      simp [setItem, hp]
    · rw [f5]
      exact c5
    · rw [f6, c6]
      show (showRedirectOverlay _ _ _ _ _).dom.checkedMethod = some "card"
      rw [o2]
      exact hm
  · intro r u hr hu
    subst hr
    obtain ⟨ht, hut⟩ := redirectTarget_of_link r u hu
    rw [submit_card h _ s he hm, cardBranch_of_link _ _ _ _ _ _ _ (by rw [ht]; exact hut), ht]

/-- C8 witness: a card submission answered `ok: false`, and one answered with a link in the
field `my`. -/
theorem card_relay_outcome_witness :
    ((submit demoHost relayNotOk cardSession).location = cardSession.location ∧
      (submit demoHost relayNotOk cardSession).dom.redirecting = false ∧
      (submit demoHost relayNotOk cardSession).dom.checkedMethod = some "card" ∧
      (submit demoHost relayNotOk cardSession).storage LAST_ORDER_KEY =
        some (assembleOrder demoHost cardSession (formEmail cardSession) "card"
          (formAsset cardSession))) ∧
    (submit demoHost relayMy cardSession).location = some (.str "https://pay.example/m1") :=
  ⟨⟨((card_relay_outcome demoHost relayNotOk cardSession (by decide!) (by decide!)).1
        ⟨rfl, rfl, rfl⟩).1,
    ((card_relay_outcome demoHost relayNotOk cardSession (by decide!) (by decide!)).1
        ⟨rfl, rfl, rfl⟩).2.2.2.2.1,
    ((card_relay_outcome demoHost relayNotOk cardSession (by decide!) (by decide!)).1
        ⟨rfl, rfl, rfl⟩).2.2.2.2.2.1,
    ((card_relay_outcome demoHost relayNotOk cardSession (by decide!) (by decide!)).1
        ⟨rfl, rfl, rfl⟩).2.2.2.2.2.2⟩,
   (card_relay_outcome demoHost relayMy cardSession (by decide!) (by decide!)).2
      _ _ rfl rfl⟩

/-! ### C9 -/

/-- C9 fails on the code: in a card submission whose relay answers `ok: false`, the failure
message is alerted and the handler then goes on to the success confirmation: the modal is shown
with the title "Order created"; without a modal the order is announced by an alert after the
failure message. -/
theorem card_failure_then_success_confirmation :
    (submit demoHost relayNotOk cardSession).alerts = [cardFailureMessage] ∧
    (submit demoHost relayNotOk cardSession).dom.display "success_modal" = "flex" ∧
    (submit demoHost relayNotOk cardSession).dom.text ".modal-title" = "Order created" ∧
    (submit demoHost relayNotOk cardSession).location.isNone = true ∧
    (submit demoHost relayNotOk
      { cardSession with dom := { cardSession.dom with
          present := fun id => decide (id ≠ "success_modal") } }).alerts =
      [cardFailureMessage, "Order created! Check localStorage key: neko_last_order_v1"] := by
  decide!

/-! ### C10 -/

theorem okIsNotTrue_iff (d : Val) : okIsNotTrue d = true ↔ d.get "ok" ≠ .bool true := by
  unfold okIsNotTrue
  constructor
  · intro hk hd
    rw [hd] at hk
    simp at hk
  · intro hd
    split
    · rename_i heq
      exact absurd heq hd
    · rfl

theorem amount_guard_of_valid {n : Num} {a : ℚ} (hn : n = .fin a) (ha : 0 < a) :
    (!n.isFinite || n.le (.fin 0)) = false := by
  subst hn
  simp [Num.isFinite, Num.le, ha]

theorem amount_guard_of_invalid {n : Num} (hn : ¬ ∃ a : ℚ, n = .fin a ∧ 0 < a) :
    (!n.isFinite || n.le (.fin 0)) = true := by
  match n, hn with
  | .nan, _ => rfl
  | .pinf, _ => rfl
  | .ninf, _ => rfl
  | .fin a, hn =>
    have ha : a ≤ 0 := by
      by_contra hc
      exact hn ⟨a, rfl, not_le.mp hc⟩
    simp [Num.isFinite, Num.le, ha]

/-- C10: for every request handled by `onRequestPost` in which the provider call returns: without
the credential the response is 500 with `ok: false`, whatever the body, and the provider is not
called; otherwise, if the amount does not parse to a finite value above zero, the response is 400
with the error INVALID_AMOUNT and the provider is not called; otherwise, if the reply of the
provider does not parse or its `ok` flag is not `true`, the response is 502 with `ok: false`;
otherwise the response is 200 and its body is the reply of the provider.  In the last two cases
the one invoice relayed is fiat-denominated, expires in 3600 seconds and carries the amount
fixed to 2 decimals.  The amount is parsed to a double: "1e400" overflows to Infinity and
"1e-400" underflows to 0, both answered 400 without a call of the provider, and "1.005", whose
nearest double lies below it, is relayed as "1.00". -/
theorem relay_responses (h : Host) (token : Val) (reqBody reply : Option Val) :
    (token.truthy = false →
      (onRequestPost h token reqBody (.replied reply)).1.status = 500 ∧
      (onRequestPost h token reqBody (.replied reply)).1.body.get "ok" = .bool false ∧
      (onRequestPost h token reqBody (.replied reply)).2 = []) ∧
    (token.truthy = true → (¬ ∃ a, AmountValid h (parsedBody reqBody) a) →
      (onRequestPost h token reqBody (.replied reply)).1.status = 400 ∧
      (onRequestPost h token reqBody (.replied reply)).1.body.get "ok" = .bool false ∧
      (onRequestPost h token reqBody (.replied reply)).1.body.get "error"
        = .str "INVALID_AMOUNT" ∧
      (onRequestPost h token reqBody (.replied reply)).2 = []) ∧
    (∀ a, token.truthy = true → AmountValid h (parsedBody reqBody) a →
      (reply = none ∨ ∃ d, reply = some d ∧ d.get "ok" ≠ .bool true) →
      (onRequestPost h token reqBody (.replied reply)).1.status = 502 ∧
      (onRequestPost h token reqBody (.replied reply)).1.body.get "ok" = .bool false ∧
      (onRequestPost h token reqBody (.replied reply)).2 =
        [invoiceRequest h (parsedBody reqBody) (.fin a)]) ∧
    (∀ a d, token.truthy = true → AmountValid h (parsedBody reqBody) a →
      reply = some d → d.get "ok" = .bool true →
      (onRequestPost h token reqBody (.replied reply)).1 = ⟨200, d⟩ ∧
      (onRequestPost h token reqBody (.replied reply)).2 =
        [invoiceRequest h (parsedBody reqBody) (.fin a)]) ∧
    (∀ a, (invoiceRequest h (parsedBody reqBody) (.fin a)).get "currency_type" = .str "fiat" ∧
      (invoiceRequest h (parsedBody reqBody) (.fin a)).get "expires_in" = .num (.fin 3600) ∧
      (invoiceRequest h (parsedBody reqBody) (.fin a)).get "amount" = .str (toFixed h a 2)) ∧
    ((onRequestPost demoHost (.str "token") (some (.obj [("amount", .str "1e400")]))
        (.replied (some providerOk))).1.status = 400 ∧
      (onRequestPost demoHost (.str "token") (some (.obj [("amount", .str "1e400")]))
        (.replied (some providerOk))).2.length = 0 ∧
      (onRequestPost demoHost (.str "token") (some (.obj [("amount", .str "1e-400")]))
        (.replied (some providerOk))).1.status = 400 ∧
      (onRequestPost demoHost (.str "token") (some (.obj [("amount", .str "1e-400")]))
        (.replied (some providerOk))).2.length = 0 ∧
      (onRequestPost demoHost (.str "token") (some (.obj [("amount", .str "1.005")]))
        (.replied (some providerOk))).1.status = 200 ∧
      (onRequestPost demoHost (.str "token") (some (.obj [("amount", .str "1.005")]))
        (.replied (some providerOk))).2.map (fun r => (r.get "amount").toStr demoHost)
        = ["1.00"]) := by
  refine ⟨fun ht => ?_, fun ht hv => ?_, fun a ht hv hr => ?_, fun a d ht hv hr hd => ?_,
    fun a => ⟨rfl, rfl, rfl⟩, by decide!⟩
  · unfold onRequestPost
    rw [if_pos (by rw [ht]; rfl)]
    exact ⟨rfl, rfl, rfl⟩
  · have hg := amount_guard_of_invalid (n := parseFloatOf h ((parsedBody reqBody).get "amount"))
      (fun ⟨a, ha⟩ => hv ⟨a, ha⟩)
    unfold onRequestPost
    rw [if_neg (by rw [ht]; decide)]
    simp only
    rw [if_pos hg]
    exact ⟨rfl, rfl, rfl, rfl⟩
  · have hg : (!(parseFloatOf h ((parsedBody reqBody).get "amount")).isFinite ||
        (parseFloatOf h ((parsedBody reqBody).get "amount")).le (.fin 0)) = false :=
      amount_guard_of_valid hv.1 hv.2
    have hdata : (!(parsedReply reply).truthy || okIsNotTrue (parsedReply reply)) = true := by
      rcases hr with rfl | ⟨d, rfl, hd⟩
      · rfl
      · simp only [parsedReply, (okIsNotTrue_iff d).mpr hd, Bool.or_true]
    unfold onRequestPost
    rw [if_neg (by rw [ht]; decide)]
    simp only
    rw [if_neg (by rw [hg]; decide), if_pos hdata, hv.1]
    exact ⟨rfl, rfl, rfl⟩
  · subst hr
    have hg : (!(parseFloatOf h ((parsedBody reqBody).get "amount")).isFinite ||
        (parseFloatOf h ((parsedBody reqBody).get "amount")).le (.fin 0)) = false :=
      amount_guard_of_valid hv.1 hv.2
    have hdt : d.truthy = true := truthy_of_get_truthy (k := "ok") (by rw [hd]; rfl)
    have hk : okIsNotTrue d = false := by
      cases hc : okIsNotTrue d with
      | false => rfl
      | true => exact absurd hd ((okIsNotTrue_iff d).mp hc)
    have hdata : (!(parsedReply (some d)).truthy || okIsNotTrue (parsedReply (some d))) = false := by
      simp only [parsedReply, hdt, hk, Bool.not_true, Bool.or_self]
    unfold onRequestPost
    rw [if_neg (by rw [ht]; decide)]
    simp only
    rw [if_neg (by rw [hg]; decide), if_neg (by rw [hdata]; decide), hv.1]
    exact ⟨rfl, rfl⟩

/-- C10 witness: a request for 9.99 USD (the double nearest to it) answered by the provider
with a created invoice, and the same request answered with `ok: false`. -/
theorem relay_responses_witness :
    ((onRequestPost demoHost (.str "token") (some invoiceBody) (.replied (some providerOk))).1
        = ⟨200, providerOk⟩ ∧
      (onRequestPost demoHost (.str "token") (some invoiceBody) (.replied (some providerOk))).2
        = [invoiceRequest demoHost (parsedBody (some invoiceBody))
            (.fin (5623870034678907 / 562949953421312))]) ∧
    (onRequestPost demoHost (.str "token") (some invoiceBody)
      (.replied (some (.obj [("ok", .bool false)])))).1.status = 502 ∧
    (onRequestPost demoHost .undefined (some invoiceBody) (.replied none)).1.status = 500 ∧
    (onRequestPost demoHost (.str "token") none (.replied none)).1.status = 400 :=
  ⟨(relay_responses demoHost (.str "token") (some invoiceBody) (some providerOk)).2.2.2.1
      (5623870034678907 / 562949953421312) providerOk rfl ⟨by decide!, by norm_num⟩ rfl rfl,
   ((relay_responses demoHost (.str "token") (some invoiceBody)
      (some (.obj [("ok", .bool false)]))).2.2.1 (5623870034678907 / 562949953421312) rfl
        ⟨by decide!, by norm_num⟩
        (Or.inr ⟨_, rfl, by simp [Val.get, List.lookup]⟩)).1,
   ((relay_responses demoHost .undefined (some invoiceBody) none).1 rfl).1,
   ((relay_responses demoHost (.str "token") none none).2.1 rfl
      (by
        rintro ⟨a, ha, _⟩
        have hn : parseFloatOf demoHost ((parsedBody none).get "amount") = .nan := by decide!
        rw [hn] at ha
        cases ha)).1⟩

/-! ### Digits of `toFixed` -/

theorem digitChar_isDigit (k : Nat) (hk : k < 10) : (Nat.digitChar k).isDigit = true := by
  interval_cases k <;> rfl

theorem toDigitsCore_isDigit (fuel : Nat) : ∀ (n : Nat) (ds : List Char),
    (∀ c ∈ ds, c.isDigit = true) → ∀ c ∈ Nat.toDigitsCore 10 fuel n ds, c.isDigit = true := by
  induction fuel with
  | zero =>
    intro n ds hds c hc
    exact hds c hc
  | succ f ih =>
    intro n ds hds c hc
    have hd : ∀ c ∈ Nat.digitChar (n % 10) :: ds, c.isDigit = true := by
      intro c hc
      rcases List.mem_cons.mp hc with rfl | hc
      · exact digitChar_isDigit _ (Nat.mod_lt _ (by decide))
      · exact hds c hc
    simp only [Nat.toDigitsCore] at hc
    split at hc
    · exact hd c hc
    · exact ih _ _ hd c hc

theorem toDigitsCore_length_le (fuel : Nat) : ∀ (n : Nat) (ds : List Char),
    ds.length ≤ (Nat.toDigitsCore 10 fuel n ds).length := by
  induction fuel with
  | zero =>
    intro n ds
    exact le_rfl
  | succ f ih =>
    intro n ds
    simp only [Nat.toDigitsCore]
    split
    · simp
    · exact le_trans (by simp) (ih _ _)

theorem natDigits_isDigit (n : Nat) : ∀ c ∈ natDigits n, c.isDigit = true := by
  intro c hc
  exact toDigitsCore_isDigit (n + 1) n [] (by simp) c hc

theorem natDigits_length_pos (n : Nat) : 0 < (natDigits n).length := by
  show 0 < (Nat.toDigitsCore 10 (n + 1) n []).length
  simp only [Nat.toDigitsCore]
  split
  · simp
  · exact lt_of_lt_of_le (by simp) (toDigitsCore_length_le _ _ _)

theorem fixedDigits_isDigit (x : ℚ) (d : Nat) : ∀ c ∈ fixedDigits x d, c.isDigit = true := by
  intro c hc
  unfold fixedDigits at hc
  rcases List.mem_append.mp hc with hc | hc
  · rw [List.eq_of_mem_replicate hc]
    rfl
  · exact natDigits_isDigit _ c hc

theorem fixedDigits_length (x : ℚ) (d : Nat) : d + 1 ≤ (fixedDigits x d).length := by
  unfold fixedDigits
  simp only [List.length_append, List.length_replicate]
  omega

theorem fixedInt_append_fixedFrac (x : ℚ) (d : Nat) :
    fixedInt x d ++ fixedFrac x d = fixedDigits x d :=
  List.take_append_drop _ _

theorem fixedFrac_length (x : ℚ) (d : Nat) : (fixedFrac x d).length = d := by
  unfold fixedFrac
  have := fixedDigits_length x d
  simp only [List.length_drop]
  omega

theorem fixedInt_length_pos (x : ℚ) (d : Nat) : 0 < (fixedInt x d).length := by
  unfold fixedInt
  have := fixedDigits_length x d
  simp only [List.length_take]
  omega

theorem fixedInt_isDigit (x : ℚ) (d : Nat) : ∀ c ∈ fixedInt x d, c.isDigit = true :=
  fun c hc => fixedDigits_isDigit x d c (List.mem_of_mem_take hc)

theorem fixedFrac_isDigit (x : ℚ) (d : Nat) : ∀ c ∈ fixedFrac x d, c.isDigit = true :=
  fun c hc => fixedDigits_isDigit x d c (List.mem_of_mem_drop hc)

/-- Below `10^21`, `toFixed` prints the sign, the integer digits and, after a point, exactly `d`
fractional digits. -/
theorem toFixed_of_lt (h : Host) (x : ℚ) (d : Nat) (hx : |x| < 10 ^ 21) :
    toFixed h x d =
      String.mk ((if x < 0 then ['-'] else []) ++ fixedInt x d ++
        (if d = 0 then [] else '.' :: fixedFrac x d)) := by
  unfold toFixed
  rw [if_neg (not_le.mpr hx)]
  rfl

/-- From `10^21` on, `toFixed` is `Number::toString`. -/
theorem toFixed_of_ge (h : Host) (x : ℚ) (d : Nat) (hx : (10 : ℚ) ^ 21 ≤ |x|) :
    toFixed h x d = numberToString h (.fin x) := by
  unfold toFixed
  rw [if_pos hx]

/-! ### Zero stripping on a fixed-point string -/

theorem dropTrailingZeros_eq_rdropWhile (cs : List Char) :
    dropTrailingZeros cs = cs.rdropWhile (fun x => decide (x = '0')) := rfl

theorem dropTrailingZeros_eq_nil_iff (cs : List Char) :
    dropTrailingZeros cs = [] ↔ ∀ c ∈ cs, c = '0' := by
  rw [dropTrailingZeros_eq_rdropWhile, List.rdropWhile_eq_nil_iff]
  simp

theorem dropTrailingZeros_getLast (cs : List Char) :
    (dropTrailingZeros cs).getLast? ≠ some '0' := by
  intro hl
  have hne : dropTrailingZeros cs ≠ [] := by
    intro hn
    rw [hn] at hl
    cases hl
  have hnot := List.rdropWhile_last_not (fun x => decide (x = '0')) cs hne
  rw [List.getLast?_eq_getLast _ hne] at hl
  simp only [Option.some.injEq] at hl
  exact hnot (decide_eq_true hl)

theorem dropTrailingZeros_of_last (cs : List Char) (hl : cs.getLast? ≠ some '0') :
    dropTrailingZeros cs = cs := by
  rw [dropTrailingZeros_eq_rdropWhile, List.rdropWhile_eq_self_iff]
  intro hne hp
  apply hl
  rw [List.getLast?_eq_getLast _ hne]
  simpa using hp

/-- The zeros dropped are exactly the zeros that end the run. -/
theorem dropTrailingZeros_append_zeros (cs : List Char) :
    ∃ k, cs = dropTrailingZeros cs ++ List.replicate k '0' := by
  have hsplit := List.takeWhile_append_dropWhile (fun x => decide (x = '0')) cs.reverse
  obtain ⟨k, hk⟩ : ∃ k, cs.reverse.takeWhile (fun x => decide (x = '0')) =
      List.replicate k '0' := by
    refine ⟨(cs.reverse.takeWhile (fun x => decide (x = '0'))).length, ?_⟩
    rw [List.eq_replicate_iff]
    refine ⟨rfl, fun b hb => ?_⟩
    simpa using List.mem_takeWhile_imp hb
  refine ⟨k, ?_⟩
  have hrev := congrArg List.reverse hsplit
  rw [List.reverse_reverse, List.reverse_append, hk, List.reverse_replicate] at hrev
  exact hrev.symm

theorem stripPointZeros_of_noPoint (cs : List Char) (hcs : ∀ c ∈ cs, c ≠ '.') :
    stripPointZeros cs = cs := by
  induction cs with
  | nil => rfl
  | cons c cs ih =>
    have hc : c ≠ '.' := hcs c (List.mem_cons_self _ _)
    simp only [stripPointZeros, hc, false_and, if_false]
    rw [ih (fun c hc => hcs c (List.mem_cons_of_mem _ hc))]

theorem stripFractionZeros_of_noPoint (cs : List Char) (hcs : ∀ c ∈ cs, c ≠ '.') :
    stripFractionZeros cs = cs := by
  induction cs with
  | nil => rfl
  | cons c cs ih =>
    have hc : c ≠ '.' := hcs c (List.mem_cons_self _ _)
    simp only [stripFractionZeros, hc, false_and, if_false]
    rw [ih (fun c hc => hcs c (List.mem_cons_of_mem _ hc))]

theorem ne_point_of_isDigit {c : Char} (hc : c.isDigit = true) : c ≠ '.' := by
  rintro rfl
  revert hc
  decide

theorem stripPointZeros_fixed (ip fp : List Char) (hip : ∀ c ∈ ip, c ≠ '.')
    (hfp : ∀ c ∈ fp, c.isDigit = true) :
    stripPointZeros (ip ++ '.' :: fp) =
      if fp ≠ [] ∧ (∀ c ∈ fp, c = '0') then ip else ip ++ '.' :: fp := by
  induction ip with
  | nil =>
    simp only [List.nil_append, stripPointZeros, true_and, List.all_eq_true, decide_eq_true_eq]
    split
    · rfl
    · rw [stripPointZeros_of_noPoint fp (fun c hc => ne_point_of_isDigit (hfp c hc))]
  | cons c ip ih =>
    have hc : c ≠ '.' := hip c (List.mem_cons_self _ _)
    show stripPointZeros (c :: (ip ++ '.' :: fp)) = _
    rw [stripPointZeros, if_neg (fun hh => hc hh.1),
      ih (fun c hc => hip c (List.mem_cons_of_mem _ hc))]
    split <;> rfl

theorem stripFractionZeros_fixed (ip fp : List Char) (hip : ∀ c ∈ ip, c ≠ '.')
    (hfp : ∀ c ∈ fp, c.isDigit = true) :
    stripFractionZeros (ip ++ '.' :: fp) =
      if fp.getLast? = some '0' then ip ++ '.' :: dropTrailingZeros fp else ip ++ '.' :: fp := by
  induction ip with
  | nil =>
    have hall : fp.all Char.isDigit = true := List.all_eq_true.mpr hfp
    simp only [List.nil_append, stripFractionZeros, true_and, hall]
    split
    · rfl
    · rw [stripFractionZeros_of_noPoint fp (fun c hc => ne_point_of_isDigit (hfp c hc))]
  | cons c ip ih =>
    have hc : c ≠ '.' := hip c (List.mem_cons_self _ _)
    show stripFractionZeros (c :: (ip ++ '.' :: fp)) = _
    rw [stripFractionZeros, if_neg (fun hh => hc hh.1),
      ih (fun c hc => hip c (List.mem_cons_of_mem _ hc))]
    split <;> rfl

/-- Zero stripping on digits, a point and at least one fractional digit: the zeros that end the
fraction go, and the point with them when no fractional digit is left. -/
theorem trimZeros_fixed (ip fp : List Char) (hip : ∀ c ∈ ip, c ≠ '.')
    (hfp : ∀ c ∈ fp, c.isDigit = true) (hne : fp ≠ []) :
    trimZeros (String.mk (ip ++ '.' :: fp)) =
      String.mk (ip ++
        (if dropTrailingZeros fp = [] then [] else '.' :: dropTrailingZeros fp)) := by
  unfold trimZeros
  simp only
  rw [stripPointZeros_fixed ip fp hip hfp]
  by_cases hz : ∀ c ∈ fp, c = '0'
  · rw [if_pos ⟨hne, hz⟩, stripFractionZeros_of_noPoint ip hip,
      if_pos ((dropTrailingZeros_eq_nil_iff fp).mpr hz), List.append_nil]
  · have hd : dropTrailingZeros fp ≠ [] := fun hd => hz ((dropTrailingZeros_eq_nil_iff fp).mp hd)
    rw [if_neg (fun hc => hz hc.2), stripFractionZeros_fixed ip fp hip hfp, if_neg hd]
    by_cases hl : fp.getLast? = some '0'
    · rw [if_pos hl]
    · rw [if_neg hl, dropTrailingZeros_of_last fp hl]

/-! ### The number denoted by a fixed-point string -/

theorem toNat_of_isDigit {c : Char} (hc : c.isDigit = true) : 48 ≤ c.toNat ∧ c.toNat ≤ 57 := by
  simp only [Char.isDigit, Bool.and_eq_true, decide_eq_true_eq] at hc
  exact ⟨hc.1, hc.2⟩

theorem not_whiteSpace_of_isDigit {c : Char} (hc : c.isDigit = true) :
    isStrWhiteSpace c = false := by
  obtain ⟨h1, h2⟩ := toNat_of_isDigit hc
  have e1 : c ≠ ' ' := by rintro rfl; revert hc; decide
  have e2 : c ≠ '\t' := by rintro rfl; revert hc; decide
  have e3 : c ≠ '\n' := by rintro rfl; revert hc; decide
  have e4 : c ≠ '\r' := by rintro rfl; revert hc; decide
  unfold isStrWhiteSpace
  simp only [e1, e2, e3, e4, decide_False, Bool.false_or, Bool.or_eq_false_iff,
    decide_eq_false_iff_not, Bool.and_eq_false_imp, decide_eq_true_eq]
  omega

theorem readSign_of_isDigit (c : Char) (cs : List Char) (hc : c.isDigit = true) :
    readSign (c :: cs) = (false, c :: cs) := by
  have e1 : c ≠ '+' := by rintro rfl; revert hc; decide
  have e2 : c ≠ '-' := by rintro rfl; revert hc; decide
  unfold readSign
  split
  · rename_i heq
    cases heq
    exact absurd rfl e1
  · rename_i heq
    cases heq
    exact absurd rfl e2
  · rfl

theorem not_infinity_of_isDigit (c : Char) (cs : List Char) (hc : c.isDigit = true) :
    "Infinity".data.isPrefixOf (c :: cs) = false := by
  have e1 : c ≠ 'I' := by rintro rfl; revert hc; decide
  show ('I' :: "nfinity".data).isPrefixOf (c :: cs) = false
  simp only [List.isPrefixOf, Bool.and_eq_false_imp, beq_iff_eq]
  intro hh
  exact absurd hh.symm e1

theorem digitsValue_append (a b : List Char) :
    digitsValue (a ++ b) = digitsValue a * 10 ^ b.length + digitsValue b := by
  unfold digitsValue
  rw [List.foldl_append]
  generalize List.foldl (fun acc c => 10 * acc + (c.toNat - '0'.toNat)) 0 a = v
  induction b generalizing v with
  | nil => simp
  | cons c b ih =>
    simp only [List.foldl_cons, List.length_cons]
    rw [ih (10 * v + (c.toNat - '0'.toNat)), ih (10 * 0 + (c.toNat - '0'.toNat))]
    ring

theorem digitsValue_zeros (k : Nat) : digitsValue (List.replicate k '0') = 0 := by
  induction k with
  | zero => rfl
  | succ k ih =>
    rw [List.replicate_succ]
    show digitsValue (['0'] ++ List.replicate k '0') = 0
    rw [digitsValue_append, ih]
    have h0 : digitsValue ['0'] = 0 := by decide
    rw [h0]
    simp

/-- What `literalValue` reads on integer digits followed, or not, by a point and fractional
digits. -/
theorem literalValue_digits (ip fp : List Char) (hip : ∀ c ∈ ip, c.isDigit = true)
    (hfp : ∀ c ∈ fp, c.isDigit = true) (hne : ip ≠ []) :
    literalValue (String.mk (ip ++ '.' :: fp)) =
      .fin ((digitsValue (ip ++ fp) : ℚ) * 10 ^ (-(fp.length : ℤ))) ∧
    literalValue (String.mk ip) = .fin (digitsValue ip : ℚ) := by
  obtain ⟨c, ip', rfl⟩ := List.exists_cons_of_ne_nil hne
  have hc : c.isDigit = true := hip c (List.mem_cons_self _ _)
  have hpoint : Char.isDigit '.' = false := by decide
  have hdrop : ∀ tail : List Char,
      List.dropWhile isStrWhiteSpace (c :: (ip' ++ tail)) = c :: (ip' ++ tail) := by
    intro tail
    rw [List.dropWhile_cons_of_neg (by simp [not_whiteSpace_of_isDigit hc])]
  have tk : ∀ tail : List Char, (∀ x, tail.head? = some x → x.isDigit = false) →
      (c :: (ip' ++ tail)).takeWhile Char.isDigit = c :: ip' ∧
      (c :: (ip' ++ tail)).dropWhile Char.isDigit = tail := by
    intro tail ht
    have h1 : tail.takeWhile Char.isDigit = [] ∧ tail.dropWhile Char.isDigit = tail := by
      cases tail with
      | nil => exact ⟨rfl, rfl⟩
      | cons x t =>
        have hx := ht x rfl
        simp [List.takeWhile, List.dropWhile, hx]
    rw [← List.cons_append, List.takeWhile_append_of_pos hip, List.dropWhile_append_of_pos hip,
      h1.1, h1.2]
    simp
  have tf : fp.takeWhile Char.isDigit = fp ∧ fp.dropWhile Char.isDigit = [] := by
    constructor
    · rw [List.takeWhile_eq_self_iff]
      exact hfp
    · rw [List.dropWhile_eq_nil_iff]
      exact hfp
  constructor
  · obtain ⟨t1, t2⟩ := tk ('.' :: fp) (by intro x hx; cases hx; exact hpoint)
    show literalValue (String.mk (c :: (ip' ++ '.' :: fp))) = _
    unfold literalValue
    simp only [hdrop, readSign_of_isDigit _ _ hc, not_infinity_of_isDigit _ _ hc,
      Bool.false_eq_true, if_false, t1, t2, tf.1, tf.2, readExponent, List.isEmpty_cons,
      false_and, zero_sub, List.cons_append]
  · obtain ⟨t1, t2⟩ := tk [] (by intro x hx; cases hx)
    have hd0 := hdrop []
    rw [List.append_nil] at t1 t2 hd0
    unfold literalValue
    simp only [hd0, readSign_of_isDigit _ _ hc, not_infinity_of_isDigit _ _ hc,
      Bool.false_eq_true, if_false, t1, t2, readExponent, List.isEmpty_cons, false_and,
      List.append_nil, List.length_nil, Nat.cast_zero, sub_zero, zpow_zero, mul_one]

/-- Dropping the zeros that end the fraction, and the point when the fraction becomes empty,
leaves the number read by `literalValue` unchanged. -/
theorem literalValue_trimmed (ip fp : List Char) (hip : ∀ c ∈ ip, c.isDigit = true)
    (hfp : ∀ c ∈ fp, c.isDigit = true) (hne : ip ≠ []) :
    literalValue (String.mk (ip ++
        (if dropTrailingZeros fp = [] then [] else '.' :: dropTrailingZeros fp))) =
      literalValue (String.mk (ip ++ '.' :: fp)) := by
  obtain ⟨k, hk⟩ := dropTrailingZeros_append_zeros fp
  have hdz : ∀ c ∈ dropTrailingZeros fp, c.isDigit = true := by
    intro c hc
    apply hfp
    rw [hk]
    exact List.mem_append_left _ hc
  have hval : (digitsValue (ip ++ fp) : ℚ) * 10 ^ (-(fp.length : ℤ)) =
      (digitsValue (ip ++ dropTrailingZeros fp) : ℚ) *
        10 ^ (-((dropTrailingZeros fp).length : ℤ)) := by
    have hlen : fp.length = (dropTrailingZeros fp).length + k := by
      conv_lhs => rw [hk]
      simp
    have hdv : digitsValue (ip ++ fp) = digitsValue (ip ++ dropTrailingZeros fp) * 10 ^ k := by
      conv_lhs => rw [hk]
      rw [← List.append_assoc, digitsValue_append, digitsValue_zeros, List.length_replicate,
        Nat.add_zero]
    rw [hdv, hlen]
    push_cast
    rw [neg_add, zpow_add₀ (by norm_num : (10 : ℚ) ≠ 0), zpow_neg, zpow_neg, zpow_natCast,
      zpow_natCast]
    field_simp
    ring
  rw [(literalValue_digits ip fp hip hfp hne).1, hval]
  by_cases hz : dropTrailingZeros fp = []
  · rw [if_pos hz, List.append_nil, (literalValue_digits ip fp hip hfp hne).2, hz]
    simp
  · rw [if_neg hz, (literalValue_digits ip (dropTrailingZeros fp) hip hdz hne).1]

/-! ### The value of the digits printed by `toFixed` -/

theorem digitChar_value (k : Nat) (hk : k < 10) :
    (Nat.digitChar k).toNat - '0'.toNat = k := by
  interval_cases k <;> rfl

theorem digitsValue_cons (c : Char) (cs : List Char) :
    digitsValue (c :: cs) = (c.toNat - '0'.toNat) * 10 ^ cs.length + digitsValue cs := by
  have h1 : digitsValue [c] = c.toNat - '0'.toNat := by
    simp [digitsValue]
  show digitsValue ([c] ++ cs) = _
  rw [digitsValue_append, h1]

theorem digitsValue_toDigitsCore (fuel : Nat) : ∀ (n : Nat) (ds : List Char), n < fuel →
    digitsValue (Nat.toDigitsCore 10 fuel n ds) = n * 10 ^ ds.length + digitsValue ds := by
  induction fuel with
  | zero =>
    intro n ds hn
    exact absurd hn (Nat.not_lt_zero n)
  | succ f ih =>
    intro n ds hn
    have hmod : n % 10 < 10 := Nat.mod_lt _ (by decide)
    simp only [Nat.toDigitsCore]
    split
    · rename_i hq
      have hlt : n < 10 := by omega
      rw [digitsValue_cons, digitChar_value _ hmod, Nat.mod_eq_of_lt hlt]
    · rename_i hq
      have hlt : n / 10 < f := by omega
      rw [ih (n / 10) _ hlt, digitsValue_cons, digitChar_value _ hmod, List.length_cons]
      have hdm := Nat.div_add_mod n 10
      calc n / 10 * 10 ^ (ds.length + 1) + (n % 10 * 10 ^ ds.length + digitsValue ds)
          = (10 * (n / 10) + n % 10) * 10 ^ ds.length + digitsValue ds := by ring
        _ = n * 10 ^ ds.length + digitsValue ds := by rw [hdm]

theorem digitsValue_natDigits (n : Nat) : digitsValue (natDigits n) = n := by
  show digitsValue (Nat.toDigitsCore 10 (n + 1) n []) = n
  rw [digitsValue_toDigitsCore (n + 1) n [] (Nat.lt_succ_self n)]
  simp [digitsValue]

theorem digitsValue_fixedDigits (x : ℚ) (d : Nat) :
    digitsValue (fixedDigits x d) = (⌊|x| * 10 ^ d + 1 / 2⌋).toNat := by
  unfold fixedDigits
  rw [digitsValue_append, digitsValue_zeros, digitsValue_natDigits]
  simp

theorem readSign_minus (cs : List Char) : readSign ('-' :: cs) = (true, cs) := rfl

/-- What `literalValue` reads on a minus sign, integer digits, a point and fractional digits. -/
theorem literalValue_negative (ip fp : List Char) (hip : ∀ c ∈ ip, c.isDigit = true)
    (hfp : ∀ c ∈ fp, c.isDigit = true) (hne : ip ≠ []) :
    literalValue (String.mk ('-' :: (ip ++ '.' :: fp))) =
      .fin (-((digitsValue (ip ++ fp) : ℚ) * 10 ^ (-(fp.length : ℤ)))) := by
  obtain ⟨c, ip', rfl⟩ := List.exists_cons_of_ne_nil hne
  have hc : c.isDigit = true := hip c (List.mem_cons_self _ _)
  have hpoint : Char.isDigit '.' = false := by decide
  have hdrop : List.dropWhile isStrWhiteSpace ('-' :: c :: (ip' ++ '.' :: fp)) =
      '-' :: c :: (ip' ++ '.' :: fp) := by
    rw [List.dropWhile_cons_of_neg (by decide)]
  have t1 : (c :: (ip' ++ '.' :: fp)).takeWhile Char.isDigit = c :: ip' := by
    rw [← List.cons_append, List.takeWhile_append_of_pos hip]
    simp [List.takeWhile, hpoint]
  have t2 : (c :: (ip' ++ '.' :: fp)).dropWhile Char.isDigit = '.' :: fp := by
    rw [← List.cons_append, List.dropWhile_append_of_pos hip]
    simp [List.dropWhile, hpoint]
  have tf : fp.takeWhile Char.isDigit = fp ∧ fp.dropWhile Char.isDigit = [] := by
    constructor
    · rw [List.takeWhile_eq_self_iff]
      exact hfp
    · rw [List.dropWhile_eq_nil_iff]
      exact hfp
  show literalValue (String.mk ('-' :: c :: (ip' ++ '.' :: fp))) = _
  unfold literalValue
  simp only [hdrop, readSign_minus, not_infinity_of_isDigit _ _ hc,
    Bool.false_eq_true, if_false, if_true, t1, t2, tf.1, tf.2, readExponent, List.isEmpty_cons,
    false_and, zero_sub, List.cons_append]

/-- Below `10^21` and with at least one decimal, the string printed by `toFixed` denotes the
nearest multiple of `10^-d` of the magnitude (the larger one on a tie), with the sign of `x`. -/
theorem literalValue_toFixed (h : Host) (x : ℚ) (d : Nat) (hx : |x| < 10 ^ 21) (hd : d ≠ 0) :
    literalValue (toFixed h x d) =
      .fin ((if x < 0 then -1 else 1) *
        (((⌊|x| * 10 ^ d + 1 / 2⌋).toNat : ℚ) / 10 ^ d)) := by
  have hval : (digitsValue (fixedInt x d ++ fixedFrac x d) : ℚ) *
      10 ^ (-((fixedFrac x d).length : ℤ)) =
      ((⌊|x| * 10 ^ d + 1 / 2⌋).toNat : ℚ) / 10 ^ d := by
    rw [fixedInt_append_fixedFrac, digitsValue_fixedDigits, fixedFrac_length, zpow_neg,
      zpow_natCast]
    exact (div_eq_mul_inv _ _).symm
  have hne : fixedInt x d ≠ [] := List.ne_nil_of_length_pos (fixedInt_length_pos x d)
  rw [toFixed_of_lt h x d hx, if_neg hd]
  by_cases hneg : x < 0
  · rw [if_pos hneg, if_pos hneg]
    show literalValue (String.mk ('-' :: (fixedInt x d ++ '.' :: fixedFrac x d))) = _
    rw [literalValue_negative _ _ (fixedInt_isDigit x d) (fixedFrac_isDigit x d) hne, hval]
    simp
  · rw [if_neg hneg, if_neg hneg]
    show literalValue (String.mk (fixedInt x d ++ '.' :: fixedFrac x d)) = _
    rw [(literalValue_digits _ _ (fixedInt_isDigit x d) (fixedFrac_isDigit x d) hne).1, hval]
    simp

/-! ### Below `10^21` the formats do not depend on the host -/

theorem toFixed_host (h k : Host) (x : ℚ) (d : Nat) (hx : |x| < 10 ^ 21) :
    toFixed h x d = toFixed k x d := by
  rw [toFixed_of_lt h x d hx, toFixed_of_lt k x d hx]

theorem formatCrypto_host (h k : Host) (asset : String) (amount : Val)
    (hlt : toNumber amount < 10 ^ 21) :
    formatCrypto h asset amount = formatCrypto k asset amount := by
  unfold formatCrypto
  simp only [Num.isFinite, not_true_eq_false, false_or]
  by_cases hle : toNumber amount ≤ 0
  · rw [if_pos hle, if_pos hle]
  · rw [if_neg hle, if_neg hle, toFixed_host h k _ _ (by
      rw [abs_of_pos (not_le.mp hle)]
      exact hlt)]

theorem formatMoney_host (h k : Host) (amount : Val) (code : String)
    (hlt : |toNumber amount| < 10 ^ 21) :
    formatMoney h amount code = formatMoney k amount code := by
  unfold formatMoney
  simp only
  rw [toFixed_host h k _ _ hlt]

/-! ### C11 -/

theorem numberToString_of_ge (h : Host) (q : ℚ) (hq : (10 : ℚ) ^ 21 ≤ |q|) :
    numberToString h (.fin q) = h.printNumber q := by
  show (if q.den = 1 ∧ |q| < 10 ^ 21 then
      String.mk ((if q < 0 then ['-'] else []) ++ natDigits q.num.natAbs)
    else h.printNumber q) = h.printNumber q
  rw [if_neg (fun hc => absurd hc.2 (not_lt.mpr hq))]

theorem getLast_trimmed (ip fp : List Char) (hip : ∀ c ∈ ip, c.isDigit = true)
    (hfp : ∀ c ∈ fp, c.isDigit = true) :
    (ip ++ (if dropTrailingZeros fp = [] then [] else '.' :: dropTrailingZeros fp)).getLast?
        ≠ some '.' ∧
    (dropTrailingZeros fp ≠ [] →
      (ip ++ (if dropTrailingZeros fp = [] then [] else '.' :: dropTrailingZeros fp)).getLast?
        ≠ some '0') := by
  obtain ⟨k, hk⟩ := dropTrailingZeros_append_zeros fp
  have hdz : ∀ c ∈ dropTrailingZeros fp, c.isDigit = true := by
    intro c hc
    apply hfp
    rw [hk]
    exact List.mem_append_left _ hc
  by_cases hz : dropTrailingZeros fp = []
  · rw [if_pos hz, List.append_nil]
    refine ⟨fun hl => ?_, fun hn => absurd hz hn⟩
    exact ne_point_of_isDigit (hip _ (List.mem_of_getLast?_eq_some hl)) rfl
  · have hlast : (ip ++ '.' :: dropTrailingZeros fp).getLast? =
        (dropTrailingZeros fp).getLast? := by
      have : ip ++ '.' :: dropTrailingZeros fp = (ip ++ ['.']) ++ dropTrailingZeros fp := by
        simp
      rw [this, List.getLast?_append_of_ne_nil _ hz]
    rw [if_neg hz, hlast]
    refine ⟨fun hl => ?_, fun _ => dropTrailingZeros_getLast fp⟩
    exact ne_point_of_isDigit (hdz _ (List.mem_of_getLast?_eq_some hl)) rfl

/-- C11, as stated, fails: on a host that prints `10^21` as JavaScript does, "1e+21", the
amount `10^21` of USDT is formatted "1e+21", which is not the amount fixed to 2 decimal places
("1000000000000000000000.00") with its zeros stripped. -/
theorem formatCrypto_exponent_notation :
    formatCrypto exponentHost "USDT" (.num (.fin (10 ^ 21))) = "1e+21" ∧
    String.mk (fixedInt (10 ^ 21) 2 ++ '.' :: fixedFrac (10 ^ 21) 2)
      = "1000000000000000000000.00" ∧
    formatCrypto exponentHost "USDT" (.num (.fin (10 ^ 21)))
      ≠ trimZeros "1000000000000000000000.00" := by
  decide!

/-- C11 (amended): for every asset and every amount, with `n = toNumber(amount)` (the double
the amount parses to, 0 when it does not parse or is not finite) and
`d = cryptoDecimals(asset)` (BTC 8, ETH 6, LTC 6, TON 3, TRX 2, USDT and any other asset 2),
`formatCrypto` returns "—" when `n ≤ 0` and `trimZeros(n.toFixed(d))` otherwise.  When
`0 < n < 10^21`, `n.toFixed(d)` is the fixed-point string of `n` (integer digits, a point and
exactly `d` digits, denoting the nearest multiple of `10^-d`), and the result is that string
with exactly the zeros that end its fraction, and the point if no fractional digit is left,
removed: the integer digits are kept, the result ends neither in "." nor in a fractional "0",
and it denotes the same number as the fixed-point string (`literalValue` is the exact value a
decimal string denotes).  From `10^21` on, `toFixed` gives the exponent notation of
`Number::toString` and the result is `trimZeros` of it.  On the strings "0.015" and "0,015",
whose double lies below 0.015, the result is "0.01"; "1e-400" underflows to 0 and "1e400"
overflows, both give "—". -/
theorem formatCrypto_strips_zeros (h : Host) (asset : String) (amount : Val) :
    (cryptoDecimals "BTC" = 8 ∧ cryptoDecimals "ETH" = 6 ∧ cryptoDecimals "LTC" = 6 ∧
      cryptoDecimals "TON" = 3 ∧ cryptoDecimals "TRX" = 2 ∧ cryptoDecimals "USDT" = 2 ∧
      (asset ∉ ["BTC", "ETH", "LTC", "TON", "TRX"] → cryptoDecimals asset = 2)) ∧
    (toNumber amount ≤ 0 → formatCrypto h asset amount = "—") ∧
    (0 < toNumber amount →
      formatCrypto h asset amount =
        trimZeros (toFixed h (toNumber amount) (cryptoDecimals asset))) ∧
    (0 < toNumber amount → toNumber amount < 10 ^ 21 →
      toFixed h (toNumber amount) (cryptoDecimals asset) =
        String.mk (fixedInt (toNumber amount) (cryptoDecimals asset) ++
          '.' :: fixedFrac (toNumber amount) (cryptoDecimals asset)) ∧
      (fixedFrac (toNumber amount) (cryptoDecimals asset)).length = cryptoDecimals asset ∧
      literalValue (toFixed h (toNumber amount) (cryptoDecimals asset)) =
        .fin (((⌊toNumber amount * 10 ^ cryptoDecimals asset + 1 / 2⌋).toNat : ℚ) /
          10 ^ cryptoDecimals asset) ∧
      formatCrypto h asset amount =
        String.mk (fixedInt (toNumber amount) (cryptoDecimals asset) ++
          (if dropTrailingZeros (fixedFrac (toNumber amount) (cryptoDecimals asset)) = [] then []
           else '.' :: dropTrailingZeros (fixedFrac (toNumber amount) (cryptoDecimals asset)))) ∧
      (∃ k, fixedFrac (toNumber amount) (cryptoDecimals asset) =
        dropTrailingZeros (fixedFrac (toNumber amount) (cryptoDecimals asset)) ++
          List.replicate k '0') ∧
      (formatCrypto h asset amount).data.getLast? ≠ some '.' ∧
      (dropTrailingZeros (fixedFrac (toNumber amount) (cryptoDecimals asset)) ≠ [] →
        (formatCrypto h asset amount).data.getLast? ≠ some '0') ∧
      literalValue (formatCrypto h asset amount) =
        literalValue (toFixed h (toNumber amount) (cryptoDecimals asset))) ∧
    ((10 : ℚ) ^ 21 ≤ toNumber amount →
      formatCrypto h asset amount = trimZeros (h.printNumber (toNumber amount))) ∧
    (formatCrypto h "USDT" (.str "0.015") = "0.01" ∧
      formatCrypto h "USDT" (.str "0,015") = "0.01" ∧
      formatCrypto h "USDT" (.str "1e-400") = "—" ∧
      formatCrypto h "USDT" (.str "1e400") = "—" ∧
      formatCrypto h "TON" (.num (Num.div (.fin 3) (.fin 200))) = "0.015" ∧
      formatCrypto h "BTC" (.str "abc") = "—") := by
  have hd0 : cryptoDecimals asset ≠ 0 := by
    unfold cryptoDecimals
    split_ifs <;> decide
  have hfc : 0 < toNumber amount → formatCrypto h asset amount =
      trimZeros (toFixed h (toNumber amount) (cryptoDecimals asset)) := by
    intro hpos
    unfold formatCrypto
    simp only [Num.isFinite, not_true_eq_false, false_or]
    rw [if_neg (not_le.mpr hpos)]
  have ex : ∀ (a : String) (v : Val) (r : String), toNumber v < 10 ^ 21 →
      formatCrypto demoHost a v = r → formatCrypto h a v = r :=
    fun a v r hlt hr => (formatCrypto_host h demoHost a v hlt).trans hr
  refine ⟨⟨rfl, rfl, rfl, rfl, rfl, rfl, ?_⟩, ?_, hfc, ?_, ?_,
    ⟨ex _ _ _ (by decide!) (by decide!), ex _ _ _ (by decide!) (by decide!),
      ex _ _ _ (by decide!) (by decide!), ex _ _ _ (by decide!) (by decide!),
      ex _ _ _ (by decide!) (by decide!), ex _ _ _ (by decide!) (by decide!)⟩⟩
  · intro hna
    simp only [List.mem_cons, List.mem_singleton, List.not_mem_nil, or_false, not_or] at hna
    unfold cryptoDecimals
    simp only [hna.1, hna.2.1, hna.2.2.1, hna.2.2.2.1, hna.2.2.2.2, if_false]
  · intro hle
    unfold formatCrypto
    simp only [Num.isFinite, not_true_eq_false, false_or]
    rw [if_pos hle]
  · intro hpos hlt
    have habs : |toNumber amount| = toNumber amount := abs_of_pos hpos
    have hx : |toNumber amount| < 10 ^ 21 := by rw [habs]; exact hlt
    have hnn : ¬ toNumber amount < 0 := not_lt.mpr (le_of_lt hpos)
    have hip := fixedInt_isDigit (toNumber amount) (cryptoDecimals asset)
    have hfp := fixedFrac_isDigit (toNumber amount) (cryptoDecimals asset)
    have hfl := fixedFrac_length (toNumber amount) (cryptoDecimals asset)
    have hine : fixedInt (toNumber amount) (cryptoDecimals asset) ≠ [] :=
      List.ne_nil_of_length_pos (fixedInt_length_pos _ _)
    have hfne : fixedFrac (toNumber amount) (cryptoDecimals asset) ≠ [] := by
      intro hc
      rw [hc] at hfl
      exact hd0 hfl.symm
    have htf : toFixed h (toNumber amount) (cryptoDecimals asset) =
        String.mk (fixedInt (toNumber amount) (cryptoDecimals asset) ++
          '.' :: fixedFrac (toNumber amount) (cryptoDecimals asset)) := by
      rw [toFixed_of_lt h _ _ hx, if_neg hnn, if_neg hd0]
      rfl
    have hres : formatCrypto h asset amount =
        String.mk (fixedInt (toNumber amount) (cryptoDecimals asset) ++
          (if dropTrailingZeros (fixedFrac (toNumber amount) (cryptoDecimals asset)) = [] then []
           else '.' :: dropTrailingZeros (fixedFrac (toNumber amount) (cryptoDecimals asset)))) := by
      rw [hfc hpos, htf,
        trimZeros_fixed _ _ (fun c hc => ne_point_of_isDigit (hip c hc)) hfp hfne]
    have hpv := literalValue_toFixed h (toNumber amount) (cryptoDecimals asset) hx hd0
    rw [if_neg hnn, one_mul, habs] at hpv
    have hgl := getLast_trimmed _ _ hip hfp
    refine ⟨htf, hfl, hpv, hres, dropTrailingZeros_append_zeros _, ?_, ?_, ?_⟩
    · rw [hres]
      exact hgl.1
    · intro hdz
      rw [hres]
      exact hgl.2 hdz
    · rw [hres, htf]
      exact literalValue_trimmed _ _ hip hfp hine
  · intro hge
    have habs : (10 : ℚ) ^ 21 ≤ |toNumber amount| := le_trans hge (le_abs_self _)
    have hpos : 0 < toNumber amount := lt_of_lt_of_le (by norm_num) hge
    rw [hfc hpos, toFixed_of_ge h _ _ habs, numberToString_of_ge h _ habs]

/-- C11 witness: 1.5 TON, printed "1.500" by `toFixed(3)` and formatted "1.5". -/
theorem formatCrypto_strips_zeros_witness :
    formatCrypto demoHost "TON" (.num (.fin 1.5)) =
      trimZeros (toFixed demoHost (toNumber (.num (.fin 1.5))) (cryptoDecimals "TON")) ∧
    literalValue (formatCrypto demoHost "TON" (.num (.fin 1.5))) =
      literalValue (toFixed demoHost (toNumber (.num (.fin 1.5))) (cryptoDecimals "TON")) ∧
    formatCrypto demoHost "TON" (.num (.fin 1.5)) = "1.5" :=
  ⟨(formatCrypto_strips_zeros demoHost "TON" (.num (.fin 1.5))).2.2.1 (by decide!),
   ((formatCrypto_strips_zeros demoHost "TON" (.num (.fin 1.5))).2.2.2.1 (by decide!)
      (by decide!)).2.2.2.2.2.2.2,
   by decide!⟩

/-! ### C12 -/

/-- C12, as stated, fails: on a host that prints `10^21` as JavaScript does, "1e+21",
`formatMoney(1e21, "USD")` is "$1e+21", which is not the symbol followed by the amount fixed
to 2 decimal places ("1000000000000000000000.00"). -/
theorem formatMoney_exponent_notation :
    formatMoney exponentHost (.num (.fin (10 ^ 21))) "USD" = "$1e+21" ∧
    String.mk (fixedInt (10 ^ 21) 2 ++ '.' :: fixedFrac (10 ^ 21) 2)
      = "1000000000000000000000.00" ∧
    formatMoney exponentHost (.num (.fin (10 ^ 21))) "USD"
      ≠ "$" ++ "1000000000000000000000.00" := by
  decide!

/-- C12 (amended): for every amount and every currency code (a string, the empty string
standing for a missing code), `formatMoney` returns (it is a total function) the currency
symbol (EUR €, GBP £, RUB ₽, UAH ₴, KZT ₸, any other or missing code $, matched on the
upper-cased code) followed by `toNumber(amount).toFixed(2)`.  For a magnitude below `10^21`
that is the amount fixed to 2 decimal places: an optional minus sign, the integer digits, a
point and exactly 2 digits, denoting the nearest multiple of 0.01 (`literalValue` is the exact
value a decimal string denotes); from `10^21` on it is the exponent notation of
`Number::toString`.  `toNumber` reads the first comma as the decimal point, rounds the decimal
it reads to the nearest double and yields 0 for a value that does not parse or is not finite,
an overflowing literal such as "1e400" included.  `formatMoney(1234.5, "EUR")` is "€1234.50",
`formatMoney(undefined, "USD")` is "$0.00", `formatMoney("1.005", "USD")` is "$1.00" and
`formatMoney("9007199254740993", "USD")` is "$9007199254740992.00". -/
theorem formatMoney_symbol_amount (h : Host) (amount : Val) (code : String) :
    formatMoney h amount code = currencySymbol code ++ toFixed h (toNumber amount) 2 ∧
    ((toUpperCase code = "EUR" → currencySymbol code = "€") ∧
      (toUpperCase code = "GBP" → currencySymbol code = "£") ∧
      (toUpperCase code = "RUB" → currencySymbol code = "₽") ∧
      (toUpperCase code = "UAH" → currencySymbol code = "₴") ∧
      (toUpperCase code = "KZT" → currencySymbol code = "₸") ∧
      (toUpperCase code ∉ ["EUR", "GBP", "RUB", "UAH", "KZT"] → currencySymbol code = "$") ∧
      currencySymbol "" = "$" ∧ currencySymbol "USD" = "$" ∧ currencySymbol "eur" = "€") ∧
    (|toNumber amount| < 10 ^ 21 →
      toFixed h (toNumber amount) 2 =
        String.mk ((if toNumber amount < 0 then ['-'] else []) ++ fixedInt (toNumber amount) 2 ++
          '.' :: fixedFrac (toNumber amount) 2) ∧
      (fixedFrac (toNumber amount) 2).length = 2 ∧
      (∀ c ∈ fixedInt (toNumber amount) 2 ++ fixedFrac (toNumber amount) 2, c.isDigit = true) ∧
      literalValue (toFixed h (toNumber amount) 2) =
        .fin ((if toNumber amount < 0 then -1 else 1) *
          (((⌊|toNumber amount| * 10 ^ 2 + 1 / 2⌋).toNat : ℚ) / 10 ^ 2))) ∧
    ((10 : ℚ) ^ 21 ≤ |toNumber amount| →
      toFixed h (toNumber amount) 2 = h.printNumber (toNumber amount)) ∧
    ((∀ s, (¬ ∃ q, parseFloat (String.mk (replaceComma s.data)) = .fin q) →
        toNumber (.str s) = 0) ∧
      (∀ s q, parseFloat (String.mk (replaceComma s.data)) = .fin q → toNumber (.str s) = q) ∧
      (∀ s v, literalValue s = .fin v → parseFloat s = toDouble v) ∧
      (∀ s, (¬ ∃ v, literalValue s = .fin v) → parseFloat s = literalValue s) ∧
      (∀ q, toNumber (.num (.fin q)) = q) ∧
      toNumber (.str "12,5") = 12.5 ∧ toNumber (.str "abc") = 0 ∧ toNumber (.str "") = 0 ∧
      toNumber (.str "Infinity") = 0 ∧ toNumber (.str "1e400") = 0 ∧
      toNumber (.str "-1e400") = 0 ∧ toNumber (.str "1e-400") = 0 ∧
      toNumber (.str "1.005") = 1131529406376837 / 1125899906842624 ∧
      toNumber (.num .nan) = 0 ∧ toNumber (.num .pinf) = 0 ∧
      toNumber (.num .ninf) = 0 ∧ toNumber .undefined = 0 ∧ toNumber .null = 0) ∧
    (formatMoney h (.num (.fin 1234.5)) "EUR" = "€1234.50" ∧
      formatMoney h .undefined "USD" = "$0.00" ∧
      formatMoney h (.str "1.005") "USD" = "$1.00" ∧
      formatMoney h (.str "9007199254740993") "USD" = "$9007199254740992.00") := by
  have ex : ∀ (v : Val) (c r : String), |toNumber v| < 10 ^ 21 →
      formatMoney demoHost v c = r → formatMoney h v c = r :=
    fun v c r hlt hr => (formatMoney_host h demoHost v c hlt).trans hr
  refine ⟨rfl, ⟨?_, ?_, ?_, ?_, ?_, ?_, by decide!, by decide!, by decide!⟩, ?_, ?_,
    ⟨?_, ?_, ?_, ?_, fun q => rfl, by decide!, by decide!, by decide!, by decide!, by decide!,
      by decide!, by decide!, by decide!, rfl, rfl, rfl, by decide!, by decide!⟩,
    ⟨ex _ _ _ (by decide!) (by decide!), ex _ _ _ (by decide!) (by decide!),
      ex _ _ _ (by decide!) (by decide!), ex _ _ _ (by decide!) (by decide!)⟩⟩
  · intro hc
    unfold currencySymbol
    simp only [hc, if_true]
  · intro hc
    unfold currencySymbol
    simp only [hc]
    rfl
  · intro hc
    unfold currencySymbol
    simp only [hc]
    rfl
  · intro hc
    unfold currencySymbol
    simp only [hc]
    rfl
  · intro hc
    unfold currencySymbol
    simp only [hc]
    rfl
  · intro hna
    simp only [List.mem_cons, List.mem_singleton, List.not_mem_nil, or_false, not_or] at hna
    unfold currencySymbol
    simp only [hna.1, hna.2.1, hna.2.2.1, hna.2.2.2.1, hna.2.2.2.2, if_false]
  · intro hx
    refine ⟨?_, fixedFrac_length _ _, ?_, literalValue_toFixed h _ 2 hx (by decide)⟩
    · rw [toFixed_of_lt h _ _ hx]
      simp only [show ¬ (2 : Nat) = 0 by decide, if_false]
    · intro c hc
      rcases List.mem_append.mp hc with hc | hc
      · exact fixedInt_isDigit _ _ c hc
      · exact fixedFrac_isDigit _ _ c hc
  · intro hge
    rw [toFixed_of_ge h _ _ hge, numberToString_of_ge h _ hge]
  · intro s hs
    show (match parseFloat (String.mk (replaceComma s.data)) with
      | .fin q => q
      | _ => (0 : ℚ)) = (0 : ℚ)
    cases hp : parseFloat (String.mk (replaceComma s.data)) with
    | fin q => exact absurd ⟨q, hp⟩ hs
    | nan => rfl
    | pinf => rfl
    | ninf => rfl
  · intro s q hs
    show (match parseFloat (String.mk (replaceComma s.data)) with
      | .fin r => r
      | _ => (0 : ℚ)) = q
    rw [hs]
  · intro s v hv
    unfold parseFloat
    rw [hv]
  · intro s hs
    unfold parseFloat
    cases hp : literalValue s with
    | fin v => exact absurd ⟨v, hp⟩ hs
    | nan => rfl
    | pinf => rfl
    | ninf => rfl

/-- C12 witness: the amount "-7,256" in a code written in lower case. -/
theorem formatMoney_symbol_amount_witness :
    currencySymbol "gbp" = "£" ∧
    literalValue (toFixed demoHost (toNumber (.str "-7,256")) 2) =
      .fin ((if toNumber (.str "-7,256") < 0 then -1 else 1) *
        (((⌊|toNumber (.str "-7,256")| * 10 ^ 2 + 1 / 2⌋).toNat : ℚ) / 10 ^ 2)) ∧
    formatMoney demoHost (.str "-7,256") "gbp" = "£-7.26" :=
  ⟨(formatMoney_symbol_amount demoHost (.str "-7,256") "gbp").2.1.2.1 (by decide!),
   ((formatMoney_symbol_amount demoHost (.str "-7,256") "gbp").2.2.1 (by decide!)).2.2.2,
   by decide!⟩

/-! ### C15 -/

/-- C15, as stated, fails: `formatCrypto("BTC", 0.123456789)` is "0.12345679". -/
theorem formatCrypto_btc_rounds :
    ¬ (formatCrypto demoHost "BTC" (.num (.fin 0.123456789)) ≠ "0.12345679") := by
  decide!

/-- C15 (amended): `formatCrypto("BTC", 0.123456789)` is equal to "0.12345679": `toFixed(8)`
rounds the value to the nearest multiple of `10^-8`, which gives "0.12345679", and the zero
stripping removes nothing from it; the same holds when the amount is the string
"0.123456789". -/
theorem formatCrypto_btc_example (h : Host) :
    toFixed h 0.123456789 8 = "0.12345679" ∧
    trimZeros "0.12345679" = "0.12345679" ∧
    formatCrypto h "BTC" (.num (.fin 0.123456789)) = "0.12345679" ∧
    formatCrypto h "BTC" (.str "0.123456789") = "0.12345679" := by
  refine ⟨?_, by decide!, ?_, ?_⟩
  · exact (toFixed_host h demoHost _ 8 (by norm_num [abs_of_pos])).trans (by decide!)
  · exact (formatCrypto_host h demoHost "BTC" _ (by decide!)).trans (by decide!)
  · exact (formatCrypto_host h demoHost "BTC" _ (by decide!)).trans (by decide!)

/-! ### The order variables are written by `updateTotals` and the coupon handler only -/

theorem DomOnly.orderVars_eq {s t : Page} (a : DomOnly s t) : orderVars t = orderVars s := by
  rw [a]
  rfl

theorem updateWalletUI_orderVars (h : Host) (s : Page) :
    orderVars (updateWalletUI h s) = orderVars s :=
  (updateWalletUI_domOnly h s).orderVars_eq

theorem setCouponMessage_domOnly (s : Page) (a b : String) :
    DomOnly s (setCouponMessage s a b) := by
  unfold setCouponMessage
  split
  · rfl
  · exact DomOnly.same s

theorem togglePaymentExtras_domOnly (h : Host) (s : Page) :
    DomOnly s (togglePaymentExtras h s) := by
  unfold togglePaymentExtras
  have h3 : ∀ a b c, DomOnly s (setDisplay (setDisplay (setDisplay s "crypto_wrap" a)
      "card_wrap" b) "crypto_note" c) := fun a b c =>
    ((setDisplay_domOnly _ _ _).comp (setDisplay_domOnly _ _ _)).comp (setDisplay_domOnly _ _ _)
  simp only
  refine DomOnly.comp ?_ (updateWalletUI_domOnly h _)
  split_ifs <;> first | exact h3 _ _ _ | exact (h3 _ _ _).comp rfl

theorem refreshUsdPrices_orderVars (h : Host) (r1 r2 : FetchResult) (s : Page) :
    orderVars (refreshUsdPrices h r1 r2 s) = orderVars s := by
  have p1 : ∀ (s : Page) (r : FetchResult), orderVars (tryPrimary s r).1 = orderVars s := by
    intro s r
    unfold tryPrimary
    rcases r with _ | ⟨_ | _, _ | j⟩ <;> try rfl
    simp only
    split <;> rfl
  have p2 : ∀ (s : Page) (r : FetchResult), orderVars (trySecondary s r).1 = orderVars s := by
    intro s r
    unfold trySecondary
    rcases r with _ | ⟨_ | _, _ | j⟩ <;> try rfl
    simp only
    split <;> rfl
  unfold refreshUsdPrices
  simp only
  rw [updateWalletUI_orderVars, (updateRatesStatus_domOnly _ _).orderVars_eq]
  split
  · rw [p2, p1]
  · rw [p1]

theorem successConfirmation_orderVars (h : Host) (s : Page) (e m a : String) (t : ℚ) :
    orderVars (successConfirmation h s e m a t) = orderVars s := by
  unfold successConfirmation
  split
  · simp only
    have d6 : ∀ (u : Page) a1 a2 a3 a4 a5 a6 b1 b2 b3 b4 b5 b6, DomOnly u
        (setText (setText (setText (setText (setText (setText u a1 b1) a2 b2) a3 b3) a4 b4)
          a5 b5) a6 b6) := fun u a1 a2 a3 a4 a5 a6 b1 b2 b3 b4 b5 b6 =>
      (((((setText_domOnly _ _ _).comp (setText_domOnly _ _ _)).comp
        (setText_domOnly _ _ _)).comp (setText_domOnly _ _ _)).comp
        (setText_domOnly _ _ _)).comp (setText_domOnly _ _ _)
    exact (d6 s _ _ _ _ _ _ _ _ _ _ _ _).orderVars_eq
  · rfl

theorem cardFailure_orderVars (s : Page) : orderVars (cardFailure s) = orderVars s := by
  unfold cardFailure alert
  simp only
  split <;> rfl

theorem cryptoBranch_orderVars (h : Host) (s : Page) (a i : String) :
    orderVars (cryptoBranch h s a i) = orderVars s := by
  unfold cryptoBranch
  exact (showRedirectOverlay_domOnly (setItem s PENDING_KEY (pendingPayment h s a)) _ _ _
    _).orderVars_eq

theorem cardBranch_orderVars (h : Host) (relay : FetchResult) (s : Page) (o : Val)
    (e a : String) (t : ℚ) : orderVars (cardBranch h relay s o e a t) = orderVars s := by
  unfold cardBranch
  simp only [createCustomEuAd_snd]
  have hc : ∀ u : Page, orderVars (createCustomEuAd h u o relay).1 = orderVars u := fun _ => rfl
  by_cases hr : (redirectTarget (relayResult relay)).truthy = true
  · rw [if_pos hr]
    exact (hc _).trans (showRedirectOverlay_domOnly _ _ _ _ _).orderVars_eq
  · rw [if_neg hr, successConfirmation_orderVars, cardFailure_orderVars, hc]
    exact (showRedirectOverlay_domOnly _ _ _ _ _).orderVars_eq

theorem submit_orderVars (h : Host) (relay : FetchResult) (s : Page) :
    orderVars (submit h relay s) = orderVars s := by
  unfold submit
  simp only
  by_cases he : formEmail s = ""
  · rw [if_pos he]
    unfold alert
    split <;> rfl
  · rw [if_neg he]
    cases hm : s.dom.checkedMethod with
    | none => rfl
    | some m =>
      simp only
      by_cases ha : m = "crypto" ∧ formAsset s = ""
      · rw [if_pos ha]
        rfl
      · rw [if_neg ha]
        by_cases h1 : m = "crypto"
        · rw [if_pos h1, cryptoBranch_orderVars]
          rfl
        · rw [if_neg h1]
          by_cases h2 : m = "card"
          · rw [if_pos h2, cardBranch_orderVars]
            rfl
          · rw [if_neg h2, successConfirmation_orderVars]
            rfl

theorem clampMoney_nonneg (v : Val) : 0 ≤ clampMoney v := by
  rw [clampMoney_eq_max]
  exact le_max_left _ _

theorem clampMoney_clampMoney (v : Val) :
    clampMoney (.num (.fin (clampMoney v - 0))) = clampMoney v := by
  rw [sub_zero, clampMoney_eq_max (.num (.fin (clampMoney v))), toNumber_fin]
  exact max_eq_right (clampMoney_nonneg v)

theorem updateTotals_orderVars (h : Host) (s : Page) :
    orderVars (updateTotals h s) = (s.basePrice, s.couponCode, s.discount,
      clampMoney s.basePrice, clampMoney (.num (.fin (clampMoney s.basePrice - s.discount)))) := by
  unfold updateTotals
  simp only
  rw [updateWalletUI_orderVars,
    ((setText_domOnly _ _ _).comp (setText_domOnly _ _ _)).orderVars_eq]
  rfl

theorem rejectCoupon_orderVars (h : Host) (s : Page) :
    orderVars (rejectCoupon h s) =
      (s.basePrice, .null, 0, clampMoney s.basePrice, clampMoney s.basePrice) := by
  unfold rejectCoupon
  rw [(setCouponMessage_domOnly _ _ _).orderVars_eq, updateTotals_orderVars]
  simp only [clampMoney_clampMoney]

theorem couponApply_of_code (h : Host) (s : Page)
    (hc : jsTrim (if s.dom.present "coupon_code" then s.dom.value "coupon_code" else "") ≠ "") :
    couponApply h s = rejectCoupon h s := by
  unfold couponApply rejectCoupon
  simp only
  rw [if_neg hc]

theorem couponApply_of_empty (h : Host) (s : Page)
    (hc : jsTrim (if s.dom.present "coupon_code" then s.dom.value "coupon_code" else "") = "") :
    couponApply h s = setCouponMessage s "bad" "Please enter a coupon code." := by
  unfold couponApply
  simp only
  rw [if_pos hc]

theorem orderVars_normal (t : Page) (b : Val)
    (e : orderVars t = (b, .null, 0, clampMoney b, clampMoney b)) :
    orderVars t = (t.basePrice, .null, 0, clampMoney t.basePrice, clampMoney t.basePrice) := by
  have hb : t.basePrice = b := congrArg Prod.fst e
  rw [hb, e]

theorem initCheckoutPage_orderVars (h : Host) (u : Page) (a b c d : String)
    (h1 : u.couponCode = .null) (h2 : u.discount = 0) :
    orderVars (togglePaymentExtras h (updateTotals h (setText (setText u a b) c d))) =
      (u.basePrice, .null, 0, clampMoney u.basePrice, clampMoney u.basePrice) := by
  have e2 := ((setText_domOnly u a b).comp (setText_domOnly _ c d)).orderVars_eq
  simp only [orderVars, Prod.mk.injEq] at e2
  rw [(togglePaymentExtras_domOnly _ _).orderVars_eq, updateTotals_orderVars, e2.1, e2.2.1,
    e2.2.2.1, h1, h2, clampMoney_clampMoney]

/-- The order variables of a reachable session: no discount, no coupon, the subtotal is the
clamped price and the total is the subtotal. -/
theorem reachable_orderVars (h : Host) (s : Page) (hr : Reachable h s) :
    orderVars s = (s.basePrice, .null, 0, clampMoney s.basePrice, clampMoney s.basePrice) := by
  have step : ∀ (s t : Page), orderVars t = orderVars s →
      orderVars s = (s.basePrice, .null, 0, clampMoney s.basePrice, clampMoney s.basePrice) →
      orderVars t = (t.basePrice, .null, 0, clampMoney t.basePrice, clampMoney t.basePrice) :=
    fun s t e hs => orderVars_normal t s.basePrice (e.trans hs)
  induction hr with
  | load cfg params dom storage s e =>
    unfold initCheckoutPage at e
    cases hres : resolveFields params (getCheckoutPayload storage) with
    | none =>
      rw [hres] at e
      exact absurd e (by simp)
    | some r =>
      rw [hres] at e
      simp only [Option.some.injEq] at e
      rw [← e]
      exact orderVars_normal _ _ (initCheckoutPage_orderVars h _ _ _ _ _ rfl rfl)
  | coupon s _ ih =>
    by_cases hc : jsTrim (if s.dom.present "coupon_code" then s.dom.value "coupon_code"
      else "") = ""
    · rw [couponApply_of_empty h s hc]
      exact step s _ (setCouponMessage_domOnly _ _ _).orderVars_eq ih
    · rw [couponApply_of_code h s hc]
      exact orderVars_normal _ _ (rejectCoupon_orderVars h s)
  | method s _ ih => exact step s _ (togglePaymentExtras_domOnly h s).orderVars_eq ih
  | coin s _ ih => exact step s _ (updateWalletUI_orderVars h s) ih
  | rates r1 r2 s _ ih => exact step s _ (refreshUsdPrices_orderVars h r1 r2 s) ih
  | order relay s _ ih => exact step s _ (submit_orderVars h relay s) ih
  | outside d st s _ ih => exact step s _ rfl ih

/-! ### C1 -/

theorem negativePriceSession_loaded :
    initCheckoutPage demoHost nekoPayConfig [("price", "-5")] (demoDom (some "card") "")
      (fun _ => none) = some negativePriceSession := by
  unfold negativePriceSession
  cases hh : initCheckoutPage demoHost nekoPayConfig [("price", "-5")]
    (demoDom (some "card") "") (fun _ => none) with
  | none =>
    have h2 : (initCheckoutPage demoHost nekoPayConfig [("price", "-5")]
      (demoDom (some "card") "") (fun _ => none)).isSome = true := by
      decide!
    rw [hh] at h2
    exact absurd h2 (by decide)
  | some s => rfl

/-- C1: for every base price (negative or unparsable ones included), the totals computed by
`updateTotals` and those of the order assembled by the submit handler are
subtotal = max(0, price) and total = max(0, subtotal - discount), the price being
`toNumber(basePrice)` (0 when it does not parse); hence total ≥ 0.  In every state a checkout
session reaches, the discount is 0, the only value the script assigns to it, the totals the
state holds are these, and total = 0 whenever discount > price; that last fact holds for every
discount that is not negative. -/
theorem totals_clamped (h : Host) (s : Page) :
    (updateTotals h s).currentSubtotal = max 0 (toNumber s.basePrice) ∧
    (updateTotals h s).currentTotal = max 0 (max 0 (toNumber s.basePrice) - s.discount) ∧
    (∀ (relay : FetchResult) (method : String), formEmail s ≠ "" →
      s.dom.checkedMethod = some method → ¬ (method = "crypto" ∧ formAsset s = "") →
      ∃ order, (submit h relay s).storage LAST_ORDER_KEY = some order ∧
        order.get "subtotal" = .num (.fin (max 0 (toNumber s.basePrice))) ∧
        order.get "total" = .num (.fin (max 0 (max 0 (toNumber s.basePrice) - s.discount)))) ∧
    0 ≤ (updateTotals h s).currentTotal ∧
    (0 ≤ s.discount → toNumber s.basePrice < s.discount →
      (updateTotals h s).currentTotal = 0) ∧
    (Reachable h s →
      s.discount = 0 ∧
      s.currentSubtotal = max 0 (toNumber s.basePrice) ∧
      s.currentTotal = max 0 (s.currentSubtotal - s.discount) ∧
      0 ≤ s.currentTotal ∧
      (toNumber s.basePrice < s.discount →
        s.currentTotal = 0 ∧ (updateTotals h s).currentTotal = 0)) := by
  have hsub := updateTotals_currentSubtotal h s
  have htot := updateTotals_currentTotal h s
  rw [clampMoney_eq_max] at hsub
  rw [clampMoney_eq_max, toNumber_fin, clampMoney_eq_max] at htot
  have hzero : 0 ≤ s.discount → toNumber s.basePrice < s.discount →
      (updateTotals h s).currentTotal = 0 := by
    intro hd hlt
    rw [htot]
    apply max_eq_left
    have : max 0 (toNumber s.basePrice) ≤ s.discount := max_le hd (le_of_lt hlt)
    linarith
  refine ⟨hsub, htot, ?_, ?_, hzero, ?_⟩
  · intro relay method he hm ha
    refine ⟨_, submit_writes_order h relay s method he hm ha, ?_, ?_⟩
    · rw [assembleOrder_subtotal, clampMoney_eq_max]
    · rw [assembleOrder_total, clampMoney_eq_max, toNumber_fin, clampMoney_eq_max]
  · rw [htot]
    exact le_max_left _ _
  · intro hr
    have e := reachable_orderVars h s hr
    simp only [orderVars, Prod.mk.injEq] at e
    have hd : s.discount = 0 := e.2.2.1
    have hs : s.currentSubtotal = max 0 (toNumber s.basePrice) := by
      rw [e.2.2.2.1, clampMoney_eq_max]
    have ht : s.currentTotal = max 0 (s.currentSubtotal - s.discount) := by
      rw [e.2.2.2.2, hd, sub_zero, hs, clampMoney_eq_max, max_eq_right (le_max_left _ _)]
    have hnn : 0 ≤ s.currentTotal := by
      rw [ht]
      exact le_max_left _ _
    refine ⟨hd, hs, ht, hnn, fun hlt => ⟨?_, hzero (le_of_eq hd.symm) hlt⟩⟩
    rw [hd] at hlt
    rw [e.2.2.2.2, clampMoney_eq_max, max_eq_left (le_of_lt hlt)]

/-- C1 witness: the session loaded with the query `price=-5`, whose discount 0 is above the
price, and a card submission of it. -/
theorem totals_clamped_witness :
    (negativePriceSession.discount = 0 ∧ negativePriceSession.currentSubtotal = 0 ∧
      negativePriceSession.currentTotal = 0 ∧
      (updateTotals demoHost negativePriceSession).currentTotal = 0) ∧
    toNumber negativePriceSession.basePrice = -5 ∧
    ∃ order, (submit demoHost .rejected negativePriceSession).storage LAST_ORDER_KEY
        = some order ∧
      order.get "subtotal" = .num (.fin (max 0 (toNumber negativePriceSession.basePrice))) ∧
      order.get "total" = .num (.fin (max 0 (max 0 (toNumber negativePriceSession.basePrice)
        - negativePriceSession.discount))) :=
  have hr : Reachable demoHost negativePriceSession :=
    Reachable.load _ _ _ _ _ negativePriceSession_loaded
  have t := totals_clamped demoHost negativePriceSession
  have r := t.2.2.2.2.2 hr
  have z := r.2.2.2.2 (by decide!)
  ⟨⟨r.1, r.2.1.trans (by decide!), z.1, t.2.2.2.2.1 (by decide!) (by decide!)⟩, by decide!,
    t.2.2.1 .rejected "card" (by decide!) (by decide!) (by decide!)⟩

/-! ### Writers: functions that only write texts, display values and class names -/

theorem sameInputs_same (s : Page) : SameInputs s s := by
  cases s
  rfl

theorem sameInputs_flip {s t : Page} (a : SameInputs s t) : SameInputs t s := by
  unfold SameInputs at *
  rw [a]

theorem sameInputs_chain {s t u : Page} (a : SameInputs s t) (b : SameInputs t u) :
    SameInputs s u := by
  unfold SameInputs at *
  rw [b, a]

theorem sameInputs_present {s t : Page} (a : SameInputs s t) :
    t.dom.present = s.dom.present := by
  rw [a]

theorem sameInputs_eq_of {s t : Page} (a : SameInputs s t) (h1 : t.dom.text = s.dom.text)
    (h2 : t.dom.display = s.dom.display) (h3 : t.dom.className = s.dom.className) : t = s := by
  rw [a, h1, h2, h3]

theorem writes_chain {α : Type} {a b a1 b1 a2 b2 : α} (x : a1 = b1 ∨ (a1 = a ∧ b1 = b))
    (y : a2 = b2 ∨ (a2 = a1 ∧ b2 = b1)) : a2 = b2 ∨ (a2 = a ∧ b2 = b) := by
  rcases x with e | ⟨e1, e2⟩ <;> rcases y with f | ⟨f1, f2⟩
  · exact Or.inl f
  · exact Or.inl (f1.trans (e.trans f2.symm))
  · exact Or.inl f
  · exact Or.inr ⟨f1.trans e1, f2.trans e2⟩

theorem sameWrites_none (s t : Page) : SameWrites s t s t :=
  ⟨sameInputs_same s, sameInputs_same t, fun _ => Or.inr ⟨rfl, rfl⟩, fun _ => Or.inr ⟨rfl, rfl⟩,
    fun _ => Or.inr ⟨rfl, rfl⟩⟩

theorem sameWrites_chain {s t s1 t1 s2 t2 : Page} (a : SameWrites s t s1 t1)
    (b : SameWrites s1 t1 s2 t2) : SameWrites s t s2 t2 :=
  ⟨sameInputs_chain a.1 b.1, sameInputs_chain a.2.1 b.2.1, fun k => writes_chain (a.2.2.1 k) (b.2.2.1 k),
    fun k => writes_chain (a.2.2.2.1 k) (b.2.2.2.1 k),
    fun k => writes_chain (a.2.2.2.2 k) (b.2.2.2.2 k)⟩

theorem writer_comp {F G : Page → Page} (a : Writer F) (b : Writer G) :
    Writer (fun s => G (F s)) := by
  intro s t hst
  have w := a s t hst
  exact sameWrites_chain w (b _ _ (sameInputs_chain (sameInputs_chain (sameInputs_flip w.1) hst) w.2.1))

theorem update_writes {α : Type} (f g : String → α) (id : String) (v : α) (k : String) :
    Function.update f id v k = Function.update g id v k ∨
      (Function.update f id v k = f k ∧ Function.update g id v k = g k) := by
  by_cases hk : k = id
  · left
    rw [hk, Function.update_same, Function.update_same]
  · right
    exact ⟨Function.update_noteq hk _ _, Function.update_noteq hk _ _⟩

theorem writer_setText (id v : String) : Writer (fun s => setText s id v) := by
  intro s t hst
  show SameWrites s t (setText s id v) (setText t id v)
  unfold setText
  rw [sameInputs_present hst]
  by_cases hp : s.dom.present id = true
  · rw [if_pos hp, if_pos hp]
    exact ⟨rfl, rfl, fun k => update_writes _ _ _ _ _, fun _ => Or.inr ⟨rfl, rfl⟩,
      fun _ => Or.inr ⟨rfl, rfl⟩⟩
  · rw [if_neg hp, if_neg hp]
    exact sameWrites_none s t

theorem writer_setDisplay (id v : String) : Writer (fun s => setDisplay s id v) := by
  intro s t hst
  show SameWrites s t (setDisplay s id v) (setDisplay t id v)
  unfold setDisplay
  rw [sameInputs_present hst]
  by_cases hp : s.dom.present id = true
  · rw [if_pos hp, if_pos hp]
    exact ⟨rfl, rfl, fun _ => Or.inr ⟨rfl, rfl⟩, fun k => update_writes _ _ _ _ _,
      fun _ => Or.inr ⟨rfl, rfl⟩⟩
  · rw [if_neg hp, if_neg hp]
    exact sameWrites_none s t

theorem writer_updateRatesStatus (v : String) : Writer (fun s => updateRatesStatus s v) := by
  intro s t hst
  show SameWrites s t (updateRatesStatus s v) (updateRatesStatus t v)
  unfold updateRatesStatus
  rw [sameInputs_present hst]
  by_cases hp : s.dom.present "rates_status" = true
  · rw [if_pos hp, if_pos hp]
    exact ⟨rfl, rfl, fun k => update_writes _ _ _ _ _, fun _ => Or.inr ⟨rfl, rfl⟩,
      fun _ => Or.inr ⟨rfl, rfl⟩⟩
  · rw [if_neg hp, if_neg hp]
    exact sameWrites_none s t

theorem writer_setCouponMessage (a b : String) : Writer (fun s => setCouponMessage s a b) := by
  intro s t hst
  show SameWrites s t (setCouponMessage s a b) (setCouponMessage t a b)
  unfold setCouponMessage
  rw [sameInputs_present hst]
  by_cases hp : s.dom.present "coupon_msg" = true
  · rw [if_pos hp, if_pos hp]
    exact ⟨rfl, rfl, fun k => update_writes _ _ _ _ _, fun _ => Or.inr ⟨rfl, rfl⟩,
      fun k => update_writes _ _ _ _ _⟩
  · rw [if_neg hp, if_neg hp]
    exact sameWrites_none s t

theorem writer_setWalletInline (a b c d : String) :
    Writer (fun s => setWalletInline s a b c d) := by
  have w := writer_comp (writer_comp (writer_comp (writer_setText "wallet_amount" b)
    (writer_setText "wallet_symbol" (strOr a "—"))) (writer_setText "wallet_usd" (strOr c "—")))
    (writer_setText "wallet_address" (strOr d "—"))
  exact w

theorem writer_updateWalletUI (h : Host) : Writer (updateWalletUI h) := by
  intro s t hst
  have e1 : getSelectedMethodValue t = getSelectedMethodValue s := by
    unfold getSelectedMethodValue
    rw [hst]
  have e2 : getSelectedAssetValue t = getSelectedAssetValue s := by
    unfold getSelectedAssetValue
    rw [hst]
  have e3 : ∀ a, priceOf t a = priceOf s a := fun a => by
    unfold priceOf
    rw [hst]
  have e4 : t.currentTotal = s.currentTotal := by
    rw [hst]
  have e5 : ∀ a, getWalletAddress h t a = getWalletAddress h s a := fun a => by
    unfold getWalletAddress
    rw [hst]
  have key : ∀ v a b c d m, SameWrites s t
      (updateRatesStatus (setWalletInline (setDisplay s "wallet_box" v) a b c d) m)
      (updateRatesStatus (setWalletInline (setDisplay t "wallet_box" v) a b c d) m) :=
    fun v a b c d m => (writer_comp (writer_comp (writer_setDisplay "wallet_box" v)
      (writer_setWalletInline a b c d)) (writer_updateRatesStatus m)) s t hst
  unfold updateWalletUI
  simp only [e1, e2, e3, e4, e5]
  split_ifs <;> first
    | exact key _ _ _ _ _ _
    | exact writer_setDisplay _ _ s t hst

theorem writer_renderRejection (h : Host) (a b : String) : Writer (renderRejection h a b) := by
  have w := writer_comp (writer_comp (writer_comp (writer_setText "neko_subtotal" a)
    (writer_setText "neko_total" b)) (writer_updateWalletUI h))
    (writer_setCouponMessage "bad" "Invalid coupon code.")
  exact w

theorem writer_inputs {F : Page → Page} (w : Writer F) (s : Page) : SameInputs s (F s) :=
  (w s s (sameInputs_same s)).1

theorem writer_idem {F : Page → Page} (w : Writer F) (s : Page) : F (F s) = F s := by
  have b := w s (F s) (writer_inputs w s)
  apply sameInputs_eq_of b.2.1
  · funext k
    rcases b.2.2.1 k with e | ⟨_, e⟩
    · exact e.symm
    · exact e
  · funext k
    rcases b.2.2.2.1 k with e | ⟨_, e⟩
    · exact e.symm
    · exact e
  · funext k
    rcases b.2.2.2.2 k with e | ⟨_, e⟩
    · exact e.symm
    · exact e

/-! ### The coupon handler on a non-empty code -/

theorem rejectCoupon_eq (h : Host) (s : Page) :
    rejectCoupon h s =
      renderRejection h (formatMoney h (.num (.fin (clampMoney s.basePrice))) s.currency)
        (formatMoney h (.num (.fin (clampMoney (.num (.fin (clampMoney s.basePrice - 0))))))
          s.currency) (resetOrder s) := rfl

theorem resetOrder_of_sameInputs {s t : Page} (a : SameInputs s t) (hs : resetOrder s = s) :
    resetOrder t = t := by
  have e : resetOrder t = { resetOrder s with dom := t.dom } := by
    rw [a]
    rfl
  rw [e, hs]
  exact a.symm ▸ rfl

theorem rejectCoupon_idem (h : Host) (s : Page) :
    rejectCoupon h (rejectCoupon h s) = rejectCoupon h s := by
  have w := writer_renderRejection h
    (formatMoney h (.num (.fin (clampMoney s.basePrice))) s.currency)
    (formatMoney h (.num (.fin (clampMoney (.num (.fin (clampMoney s.basePrice - 0))))))
      s.currency)
  have hin := writer_inputs w (resetOrder s)
  have hn : resetOrder (rejectCoupon h s) = rejectCoupon h s := by
    rw [rejectCoupon_eq h s]
    exact resetOrder_of_sameInputs hin rfl
  have hb : (rejectCoupon h s).basePrice = s.basePrice := by
    rw [rejectCoupon_eq h s, hin]
    rfl
  have hcur : (rejectCoupon h s).currency = s.currency := by
    rw [rejectCoupon_eq h s, hin]
    rfl
  rw [rejectCoupon_eq h (rejectCoupon h s), hn, hb, hcur, rejectCoupon_eq h s]
  exact writer_idem w _

/-! ### Typing a code commutes with the writes of the coupon handler -/

theorem setText_enterCoupon (c : String) (s : Page) (id v : String) :
    setText (enterCoupon c s) id v = enterCoupon c (setText s id v) := by
  by_cases hp : s.dom.present id = true
  · have l : setText (enterCoupon c s) id v = _ := if_pos hp
    have r : setText s id v = _ := if_pos hp
    rw [l, r]
    rfl
  · have l : setText (enterCoupon c s) id v = _ := if_neg hp
    have r : setText s id v = _ := if_neg hp
    rw [l, r]

theorem setDisplay_enterCoupon (c : String) (s : Page) (id v : String) :
    setDisplay (enterCoupon c s) id v = enterCoupon c (setDisplay s id v) := by
  by_cases hp : s.dom.present id = true
  · have l : setDisplay (enterCoupon c s) id v = _ := if_pos hp
    have r : setDisplay s id v = _ := if_pos hp
    rw [l, r]
    rfl
  · have l : setDisplay (enterCoupon c s) id v = _ := if_neg hp
    have r : setDisplay s id v = _ := if_neg hp
    rw [l, r]

theorem updateRatesStatus_enterCoupon (c : String) (s : Page) (v : String) :
    updateRatesStatus (enterCoupon c s) v = enterCoupon c (updateRatesStatus s v) := by
  by_cases hp : s.dom.present "rates_status" = true
  · have l : updateRatesStatus (enterCoupon c s) v = _ := if_pos hp
    have r : updateRatesStatus s v = _ := if_pos hp
    rw [l, r]
    rfl
  · have l : updateRatesStatus (enterCoupon c s) v = _ := if_neg hp
    have r : updateRatesStatus s v = _ := if_neg hp
    rw [l, r]

theorem setCouponMessage_enterCoupon (c : String) (s : Page) (a b : String) :
    setCouponMessage (enterCoupon c s) a b = enterCoupon c (setCouponMessage s a b) := by
  by_cases hp : s.dom.present "coupon_msg" = true
  · have l : setCouponMessage (enterCoupon c s) a b = _ := if_pos hp
    have r : setCouponMessage s a b = _ := if_pos hp
    rw [l, r]
    rfl
  · have l : setCouponMessage (enterCoupon c s) a b = _ := if_neg hp
    have r : setCouponMessage s a b = _ := if_neg hp
    rw [l, r]

theorem setWalletInline_enterCoupon (c : String) (s : Page) (a b d e : String) :
    setWalletInline (enterCoupon c s) a b d e = enterCoupon c (setWalletInline s a b d e) := by
  unfold setWalletInline
  simp only [setText_enterCoupon]

theorem getSelectedAssetValue_enterCoupon (c : String) (s : Page) :
    getSelectedAssetValue (enterCoupon c s) = getSelectedAssetValue s := by
  unfold getSelectedAssetValue enterCoupon
  have hv : Function.update s.dom.value "coupon_code" c "crypto" = s.dom.value "crypto" :=
    Function.update_noteq (by decide) _ _
  simp only [hv]

theorem updateWalletUI_enterCoupon (h : Host) (c : String) (s : Page) :
    updateWalletUI h (enterCoupon c s) = enterCoupon c (updateWalletUI h s) := by
  have e1 : getSelectedMethodValue (enterCoupon c s) = getSelectedMethodValue s := rfl
  have e3 : ∀ a, priceOf (enterCoupon c s) a = priceOf s a := fun _ => rfl
  have e4 : (enterCoupon c s).currentTotal = s.currentTotal := rfl
  have e5 : ∀ a, getWalletAddress h (enterCoupon c s) a = getWalletAddress h s a := fun _ => rfl
  unfold updateWalletUI
  simp only [e1, getSelectedAssetValue_enterCoupon, e3, e4, e5]
  split_ifs <;>
    simp only [setDisplay_enterCoupon, setWalletInline_enterCoupon,
      updateRatesStatus_enterCoupon]

theorem renderRejection_enterCoupon (h : Host) (c a b : String) (s : Page) :
    renderRejection h a b (enterCoupon c s) = enterCoupon c (renderRejection h a b s) := by
  unfold renderRejection
  rw [setText_enterCoupon, setText_enterCoupon, updateWalletUI_enterCoupon,
    setCouponMessage_enterCoupon]

theorem rejectCoupon_enterCoupon (h : Host) (c : String) (s : Page) :
    rejectCoupon h (enterCoupon c s) = enterCoupon c (rejectCoupon h s) := by
  rw [rejectCoupon_eq, rejectCoupon_eq]
  exact renderRejection_enterCoupon h c _ _ (resetOrder s)

theorem enterCoupon_enterCoupon (c d : String) (s : Page) :
    enterCoupon d (enterCoupon c s) = enterCoupon d s := by
  unfold enterCoupon
  simp only [Function.update_idem]

theorem rejectCoupon_present (h : Host) (s : Page) :
    (rejectCoupon h s).dom.present = s.dom.present := by
  rw [rejectCoupon_eq]
  exact (sameInputs_present (writer_inputs (writer_renderRejection h _ _) (resetOrder s))).trans
    rfl

theorem couponApply_enterCoupon (h : Host) (c : String) (s : Page)
    (hin : s.dom.present "coupon_code" = true) (hc : jsTrim c ≠ "") :
    couponApply h (enterCoupon c s) = rejectCoupon h (enterCoupon c s) := by
  apply couponApply_of_code
  have hp : (enterCoupon c s).dom.present "coupon_code" = true := hin
  have hv : (enterCoupon c s).dom.value "coupon_code" = c := by
    show Function.update s.dom.value "coupon_code" c "coupon_code" = c
    exact Function.update_same _ _ _
  rw [if_pos hp, hv]
  exact hc

theorem couponApply_present (h : Host) (c : String) (s : Page)
    (hin : s.dom.present "coupon_code" = true) (hc : jsTrim c ≠ "") :
    (couponApply h (enterCoupon c s)).dom.present "coupon_code" = true := by
  rw [couponApply_enterCoupon h c s hin hc, rejectCoupon_present]
  exact hin

theorem couponApply_twice (h : Host) (c d : String) (s : Page)
    (hin : s.dom.present "coupon_code" = true) (hc : jsTrim c ≠ "") (hd : jsTrim d ≠ "") :
    couponApply h (enterCoupon d (couponApply h (enterCoupon c s))) =
      couponApply h (enterCoupon d s) := by
  rw [couponApply_enterCoupon h d _ (couponApply_present h c s hin hc) hd,
    couponApply_enterCoupon h c s hin hc, couponApply_enterCoupon h d s hin hd,
    ← rejectCoupon_enterCoupon h d (enterCoupon c s), rejectCoupon_idem,
    enterCoupon_enterCoupon]

theorem applyCoupons_last (h : Host) (codes : List String) (code : String) :
    ∀ s : Page, s.dom.present "coupon_code" = true → (∀ c ∈ codes, jsTrim c ≠ "") →
      jsTrim code ≠ "" →
      applyCoupons h (codes ++ [code]) s = couponApply h (enterCoupon code s) := by
  induction codes with
  | nil => exact fun _ _ _ _ => rfl
  | cons c cs ih =>
    intro s hin hcs hc
    have h1 : jsTrim c ≠ "" := hcs c (List.mem_cons_self _ _)
    show applyCoupons h (cs ++ [code]) (couponApply h (enterCoupon c s)) = _
    rw [ih _ (couponApply_present h c s hin h1)
      (fun x hx => hcs x (List.mem_cons_of_mem _ hx)) hc]
    exact couponApply_twice h c code s hin h1 hc

/-! ### C13 -/

theorem setCouponMessage_written (t : Page) (a b : String)
    (hp : t.dom.present "coupon_msg" = true) :
    (setCouponMessage t a b).dom.text "coupon_msg" = b ∧
    (setCouponMessage t a b).dom.className "coupon_msg" = "coupon-msg " ++ a := by
  have l : setCouponMessage t a b = _ := if_pos hp
  rw [l]
  constructor
  · show Function.update t.dom.text "coupon_msg" b "coupon_msg" = b
    exact Function.update_same _ _ _
  · show Function.update t.dom.className "coupon_msg" ("coupon-msg " ++ a) "coupon_msg" = _
    exact Function.update_same _ _ _

theorem rejectCoupon_message (h : Host) (s : Page) (hm : s.dom.present "coupon_msg" = true) :
    (rejectCoupon h s).dom.text "coupon_msg" = "Invalid coupon code." ∧
    (rejectCoupon h s).dom.className "coupon_msg" = "coupon-msg bad" := by
  have e2 := sameInputs_present (writer_inputs
    (writer_setCouponMessage "bad" "Invalid coupon code.")
    (updateTotals h { s with couponCode := .null, discount := 0 }))
  have e3 : (setCouponMessage (updateTotals h { s with couponCode := .null, discount := 0 })
      "bad" "Invalid coupon code.").dom.present = s.dom.present := rejectCoupon_present h s
  have hp : (updateTotals h { s with couponCode := .null, discount := 0 }).dom.present
      "coupon_msg" = true := by
    rw [← e2, e3]
    exact hm
  have w := setCouponMessage_written _ "bad" "Invalid coupon code." hp
  exact ⟨w.1, w.2.trans (by decide)⟩

theorem loadedSession_loaded :
    initCheckoutPage demoHost nekoPayConfig [] (demoDom (some "crypto") "TON")
      (Function.update (fun _ => none) STORAGE_KEY (some storedPro)) = some loadedSession := by
  unfold loadedSession
  cases hh : initCheckoutPage demoHost nekoPayConfig [] (demoDom (some "crypto") "TON")
    (Function.update (fun _ => none) STORAGE_KEY (some storedPro)) with
  | none =>
    have h2 : (initCheckoutPage demoHost nekoPayConfig [] (demoDom (some "crypto") "TON")
      (Function.update (fun _ => none) STORAGE_KEY (some storedPro))).isSome = true := by
      decide!
    rw [hh] at h2
    exact absurd h2 (by decide)
  | some s => rfl

/-- C13: in every reachable state of a checkout session the discount is 0, no coupon code is
held and the total is the subtotal.  Applying a code that is not empty after trimming (the
coupon input exists) leaves the discount 0 and the coupon code null, writes the message
"Invalid coupon code." with the class `coupon-msg bad` where the message element exists, and,
in a reachable state, leaves the subtotal and the total at their values before the apply, the
state after the apply being reachable again.  Applying is idempotent: any sequence of such codes
applied one after the other gives the same state as applying the last one once, and a second
click changes nothing. -/
theorem coupon_always_invalid (h : Host) (s : Page) (code : String) (codes : List String) :
    (Reachable h s →
      s.discount = 0 ∧ s.couponCode = .null ∧ s.currentTotal = s.currentSubtotal ∧
      s.currentSubtotal = clampMoney s.basePrice) ∧
    (s.dom.present "coupon_code" = true → jsTrim code ≠ "" →
      (couponApply h (enterCoupon code s)).discount = 0 ∧
      (couponApply h (enterCoupon code s)).couponCode = .null ∧
      (couponApply h (enterCoupon code s)).currentTotal =
        (couponApply h (enterCoupon code s)).currentSubtotal ∧
      (s.dom.present "coupon_msg" = true →
        (couponApply h (enterCoupon code s)).dom.text "coupon_msg" = "Invalid coupon code." ∧
        (couponApply h (enterCoupon code s)).dom.className "coupon_msg" = "coupon-msg bad") ∧
      (Reachable h s →
        (couponApply h (enterCoupon code s)).currentSubtotal = s.currentSubtotal ∧
        (couponApply h (enterCoupon code s)).currentTotal = s.currentTotal ∧
        (couponApply h (enterCoupon code s)).discount = s.discount ∧
        Reachable h (couponApply h (enterCoupon code s))) ∧
      couponApply h (couponApply h (enterCoupon code s)) = couponApply h (enterCoupon code s) ∧
      ((∀ c ∈ codes, jsTrim c ≠ "") →
        applyCoupons h (codes ++ [code]) s = couponApply h (enterCoupon code s))) := by
  have inv : ∀ t : Page, Reachable h t →
      t.discount = 0 ∧ t.couponCode = .null ∧ t.currentTotal = t.currentSubtotal ∧
      t.currentSubtotal = clampMoney t.basePrice := by
    intro t hr
    have e := reachable_orderVars h t hr
    simp only [orderVars, Prod.mk.injEq] at e
    exact ⟨e.2.2.1, e.2.1, e.2.2.2.2.trans e.2.2.2.1.symm, e.2.2.2.1⟩
  refine ⟨inv s, fun hin hc => ?_⟩
  have ea := couponApply_enterCoupon h code s hin hc
  have ev := rejectCoupon_orderVars h (enterCoupon code s)
  rw [← ea] at ev
  simp only [orderVars, Prod.mk.injEq] at ev
  refine ⟨ev.2.2.1, ev.2.1, ev.2.2.2.2.trans ev.2.2.2.1.symm, fun hm => ?_, fun hr => ?_, ?_,
    fun hcs => applyCoupons_last h codes code s hin hcs hc⟩
  · rw [ea]
    exact rejectCoupon_message h (enterCoupon code s) hm
  · have i := inv s hr
    have hb : (enterCoupon code s).basePrice = s.basePrice := rfl
    refine ⟨?_, ?_, ?_, ?_⟩
    · rw [ev.2.2.2.1, hb, i.2.2.2]
    · rw [ev.2.2.2.2, hb, i.2.2.1, i.2.2.2]
    · rw [ev.2.2.1, i.1]
    · have hr2 : Reachable h (enterCoupon code s) := by
        have := Reachable.outside
          { s.dom with value := Function.update s.dom.value "coupon_code" code } s.storage s hr
        exact this
      exact Reachable.coupon _ hr2
  · have e1 : enterCoupon code (couponApply h (enterCoupon code s)) =
        couponApply h (enterCoupon code s) := by
      rw [ea, rejectCoupon_enterCoupon, enterCoupon_enterCoupon]
    have e2 := couponApply_twice h code code s hin hc hc
    rw [e1] at e2
    exact e2

/-- C13 witness: the session loaded from a stored payload of 25 USD, the code "SAVE10" applied
after the codes "A1" and " B2 ". -/
theorem coupon_always_invalid_witness :
    (loadedSession.discount = 0 ∧ loadedSession.currentTotal = loadedSession.currentSubtotal) ∧
    (couponApply demoHost (enterCoupon "SAVE10" loadedSession)).discount = 0 ∧
    (couponApply demoHost (enterCoupon "SAVE10" loadedSession)).dom.text "coupon_msg"
      = "Invalid coupon code." ∧
    (couponApply demoHost (enterCoupon "SAVE10" loadedSession)).currentTotal
      = loadedSession.currentTotal ∧
    loadedSession.currentTotal = 25 ∧
    applyCoupons demoHost (["A1", " B2 "] ++ ["SAVE10"]) loadedSession
      = couponApply demoHost (enterCoupon "SAVE10" loadedSession) :=
  have hr : Reachable demoHost loadedSession :=
    Reachable.load _ _ _ _ _ loadedSession_loaded
  have t := coupon_always_invalid demoHost loadedSession "SAVE10" ["A1", " B2 "]
  have i := t.1 hr
  have a := t.2 (by decide!) (by decide!)
  ⟨⟨i.1, i.2.2.1⟩, a.1, (a.2.2.2.1 (by decide!)).1, (a.2.2.2.2.1 hr).2.1, by decide!,
    a.2.2.2.2.2.2 (by decide!)⟩

/-! ### The payment-method handler -/

theorem setDisplay_display (s : Page) (id v k : String) :
    (setDisplay s id v).dom.display k =
      if k = id ∧ s.dom.present id = true then v else s.dom.display k := by
  unfold setDisplay
  by_cases hp : s.dom.present id = true
  · rw [if_pos hp]
    by_cases hk : k = id
    · rw [if_pos ⟨hk, hp⟩, hk]
      exact Function.update_same _ _ _
    · rw [if_neg (fun hh => hk hh.1)]
      exact Function.update_noteq hk _ _
  · rw [if_neg hp, if_neg (fun hh => hp hh.2)]

theorem updateRatesStatus_textOnly (s : Page) (v : String) :
    TextOnly s (updateRatesStatus s v) := by
  unfold updateRatesStatus
  split
  · rfl
  · exact TextOnly.unchanged s

theorem setWalletInline_textOnly (s : Page) (a b c d : String) :
    TextOnly s (setWalletInline s a b c d) := by
  unfold setWalletInline
  exact ((setText_textOnly _ _ _).chain (setText_textOnly _ _ _)).chain
    ((setText_textOnly _ _ _).chain (setText_textOnly _ _ _))

theorem updateWalletUI_display (h : Host) (s : Page) (k : String) (hk : k ≠ "wallet_box") :
    (updateWalletUI h s).dom.display k = s.dom.display k := by
  have d1 : ∀ v, (setDisplay s "wallet_box" v).dom.display k = s.dom.display k := fun v => by
    rw [setDisplay_display, if_neg (fun hh => hk hh.1)]
  have key : ∀ v a b c d m, (updateRatesStatus (setWalletInline (setDisplay s "wallet_box" v)
      a b c d) m).dom.display k = s.dom.display k := fun v a b c d m => by
    have t := (setWalletInline_textOnly (setDisplay s "wallet_box" v) a b c d).chain
      (updateRatesStatus_textOnly _ m)
    rw [t]
    exact d1 v
  unfold updateWalletUI
  simp only
  split_ifs <;> first
    | exact key _ _ _ _ _ _
    | exact d1 _

theorem togglePaymentExtras_crypto (h : Host) (s : Page)
    (hm : s.dom.checkedMethod = some "crypto") :
    togglePaymentExtras h s = updateWalletUI h
      (defaultCoin (setDisplay (setDisplay (setDisplay s "crypto_wrap" "") "card_wrap" "none")
        "crypto_note" "")) := by
  unfold togglePaymentExtras
  rw [hm]
  rfl

theorem togglePaymentExtras_other (h : Host) (s : Page)
    (hm : s.dom.checkedMethod ≠ some "crypto") :
    togglePaymentExtras h s = updateWalletUI h
      (setDisplay (setDisplay (setDisplay s "crypto_wrap" "none") "card_wrap"
        (if s.dom.checkedMethod = some "card" then "" else "none")) "crypto_note" "none") := by
  unfold togglePaymentExtras
  cases hv : s.dom.checkedMethod with
  | none => rfl
  | some v =>
    have hne : v ≠ "crypto" := fun e => hm (by rw [hv, e])
    have e1 : decide (v = "crypto") = false := decide_eq_false hne
    simp only [e1, hne, if_false, Bool.false_eq_true, Option.some.injEq, decide_eq_true_eq]

/-! ### C14 -/

theorem sameInputs_value {s t : Page} (a : SameInputs s t) : t.dom.value = s.dom.value := by
  rw [a]

theorem sameInputs_checkedMethod {s t : Page} (a : SameInputs s t) :
    t.dom.checkedMethod = s.dom.checkedMethod := by
  rw [a]

theorem sameInputs_domOnly {s t : Page} (a : SameInputs s t) : DomOnly s t := by
  unfold DomOnly
  rw [a]

theorem paymentRegions (s : Page) (a b c : String) :
    SameInputs s (setDisplay (setDisplay (setDisplay s "crypto_wrap" a) "card_wrap" b)
      "crypto_note" c) ∧
    (setDisplay (setDisplay (setDisplay s "crypto_wrap" a) "card_wrap" b)
      "crypto_note" c).dom.text = s.dom.text ∧
    (s.dom.present "crypto_wrap" = true →
      (setDisplay (setDisplay (setDisplay s "crypto_wrap" a) "card_wrap" b)
        "crypto_note" c).dom.display "crypto_wrap" = a) ∧
    (s.dom.present "card_wrap" = true →
      (setDisplay (setDisplay (setDisplay s "crypto_wrap" a) "card_wrap" b)
        "crypto_note" c).dom.display "card_wrap" = b) := by
  refine ⟨?_, ?_, fun hp => ?_, fun hp => ?_⟩
  · exact writer_inputs (writer_comp (writer_comp (writer_setDisplay "crypto_wrap" a)
      (writer_setDisplay "card_wrap" b)) (writer_setDisplay "crypto_note" c)) s
  · rw [setDisplay_text, setDisplay_text, setDisplay_text]
  · rw [setDisplay_display, if_neg (fun hh => absurd hh.1 (by decide)), setDisplay_display,
      if_neg (fun hh => absurd hh.1 (by decide)), setDisplay_display, if_pos ⟨rfl, hp⟩]
  · rw [setDisplay_display, if_neg (fun hh => absurd hh.1 (by decide)), setDisplay_display,
      if_pos ⟨rfl, (congrFun (setDisplay_present s "crypto_wrap" a) "card_wrap").trans hp⟩]

theorem defaultCoin_form (s x : Page) (r1 : SameInputs s x) :
    DomOnly s (defaultCoin x) ∧ (defaultCoin x).dom.present = s.dom.present ∧
    (defaultCoin x).dom.checkedMethod = s.dom.checkedMethod ∧
    (defaultCoin x).dom.text = x.dom.text ∧
    (defaultCoin x).dom.display = x.dom.display ∧
    (defaultCoin x).dom.value = (if s.dom.present "crypto" = true ∧ s.dom.value "crypto" = ""
      then Function.update s.dom.value "crypto" "USDT" else s.dom.value) := by
  unfold defaultCoin
  have hp := sameInputs_present r1
  have hv := sameInputs_value r1
  by_cases hc : s.dom.present "crypto" = true ∧ s.dom.value "crypto" = ""
  · have hc2 : x.dom.present "crypto" = true ∧ x.dom.value "crypto" = "" := by
      rw [hp, hv]
      exact hc
    rw [if_pos hc2, if_pos hc]
    have hm : x.dom.checkedMethod = s.dom.checkedMethod := sameInputs_checkedMethod r1
    refine ⟨(sameInputs_domOnly r1).comp rfl, hp, hm, rfl, rfl, ?_⟩
    show Function.update x.dom.value "crypto" "USDT" = _
    rw [hv]
  · have hc2 : ¬ (x.dom.present "crypto" = true ∧ x.dom.value "crypto" = "") := by
      rw [hp, hv]
      exact hc
    rw [if_neg hc2, if_neg hc]
    exact ⟨sameInputs_domOnly r1, hp, sameInputs_checkedMethod r1, rfl, rfl, hv⟩

theorem togglePaymentExtras_form (h : Host) (s : Page) :
    ∃ u : Page, togglePaymentExtras h s = updateWalletUI h u ∧ DomOnly s u ∧
      u.dom.present = s.dom.present ∧ u.dom.checkedMethod = s.dom.checkedMethod ∧
      u.dom.text = s.dom.text ∧
      u.dom.value = (if s.dom.checkedMethod = some "crypto" ∧ s.dom.present "crypto" = true ∧
        s.dom.value "crypto" = "" then Function.update s.dom.value "crypto" "USDT"
        else s.dom.value) ∧
      (s.dom.present "crypto_wrap" = true → u.dom.display "crypto_wrap" =
        if s.dom.checkedMethod = some "crypto" then "" else "none") ∧
      (s.dom.present "card_wrap" = true → u.dom.display "card_wrap" =
        if s.dom.checkedMethod = some "card" then "" else "none") := by
  by_cases hm : s.dom.checkedMethod = some "crypto"
  · have r := paymentRegions s "" "none" ""
    have f := defaultCoin_form s _ r.1
    have hcard : ¬ s.dom.checkedMethod = some "card" := by
      rw [hm]
      decide
    have hv : (if s.dom.checkedMethod = some "crypto" ∧ s.dom.present "crypto" = true ∧
        s.dom.value "crypto" = "" then Function.update s.dom.value "crypto" "USDT"
        else s.dom.value) = (if s.dom.present "crypto" = true ∧ s.dom.value "crypto" = ""
        then Function.update s.dom.value "crypto" "USDT" else s.dom.value) := by
      by_cases hc : s.dom.present "crypto" = true ∧ s.dom.value "crypto" = ""
      · rw [if_pos hc, if_pos ⟨hm, hc.1, hc.2⟩]
      · rw [if_neg hc, if_neg (fun hh => hc ⟨hh.2.1, hh.2.2⟩)]
    rw [hv, if_pos hm, if_neg hcard]
    refine ⟨_, togglePaymentExtras_crypto h s hm, f.1, f.2.1, f.2.2.1, f.2.2.2.1.trans r.2.1,
      f.2.2.2.2.2, fun hp => ?_, fun hp => ?_⟩
    · rw [f.2.2.2.2.1]
      exact r.2.2.1 hp
    · rw [f.2.2.2.2.1]
      exact r.2.2.2 hp
  · have r := paymentRegions s "none" (if s.dom.checkedMethod = some "card" then "" else "none")
      "none"
    have hv : (if s.dom.checkedMethod = some "crypto" ∧ s.dom.present "crypto" = true ∧
        s.dom.value "crypto" = "" then Function.update s.dom.value "crypto" "USDT"
        else s.dom.value) = s.dom.value := if_neg (fun hh => hm hh.1)
    have hw : (if s.dom.checkedMethod = some "crypto" then "" else "none") = "none" :=
      if_neg hm
    rw [hv, hw]
    exact ⟨_, togglePaymentExtras_other h s hm, sameInputs_domOnly r.1, sameInputs_present r.1,
      sameInputs_checkedMethod r.1, r.2.1, sameInputs_value r.1, r.2.2.1, r.2.2.2⟩

/-- C14: for every state of the page, whatever payment method is checked (none, card, crypto
or any other value), after `togglePaymentExtras` has run: if crypto is checked and the asset
selector exists, its value is not empty, being USDT (which the selector is taken to offer) if
it was empty before and unchanged otherwise; if crypto is not checked the values of all inputs,
the asset selector among them, are unchanged; the crypto region, where it exists, is shown
(display "") if crypto is checked and hidden (display "none") otherwise, the card region is
shown if card is checked and hidden otherwise, so both are hidden when nothing is checked; the
checked method and the elements are unchanged; and the handler ends with the quote computation
`updateWalletUI`, run on the page with the regions and the default coin set. -/
theorem togglePaymentExtras_states (h : Host) (s : Page) :
    (s.dom.checkedMethod = some "crypto" → s.dom.present "crypto" = true →
      (togglePaymentExtras h s).dom.value "crypto" =
        (if s.dom.value "crypto" = "" then "USDT" else s.dom.value "crypto") ∧
      (togglePaymentExtras h s).dom.value "crypto" ≠ "") ∧
    (s.dom.checkedMethod ≠ some "crypto" →
      (togglePaymentExtras h s).dom.value = s.dom.value) ∧
    (∀ k, k ≠ "crypto" → (togglePaymentExtras h s).dom.value k = s.dom.value k) ∧
    (s.dom.present "crypto_wrap" = true →
      (togglePaymentExtras h s).dom.display "crypto_wrap" =
        if s.dom.checkedMethod = some "crypto" then "" else "none") ∧
    (s.dom.present "card_wrap" = true →
      (togglePaymentExtras h s).dom.display "card_wrap" =
        if s.dom.checkedMethod = some "card" then "" else "none") ∧
    (s.dom.checkedMethod = none → s.dom.present "crypto_wrap" = true →
      s.dom.present "card_wrap" = true →
      (togglePaymentExtras h s).dom.display "crypto_wrap" = "none" ∧
      (togglePaymentExtras h s).dom.display "card_wrap" = "none") ∧
    (togglePaymentExtras h s).dom.checkedMethod = s.dom.checkedMethod ∧
    (togglePaymentExtras h s).dom.present = s.dom.present ∧
    ∃ u : Page, DomOnly s u ∧ u.dom.value = (togglePaymentExtras h s).dom.value ∧
      u.dom.checkedMethod = s.dom.checkedMethod ∧ u.dom.present = s.dom.present ∧
      u.dom.text = s.dom.text ∧ togglePaymentExtras h s = updateWalletUI h u := by
  obtain ⟨u, hT, hd, hp, hc, ht, hv, hcw, hkw⟩ := togglePaymentExtras_form h s
  have hi := writer_inputs (writer_updateWalletUI h) u
  have eV : (togglePaymentExtras h s).dom.value = u.dom.value := by
    rw [hT]
    exact sameInputs_value hi
  have eC : (togglePaymentExtras h s).dom.checkedMethod = u.dom.checkedMethod := by
    rw [hT]
    exact sameInputs_checkedMethod hi
  have eP : (togglePaymentExtras h s).dom.present = u.dom.present := by
    rw [hT]
    exact sameInputs_present hi
  have eD : ∀ k, k ≠ "wallet_box" →
      (togglePaymentExtras h s).dom.display k = u.dom.display k := fun k hk => by
    rw [hT]
    exact updateWalletUI_display h u k hk
  have dc := fun hp1 => (eD "crypto_wrap" (by decide)).trans (hcw hp1)
  have dk := fun hp1 => (eD "card_wrap" (by decide)).trans (hkw hp1)
  refine ⟨fun hm hs => ?_, fun hm => ?_, fun k hk => ?_, dc, dk, fun hn h1 h2 => ?_,
    eC.trans hc, eP.trans hp, u, hd, eV.symm, hc, hp, ht, hT⟩
  · rw [eV, hv]
    by_cases he : s.dom.value "crypto" = ""
    · rw [if_pos ⟨hm, hs, he⟩, if_pos he, Function.update_same]
      exact ⟨rfl, by decide⟩
    · rw [if_neg (fun hh => he hh.2.2), if_neg he]
      exact ⟨rfl, he⟩
  · rw [eV, hv, if_neg (fun hh => hm hh.1)]
  · rw [eV, hv]
    split
    · exact Function.update_noteq hk _ _
    · rfl
  · have a := dc h1
    have b := dk h2
    rw [hn] at a b
    exact ⟨a, b⟩

/-- C14 witness: on the loaded page with crypto checked and no coin chosen the selector
becomes USDT and the crypto region is shown; with card checked the coin stays empty and the
card region is shown. -/
theorem togglePaymentExtras_states_witness :
    ((togglePaymentExtras demoHost (demoPage (some "crypto") "" (.num (.fin 10)) 0
        embeddedUsdPrices)).dom.value "crypto" = "USDT" ∧
      (togglePaymentExtras demoHost (demoPage (some "crypto") "" (.num (.fin 10)) 0
        embeddedUsdPrices)).dom.display "crypto_wrap" = "" ∧
      (togglePaymentExtras demoHost (demoPage (some "crypto") "" (.num (.fin 10)) 0
        embeddedUsdPrices)).dom.display "card_wrap" = "none") ∧
    ((togglePaymentExtras demoHost (demoPage (some "card") "" (.num (.fin 10)) 0
        embeddedUsdPrices)).dom.value "crypto" = "" ∧
      (togglePaymentExtras demoHost (demoPage (some "card") "" (.num (.fin 10)) 0
        embeddedUsdPrices)).dom.display "card_wrap" = "") ∧
    ((togglePaymentExtras demoHost (demoPage none "" (.num (.fin 10)) 0
        embeddedUsdPrices)).dom.display "crypto_wrap" = "none" ∧
      (togglePaymentExtras demoHost (demoPage none "" (.num (.fin 10)) 0
        embeddedUsdPrices)).dom.display "card_wrap" = "none") :=
  have a := togglePaymentExtras_states demoHost
    (demoPage (some "crypto") "" (.num (.fin 10)) 0 embeddedUsdPrices)
  have b := togglePaymentExtras_states demoHost
    (demoPage (some "card") "" (.num (.fin 10)) 0 embeddedUsdPrices)
  have c := togglePaymentExtras_states demoHost
    (demoPage none "" (.num (.fin 10)) 0 embeddedUsdPrices)
  ⟨⟨(a.1 rfl rfl).1, a.2.2.2.1 rfl, a.2.2.2.2.1 rfl⟩,
    ⟨congrFun (b.2.1 (by decide)) "crypto", b.2.2.2.2.1 rfl⟩,
    c.2.2.2.2.2.1 rfl rfl rfl⟩

end Neko
